import Mathlib

/-!
Dungeons of Daggorath, `oslink.cpp`: options file and menu layer

A shallow embedding of the configuration store (`loadDefaults`, `loadOptFile`,
`saveOptFile`) and of the menu loop (`main_menu`, `menu_return`, `menu_list`,
`menu_scrollbar`) of `OS_Link`, followed by theorems about them.

Conventions of the embedding:

* C `int` values are `Int`; a value produced by `sscanf("%d")` is reduced to the
  32-bit range by `wrapInt32`.  The menu arithmetic (`row--`, `col++`, ...) is
  plain `Int` arithmetic: its operands are menu indices, far from the range ends.
* A C string is the `List Char` of its bytes before the terminating NUL.
* Constants that live in headers outside `oslink.cpp` (the `OPT_*` bit masks, the
  `*_MENU_*` identifiers, `NUM_MENU`, the menu sizes) are parameters.
* Calls into other objects whose effect is only on the display or the sound device
  are dropped, except those the theorems speak about, which are logged in a trace.
-/

namespace OSLink

/-! ## Text primitives -/

/-- White space of the classic C locale, as used by `operator>>` and `sscanf`. -/
def isSpace (c : Char) : Bool :=
  c.toNat = 32 || (9 ≤ c.toNat && c.toNat ≤ 13)

/-- Decimal digit test (`'0'`..`'9'`). -/
def isDigit (c : Char) : Bool :=
  48 ≤ c.toNat && c.toNat ≤ 57

/-- The character of a decimal digit. -/
def digitChar : Nat → Char
  | 1 => '1' | 2 => '2' | 3 => '3' | 4 => '4' | 5 => '5'
  | 6 => '6' | 7 => '7' | 8 => '8' | 9 => '9' | _ => '0'

/-- The value of a decimal digit character. -/
def digitVal (c : Char) : Nat := c.toNat - 48

/-- Decimal digits of `n`, most significant first, pushed in front of `acc`. -/
def showNatAux : Nat → Nat → List Char → List Char
  | 0, _, acc => acc
  | fuel + 1, n, acc =>
    if n < 10 then digitChar n :: acc
    else showNatAux fuel (n / 10) (digitChar (n % 10) :: acc)

/-- What `ostream << n` writes for a non-negative `n`. -/
def showNat (n : Nat) : List Char := showNatAux (n + 1) n []

/-- What `ostream << i` writes for an `int`. -/
def showInt (i : Int) : List Char :=
  if i < 0 then '-' :: showNat i.natAbs else showNat i.toNat

/-- What `ostream << b` writes for a `bool` (no `boolalpha`). -/
def showBool (b : Bool) : List Char := if b then ['1'] else ['0']

/-- Value of a run of decimal digits, continuing from `acc`. -/
def digitsVal (acc : Nat) (cs : List Char) : Nat :=
  cs.foldl (fun a c => a * 10 + digitVal c) acc

/-- Reduction of an integer to the 32-bit two's complement range: what storing a
converted value in an `int` does.  A value in range is unchanged; C leaves the result
of converting an out-of-range numeral open. -/
def wrapInt32 (x : Int) : Int := (x + 2 ^ 31) % 2 ^ 32 - 2 ^ 31

/-- The range of a C `int`. -/
def isInt32 (x : Int) : Prop := -(2 ^ 31) ≤ x ∧ x < 2 ^ 31

instance (x : Int) : Decidable (isInt32 x) := by
  unfold isInt32; infer_instance

/-- The digits at the head of `cs`, if there is at least one. -/
def scanDigits (cs : List Char) : Option Nat :=
  match cs.takeWhile isDigit with
  | [] => none
  | d :: ds => some (digitsVal 0 (d :: ds))

/-- The conversion `sscanf(text, "%d", &in)`: skip white space, take an optional sign
and a non-empty run of digits.  `some v` is the case where `sscanf` returns 1 and
stores `v`; `none` is every other return value (0 or `EOF`), where `in` is untouched. -/
def sscanf_d (text : List Char) : Option Int :=
  match text.dropWhile isSpace with
  | [] => none
  | c :: rest =>
    if c = '-' then (scanDigits rest).map fun (n : Nat) => wrapInt32 (-(n : Int))
    else if c = '+' then (scanDigits rest).map fun (n : Nat) => wrapInt32 (n : Int)
    else (scanDigits (c :: rest)).map fun (n : Nat) => wrapInt32 (n : Int)

/-- The bytes of a buffer up to its first NUL: the C string it holds. -/
def cstr (buf : List Char) : List Char := buf.takeWhile fun c => c.toNat ≠ 0

/-- Words of a text in the order `fin >> inputString` extracts them: maximal runs of
non-space characters.  `cur` is the word being read, in reverse. -/
def wordsAux : List Char → List Char → List (List Char)
  | [], cur => if cur.isEmpty then [] else [cur.reverse]
  | c :: cs, cur =>
    if isSpace c then
      if cur.isEmpty then wordsAux cs [] else cur.reverse :: wordsAux cs []
    else wordsAux cs (c :: cur)

/-- The successive contents of `inputString` in the read loop of `loadOptFile`. -/
def tokens (text : List Char) : List (List Char) := (wordsAux text []).map cstr

/-- The call `strchr(s, c)`: offset of the first `c` in `s`, `none` for a null result. -/
def strchr : List Char → Char → Option Nat
  | [], _ => none
  | x :: xs, c => if x = c then some 0 else (strchr xs c).map (· + 1)

/-! ## The option bits and the settings -/

/-- The three bit masks of `g_options` used by `oslink.cpp`; they are defined in a
header outside this file. -/
structure OptMasks where
  OPT_VECTOR : Nat
  OPT_HIRES : Nat
  OPT_STEREO : Nat
deriving DecidableEq, Repr

/-- The masks are non-empty, pairwise disjoint 32-bit patterns. -/
def OptMasks.WF (o : OptMasks) : Prop :=
  o.OPT_VECTOR < 2 ^ 32 ∧ o.OPT_HIRES < 2 ^ 32 ∧ o.OPT_STEREO < 2 ^ 32 ∧
  o.OPT_VECTOR ≠ 0 ∧ o.OPT_HIRES ≠ 0 ∧ o.OPT_STEREO ≠ 0 ∧
  o.OPT_VECTOR &&& o.OPT_HIRES = 0 ∧ o.OPT_VECTOR &&& o.OPT_STEREO = 0 ∧
  o.OPT_HIRES &&& o.OPT_STEREO = 0

instance (o : OptMasks) : Decidable o.WF := by
  unfold OptMasks.WF; infer_instance

/-- The operator `~m` on a 32-bit pattern. -/
def bitNot32 (m : Nat) : Nat := 2 ^ 32 - 1 - m

/-- The statement `g_options &= ~(OPT_VECTOR|OPT_HIRES)`. -/
def gfxNormal (o : OptMasks) (g : Nat) : Nat := g &&& bitNot32 (o.OPT_VECTOR ||| o.OPT_HIRES)

/-- The statements `g_options &= ~(OPT_VECTOR); g_options |= OPT_HIRES`. -/
def gfxHires (o : OptMasks) (g : Nat) : Nat := (g &&& bitNot32 o.OPT_VECTOR) ||| o.OPT_HIRES

/-- The statements `g_options &= ~(OPT_HIRES); g_options |= OPT_VECTOR`. -/
def gfxVector (o : OptMasks) (g : Nat) : Nat := (g &&& bitNot32 o.OPT_HIRES) ||| o.OPT_VECTOR

/-- The statement `g_options |= OPT_STEREO`. -/
def stereoOn (o : OptMasks) (g : Nat) : Nat := g ||| o.OPT_STEREO

/-- The statement `g_options &= ~OPT_STEREO`. -/
def stereoOff (o : OptMasks) (g : Nat) : Nat := g &&& bitNot32 o.OPT_STEREO

/-- Modelled from the spec: the constant `MIX_MAX_VOLUME` of SDL_mixer, the upper end of
the range `[0,128]` of the volume level. -/
def MIX_MAX_VOLUME : Int := 128

/-- Modelled from the spec: the member types, which are declared in headers outside
`oslink.cpp`; `FullScreen` and the six `game` flags are `bool`, the others `int`, the
save directory a C string, `g_options` a bit register.  The members themselves are the
variables the options file stores: members of `OS_Link`, `player`, `creature`, `game`,
and the global `g_options`. -/
structure Settings where
  creSpeedMul : Int
  turnDelay : Int
  moveDelay : Int
  keylayout : Int
  volumeLevel : Int
  savedDir : List Char
  FullScreen : Bool
  width : Int
  creatureRegen : Int
  g_options : Nat
  RandomMaze : Bool
  ShieldFix : Bool
  VisionScroll : Bool
  CreaturesIgnoreObjects : Bool
  CreaturesInstaRegen : Bool
  MarkDoorsOnScrollMaps : Bool
deriving DecidableEq, Repr

/-- Every `int` member is in the range of a C `int`. -/
def Settings.InRange (s : Settings) : Prop :=
  isInt32 s.creSpeedMul ∧ isInt32 s.turnDelay ∧ isInt32 s.moveDelay ∧
  isInt32 s.keylayout ∧ isInt32 s.volumeLevel ∧ isInt32 s.width ∧
  isInt32 s.creatureRegen

instance (s : Settings) : Decidable s.InRange := by
  unfold Settings.InRange; infer_instance

/-- The function `OS_Link::loadDefaults`. -/
def loadDefaults (o : OptMasks) (s : Settings) : Settings :=
  { s with
    turnDelay := 37
    moveDelay := 500
    keylayout := 0
    volumeLevel := MIX_MAX_VOLUME
    creSpeedMul := 200
    savedDir := "saved".toList
    FullScreen := false
    width := 1024
    creatureRegen := 5
    g_options := stereoOn o (gfxNormal o s.g_options) }

/-- Assignment of an `int` to a `bool`. -/
def intToBool (i : Int) : Bool := i != 0

/-- The `strcmp` chain of `loadOptFile` for one entry: `key` is `inputString` after
the `'='` was overwritten by NUL, `value` is the text `breakPoint` points to. -/
def applyEntry (o : OptMasks) (s : Settings) (key value : List Char) : Settings :=
  if key = "creatureSpeed".toList then
    match sscanf_d value with | some v => { s with creSpeedMul := v } | none => s
  else if key = "turnDelay".toList then
    match sscanf_d value with | some v => { s with turnDelay := v } | none => s
  else if key = "moveDelay".toList then
    match sscanf_d value with | some v => { s with moveDelay := v } | none => s
  else if key = "keylayout".toList then
    match sscanf_d value with | some v => { s with keylayout := v } | none => s
  else if key = "graphicsMode".toList then
    if value = "NORMAL".toList then
      { s with g_options := gfxNormal o s.g_options }
    else if value = "HIRES".toList then
      { s with g_options := gfxHires o s.g_options }
    else if value = "VECTOR".toList then
      { s with g_options := gfxVector o s.g_options }
    else s
  else if key = "stereoMode".toList then
    if value = "STEREO".toList then
      { s with g_options := stereoOn o s.g_options }
    else if value = "MONO".toList then
      { s with g_options := stereoOff o s.g_options }
    else s
  else if key = "volumeLevel".toList then
    match sscanf_d value with | some v => { s with volumeLevel := v } | none => s
  else if key = "saveDirectory".toList then
    { s with savedDir := "saved".toList }
  else if key = "fullScreen".toList then
    match sscanf_d value with | some v => { s with FullScreen := intToBool v } | none => s
  else if key = "screenWidth".toList then
    match sscanf_d value with | some v => { s with width := v } | none => s
  else if key = "creatureRegen".toList then
    match sscanf_d value with | some v => { s with creatureRegen := v } | none => s
  else if key = "RandomMaze".toList then
    match sscanf_d value with | some v => { s with RandomMaze := intToBool v } | none => s
  else if key = "ShieldFix".toList then
    match sscanf_d value with | some v => { s with ShieldFix := intToBool v } | none => s
  else if key = "VisionScroll".toList then
    match sscanf_d value with | some v => { s with VisionScroll := intToBool v } | none => s
  else if key = "CreaturesIgnoreObjects".toList then
    match sscanf_d value with
    | some v => { s with CreaturesIgnoreObjects := intToBool v } | none => s
  else if key = "CreaturesInstaRegen".toList then
    match sscanf_d value with
    | some v => { s with CreaturesInstaRegen := intToBool v } | none => s
  else if key = "MarkDoorsOnScrollMaps".toList then
    match sscanf_d value with
    | some v => { s with MarkDoorsOnScrollMaps := intToBool v } | none => s
  else s

/-- One pass of the read loop of `loadOptFile` on the token in `inputString`.  The
guard is the source's: `breakPoint || breakPoint == inputString ||
breakPoint == inputString + strlen(inputString) - 1`, where a null `breakPoint`
equals neither pointer. -/
def processToken (o : OptMasks) (s : Settings) (inputString : List Char) : Settings :=
  match strchr inputString '=' with
  | none => s
  | some breakPoint =>
    if true || breakPoint = 0 || breakPoint = inputString.length - 1 then
      applyEntry o s (inputString.take breakPoint) (inputString.drop (breakPoint + 1))
    else s

/-- The read loop of `loadOptFile` over the tokens of the file. -/
def loadLoop (o : OptMasks) (s : Settings) (toks : List (List Char)) : Settings :=
  toks.foldl (processToken o) s

/-- The function `OS_Link::loadOptFile`; `file` is the content of `conf/opts.ini`,
`none` when the file cannot be opened.  Tokens are assumed to fit `inputString`. -/
def loadOptFile (o : OptMasks) (s : Settings) (file : Option (List Char)) : Settings :=
  match file with
  | none => loadDefaults o s
  | some text => loadLoop o (loadDefaults o s) (tokens text)

/-- The text `OS_Link::saveOptFile` writes to `conf/opts.ini`: the pieces sent to
`fout`, in order. -/
def optFileText (o : OptMasks) (s : Settings) : List Char :=
  List.foldr (· ++ ·) []
    [ "creatureSpeed=".toList, showInt s.creSpeedMul, ['\n'],
      "turnDelay=".toList, showInt s.turnDelay, ['\n'],
      "moveDelay=".toList, showInt s.moveDelay, ['\n'],
      "keylayout=".toList, showInt s.keylayout, ['\n'],
      "volumeLevel=".toList, showInt s.volumeLevel, ['\n'],
      "saveDirectory=".toList, s.savedDir, ['\n'],
      "fullScreen=".toList, showBool s.FullScreen, ['\n'],
      "screenWidth=".toList, showInt s.width, ['\n'],
      "creatureRegen=".toList, showInt s.creatureRegen, ['\n'],
      "graphicsMode=".toList,
      (if s.g_options &&& o.OPT_VECTOR ≠ 0 then "VECTOR".toList
       else if s.g_options &&& o.OPT_HIRES ≠ 0 then "HIRES".toList
       else "NORMAL".toList), ['\n'],
      "stereoMode=".toList,
      (if s.g_options &&& o.OPT_STEREO ≠ 0 then "STEREO".toList else "MONO".toList), ['\n'],
      "RandomMaze=".toList, showBool s.RandomMaze, ['\n'],
      "ShieldFix=".toList, showBool s.ShieldFix, ['\n'],
      "VisionScroll=".toList, showBool s.VisionScroll, ['\n'],
      "CreaturesIgnoreObjects=".toList, showBool s.CreaturesIgnoreObjects, ['\n'],
      "CreaturesInstaRegen=".toList, showBool s.CreaturesInstaRegen, ['\n'],
      "MarkDoorsOnScrollMaps=".toList, showBool s.MarkDoorsOnScrollMaps, ['\n'] ]

/-! ## The settings record of the specification, read off the program variables -/

/-- The graphics modes. -/
inductive GraphicsMode where
  | NORMAL
  | HIRES
  | VECTOR
deriving DecidableEq, Repr

/-- The settings record: one field per setting of the options file. -/
structure ConfigSettings where
  turnDelay : Int
  moveDelay : Int
  keyLayout : Int
  volumeLevel : Int
  creatureSpeedMultiplier : Int
  savedDirectory : List Char
  fullScreen : Bool
  screenWidth : Int
  creatureRegenMinutes : Int
  graphicsMode : GraphicsMode
  stereoMode : Bool
  randomMaze : Bool
  shieldFix : Bool
  visionScroll : Bool
  creaturesIgnoreObjects : Bool
  creaturesInstaRegen : Bool
  markDoorsOnScrollMaps : Bool
deriving DecidableEq, Repr

/-- The graphics mode held in `g_options`, decoded as `saveOptFile` decodes it. -/
def graphicsModeOf (o : OptMasks) (g : Nat) : GraphicsMode :=
  if g &&& o.OPT_VECTOR ≠ 0 then .VECTOR
  else if g &&& o.OPT_HIRES ≠ 0 then .HIRES
  else .NORMAL

/-- The stereo flag held in `g_options`, decoded as `saveOptFile` decodes it. -/
def stereoModeOf (o : OptMasks) (g : Nat) : Bool := g &&& o.OPT_STEREO ≠ 0

/-- The settings record held by the program variables. -/
def configOf (o : OptMasks) (s : Settings) : ConfigSettings :=
  { turnDelay := s.turnDelay
    moveDelay := s.moveDelay
    keyLayout := s.keylayout
    volumeLevel := s.volumeLevel
    creatureSpeedMultiplier := s.creSpeedMul
    savedDirectory := s.savedDir
    fullScreen := s.FullScreen
    screenWidth := s.width
    creatureRegenMinutes := s.creatureRegen
    graphicsMode := graphicsModeOf o s.g_options
    stereoMode := stereoModeOf o s.g_options
    randomMaze := s.RandomMaze
    shieldFix := s.ShieldFix
    visionScroll := s.VisionScroll
    creaturesIgnoreObjects := s.CreaturesIgnoreObjects
    creaturesInstaRegen := s.CreaturesInstaRegen
    markDoorsOnScrollMaps := s.MarkDoorsOnScrollMaps }

/-- A line `key=value` without its line end. -/
def entry (key value : List Char) : List Char := key ++ '=' :: value

/-- The symbolic name `saveOptFile` writes for the graphics mode. -/
def graphicsName : GraphicsMode → List Char
  | .NORMAL => "NORMAL".toList
  | .HIRES => "HIRES".toList
  | .VECTOR => "VECTOR".toList

/-- The symbolic name `saveOptFile` writes for the stereo flag. -/
def stereoName (b : Bool) : List Char := if b then "STEREO".toList else "MONO".toList

/-- The lines of `optFileText`, in order. -/
def optFileLines (o : OptMasks) (s : Settings) : List (List Char) :=
  [ entry "creatureSpeed".toList (showInt s.creSpeedMul),
    entry "turnDelay".toList (showInt s.turnDelay),
    entry "moveDelay".toList (showInt s.moveDelay),
    entry "keylayout".toList (showInt s.keylayout),
    entry "volumeLevel".toList (showInt s.volumeLevel),
    entry "saveDirectory".toList s.savedDir,
    entry "fullScreen".toList (showBool s.FullScreen),
    entry "screenWidth".toList (showInt s.width),
    entry "creatureRegen".toList (showInt s.creatureRegen),
    entry "graphicsMode".toList (graphicsName (graphicsModeOf o s.g_options)),
    entry "stereoMode".toList (stereoName (stereoModeOf o s.g_options)),
    entry "RandomMaze".toList (showBool s.RandomMaze),
    entry "ShieldFix".toList (showBool s.ShieldFix),
    entry "VisionScroll".toList (showBool s.VisionScroll),
    entry "CreaturesIgnoreObjects".toList (showBool s.CreaturesIgnoreObjects),
    entry "CreaturesInstaRegen".toList (showBool s.CreaturesInstaRegen),
    entry "MarkDoorsOnScrollMaps".toList (showBool s.MarkDoorsOnScrollMaps) ]

/-- Each line followed by a line feed. -/
def unlines : List (List Char) → List Char
  | [] => []
  | l :: ls => l ++ '\n' :: unlines ls

/-- The keys `loadOptFile` compares `inputString` with, in the order of its `strcmp` chain. -/
def recognizedKeys : List (List Char) :=
  [ "creatureSpeed".toList, "turnDelay".toList, "moveDelay".toList, "keylayout".toList,
    "graphicsMode".toList, "stereoMode".toList, "volumeLevel".toList, "saveDirectory".toList,
    "fullScreen".toList, "screenWidth".toList, "creatureRegen".toList, "RandomMaze".toList,
    "ShieldFix".toList, "VisionScroll".toList, "CreaturesIgnoreObjects".toList,
    "CreaturesInstaRegen".toList, "MarkDoorsOnScrollMaps".toList ]

/-- The keys whose value `loadOptFile` reads with `sscanf("%d")`. -/
def numericKeys : List (List Char) :=
  [ "creatureSpeed".toList, "turnDelay".toList, "moveDelay".toList, "keylayout".toList,
    "volumeLevel".toList, "fullScreen".toList, "screenWidth".toList, "creatureRegen".toList,
    "RandomMaze".toList, "ShieldFix".toList, "VisionScroll".toList,
    "CreaturesIgnoreObjects".toList, "CreaturesInstaRegen".toList,
    "MarkDoorsOnScrollMaps".toList ]

/-- The text starts with a decimal integer: after optional white space comes an optional
sign and then a decimal digit. -/
def startsWithDecimal (v : List Char) : Bool :=
  match v.dropWhile isSpace with
  | [] => false
  | c :: rest =>
    if c = '-' ∨ c = '+' then
      match rest with
      | [] => false
      | d :: _ => isDigit d
    else isDigit c

/-- Sample option masks: three distinct bits. -/
def sampleMasks : OptMasks := { OPT_VECTOR := 1, OPT_HIRES := 2, OPT_STEREO := 4 }

/-- Sample settings: the state after `loadDefaults`, with the six `game` flags clear. -/
def sampleSettings : Settings :=
  { creSpeedMul := 200, turnDelay := 37, moveDelay := 500, keylayout := 0, volumeLevel := 128,
    savedDir := "saved".toList, FullScreen := false, width := 1024, creatureRegen := 5,
    g_options := 4, RandomMaze := false, ShieldFix := false, VisionScroll := false,
    CreaturesIgnoreObjects := false, CreaturesInstaRegen := false,
    MarkDoorsOnScrollMaps := false }

/-- Sample settings with another save directory. -/
def gamesDirSettings : Settings := { sampleSettings with savedDir := "games".toList }

/-- Sample settings with the six `game` flags set. -/
def flagsOnSettings : Settings :=
  { sampleSettings with
    RandomMaze := true, ShieldFix := true, VisionScroll := true,
    CreaturesIgnoreObjects := true, CreaturesInstaRegen := true,
    MarkDoorsOnScrollMaps := true }

/-! ## Input events and the calls that are logged -/

/-- An SDL event as the loops of `oslink.cpp` tell them apart: a key press with its key
symbol, the quit request, and any other event (which at most swaps the window). -/
inductive Event where
  | keyDown (sym : Nat)
  | quit
  | other
deriving DecidableEq, Repr

/-- The results of the successive calls of `SDL_PollEvent`: `some e` when an event was
delivered, `none` when the queue was empty and the call returned 0. -/
abbrev Polls := List (Option Event)

/-- Key symbol `SDLK_RETURN` of SDL2. -/
def SDLK_RETURN : Nat := 13
/-- Key symbol `SDLK_ESCAPE` of SDL2. -/
def SDLK_ESCAPE : Nat := 27
/-- Key symbol `SDLK_RIGHT` of SDL2. -/
def SDLK_RIGHT : Nat := 1073741903
/-- Key symbol `SDLK_LEFT` of SDL2. -/
def SDLK_LEFT : Nat := 1073741904
/-- Key symbol `SDLK_DOWN` of SDL2. -/
def SDLK_DOWN : Nat := 1073741905
/-- Key symbol `SDLK_UP` of SDL2. -/
def SDLK_UP : Nat := 1073741906

/-- The calls recorded in the trace. -/
inductive Call where
  | pause (state : Bool)
  | drawMenu (col row : Int)
  | menu_return (menu_id item : Int)
  | drawMenuList (currentChoice : Int)
  | drawMenuScrollbar (position : Int)
  | aboutBox
deriving DecidableEq, Repr

/-- The menu identifiers and the menu object of `oslink.h`, which is outside this file:
the category and item numbers used as `case` labels, `NUM_MENU`, and
`menu::getMenuSize`. -/
structure MenuIds where
  NUM_MENU : Int
  getMenuSize : Int → Int
  FILE_MENU_SWITCH : Int
  CONFIG_MENU_SWITCH : Int
  HELP_MENU_SWITCH : Int
  FILE_MENU_NEW : Int
  FILE_MENU_RETURN : Int
  FILE_MENU_ABORT : Int
  FILE_MENU_EXIT : Int
  CONFIG_MENU_FULL_SCREEN : Int
  CONFIG_MENU_VIDEO_RES : Int
  CONFIG_MENU_GRAPHICS : Int
  CONFIG_MENU_COLOR : Int
  CONFIG_MENU_VOLUME : Int
  CONFIG_MENU_SAVEDIR : Int
  CONFIG_MENU_CREATURE_SPEED : Int
  CONFIG_MENU_REGEN_SPEED : Int
  CONFIG_MENU_RANDOM_MAZE : Int
  CONFIG_MENU_SND_MODE : Int
  CONFIG_MENU_SAVE_OPT : Int
  CONFIG_MENU_DEFAULTS : Int
  HELP_MENU_HOWTOPLAY : Int
  HELP_MENU_LICENSE : Int
  HELP_MENU_ABOUT : Int

/-- The program state the menu layer reads and writes. -/
structure World where
  /-- The settings variables. -/
  cfg : Settings
  /-- The member `game.AUTFLG`. -/
  AUTFLG : Bool
  /-- The member `game.hasWon`. -/
  hasWon : Bool
  /-- The member `game.demoRestart`. -/
  demoRestart : Bool
  /-- The `static int col` of `main_menu`. -/
  col : Int
  /-- The `static int row` of `main_menu`. -/
  row : Int
  /-- The content of `conf/opts.ini`, `none` when there is no such file. -/
  optsFile : Option (List Char)
  /-- Whether `fout.open` on `conf/opts.ini` succeeds. -/
  optsWritable : Bool
  /-- The logged calls, oldest first. -/
  trace : List Call
deriving DecidableEq, Repr

/-- Append a call to the trace. -/
def World.log (w : World) (c : Call) : World := { w with trace := w.trace ++ [c] }

/-- The state at process start: the statics of `main_menu` are zero-initialised, the
settings are `cfg`, the `game` members are as its constructor leaves them. -/
def World.start (cfg : Settings) (AUTFLG hasWon demoRestart : Bool)
    (optsFile : Option (List Char)) (optsWritable : Bool) : World :=
  { cfg := cfg, AUTFLG := AUTFLG, hasWon := hasWon, demoRestart := demoRestart,
    col := 0, row := 0, optsFile := optsFile, optsWritable := optsWritable, trace := [] }

/-- How a call of one of the menu functions ends. -/
inductive Outcome (α : Type) where
  /-- The function returned `value`; `rest` are the poll results not yet consumed. -/
  | returned (value : α) (w : World) (rest : Polls)
  /-- The process ended in `quitSDL(code)`. -/
  | exited (code : Int) (w : World)
  /-- Undefined behaviour was reached: an integer division by zero, or a read outside
  the `keys` array. -/
  | crashed
  /-- The poll results ran out while the function was still in its loop. -/
  | waiting (w : World)
deriving DecidableEq, Repr

/-- Sequencing: continue with `f` after a return. -/
def Outcome.bind {α β : Type} (x : Outcome α) (f : α → World → Polls → Outcome β) :
    Outcome β :=
  match x with
  | .returned v w rest => f v w rest
  | .exited code w => .exited code w
  | .crashed => .crashed
  | .waiting w => .waiting w

/-- The state an outcome ends in, if it has one. -/
def Outcome.state? {α : Type} : Outcome α → Option World
  | .returned _ w _ => some w
  | .exited _ w => some w
  | .crashed => none
  | .waiting w => some w

/-! ## The widgets -/

/-- The loop of `OS_Link::menu_list` from the first `SDL_PollEvent` on. -/
def menu_list_loop (listSize : Int) : Int → World → Polls → Outcome Int
  | _, w, [] => .waiting w
  | currentChoice, w, none :: rest =>
    menu_list_loop listSize currentChoice (w.log (.drawMenuList currentChoice)) rest
  | currentChoice, w, some (.keyDown sym) :: rest =>
    if sym = SDLK_RETURN then .returned currentChoice w rest
    else if sym = SDLK_UP then
      menu_list_loop listSize (if currentChoice < 1 then listSize - 1 else currentChoice - 1)
        w rest
    else if sym = SDLK_DOWN then
      menu_list_loop listSize (if currentChoice > listSize - 2 then 0 else currentChoice + 1)
        w rest
    else if sym = SDLK_ESCAPE then .returned (-1) w rest
    else menu_list_loop listSize currentChoice w rest
  | _, w, some .quit :: _ => .exited 0 w
  | currentChoice, w, some .other :: rest => menu_list_loop listSize currentChoice w rest

/-- The function `OS_Link::menu_list`; position, title and captions only reach the
display. -/
def menu_list (listSize : Int) (w : World) (polls : Polls) : Outcome Int :=
  menu_list_loop listSize 0 (w.log (.drawMenuList 0)) polls

/-- The loop of `OS_Link::menu_scrollbar`; `increment` is not zero here. -/
def menu_scrollbar_loop (min oldvalue increment newMax newMin : Int) :
    Int → World → Polls → Outcome Int
  | _, w, [] => .waiting w
  | current, w, none :: rest =>
    menu_scrollbar_loop min oldvalue increment newMax newMin current w rest
  | current, w, some (.keyDown sym) :: rest =>
    if sym = SDLK_RETURN then .returned (current + min) w rest
    else if sym = SDLK_ESCAPE then .returned oldvalue w rest
    else
      let current :=
        if sym = SDLK_LEFT then (if current > newMin then current - increment else newMin)
        else if sym = SDLK_RIGHT then (if current < newMax then current + increment else newMax)
        else current
      menu_scrollbar_loop min oldvalue increment newMax newMin current
        (w.log (.drawMenuScrollbar (Int.tdiv (current - newMin) increment))) rest
  | _, w, some .quit :: _ => .exited 0 w
  | current, w, some .other :: rest =>
    menu_scrollbar_loop min oldvalue increment newMax newMin current w rest

/-- The function `OS_Link::menu_scrollbar`.  The first `drawMenuScrollbar` argument
divides by `increment`, which is zero when `max - min` is below 31. -/
def menu_scrollbar (min max current : Int) (w : World) (polls : Polls) : Outcome Int :=
  let oldvalue := current
  let increment := Int.tdiv (max - min) 31
  let newMax := increment * 31
  let newMin := 0
  let current := current - min
  if increment = 0 then .crashed
  else
    menu_scrollbar_loop min oldvalue increment newMax newMin current
      (w.log (.drawMenuScrollbar (Int.tdiv (current - newMin) increment))) polls

/-- The wait loop of the About box: any key press ends it. -/
def aboutWait : World → Polls → Outcome Bool
  | w, [] => .waiting w
  | w, none :: rest => aboutWait w rest
  | w, some (.keyDown _) :: rest => .returned false w rest
  | w, some .quit :: _ => .exited 0 w
  | w, some .other :: rest => aboutWait w rest

/-! ## Applying a menu choice -/

/-- The function `OS_Link::changeVideoRes`, as far as the settings go. -/
def changeVideoRes (newWidth : Int) (w : World) : World :=
  { w with cfg := { w.cfg with width := newWidth } }

/-- The function `OS_Link::changeFullScreen`. -/
def changeFullScreen (w : World) : World :=
  changeVideoRes w.cfg.width { w with cfg := { w.cfg with FullScreen := !w.cfg.FullScreen } }

/-- The function `OS_Link::saveOptFile`: the file gets the text, unless it cannot be
opened. -/
def saveOptFile (o : OptMasks) (w : World) : World × Bool :=
  if w.optsWritable then ({ w with optsFile := some (optFileText o w.cfg) }, true)
  else (w, false)

/-- The body of `case CONFIG_MENU_COLOR`, `case CONFIG_MENU_SAVEDIR`,
`case HELP_MENU_HOWTOPLAY` and `case HELP_MENU_LICENSE`: a list of one caption, and
`return false` whatever is chosen. -/
def caseNotice (w : World) (polls : Polls) : Outcome Bool :=
  (menu_list 1 w polls).bind fun _ w rest => .returned false w rest

/-- The `switch(item)` under `case HELP_MENU_SWITCH` and the final `return true`. -/
def helpMenu (c : MenuIds) (item : Int) (w : World) (polls : Polls) : Outcome Bool :=
  if item = c.HELP_MENU_HOWTOPLAY then caseNotice w polls
  else if item = c.HELP_MENU_LICENSE then caseNotice w polls
  else if item = c.HELP_MENU_ABOUT then
    aboutWait (w.log .aboutBox) polls
  else .returned true w polls

/-- The body of `case CONFIG_MENU_FULL_SCREEN`. -/
def caseFullScreen (w : World) (polls : Polls) : Outcome Bool :=
  (menu_list 2 w polls).bind fun choice w rest =>
    if choice = 0 then
      .returned false (if !w.cfg.FullScreen then changeFullScreen w else w) rest
    else if choice = 1 then
      .returned false (if w.cfg.FullScreen then changeFullScreen w else w) rest
    else .returned false w rest

/-- The body of `case CONFIG_MENU_VIDEO_RES`. -/
def caseVideoRes (w : World) (polls : Polls) : Outcome Bool :=
  (menu_list 4 w polls).bind fun choice w rest =>
    if choice = 0 then .returned false (changeVideoRes 640 w) rest
    else if choice = 1 then .returned false (changeVideoRes 800 w) rest
    else if choice = 2 then .returned false (changeVideoRes 1024 w) rest
    else if choice = 3 then .returned false (changeVideoRes 1280 w) rest
    else .returned false w rest

/-- The body of `case CONFIG_MENU_GRAPHICS`. -/
def caseGraphics (o : OptMasks) (w : World) (polls : Polls) : Outcome Bool :=
  (menu_list 3 w polls).bind fun choice w rest =>
    if choice = 0 then
      .returned true { w with cfg := { w.cfg with g_options := gfxNormal o w.cfg.g_options } }
        rest
    else if choice = 1 then
      .returned true { w with cfg := { w.cfg with g_options := gfxHires o w.cfg.g_options } }
        rest
    else if choice = 2 then
      .returned true { w with cfg := { w.cfg with g_options := gfxVector o w.cfg.g_options } }
        rest
    else .returned false w rest

/-- The body of `case CONFIG_MENU_VOLUME`. -/
def caseVolume (w : World) (polls : Polls) : Outcome Bool :=
  (menu_scrollbar 0 128 w.cfg.volumeLevel w polls).bind fun v w rest =>
    .returned false { w with cfg := { w.cfg with volumeLevel := v } } rest

/-- The body of `case CONFIG_MENU_CREATURE_SPEED`; after COCO the two `break`s lead to
the Help `switch`. -/
def caseCreatureSpeed (c : MenuIds) (item : Int) (w : World) (polls : Polls) :
    Outcome Bool :=
  (menu_list 2 w polls).bind fun choice w rest =>
    if choice = 0 then
      helpMenu c item { w with cfg := { w.cfg with creSpeedMul := 200 } } rest
    else if choice = 1 then
      (menu_scrollbar 50 200 w.cfg.volumeLevel w rest).bind fun v w rest =>
        .returned false { w with cfg := { w.cfg with creSpeedMul := v } } rest
    else .returned false w rest

/-- The body of `case CONFIG_MENU_REGEN_SPEED`. -/
def caseRegenSpeed (w : World) (polls : Polls) : Outcome Bool :=
  (menu_list 3 w polls).bind fun choice w rest =>
    if choice = 0 then .returned true { w with cfg := { w.cfg with creatureRegen := 5 } } rest
    else if choice = 1 then
      .returned true { w with cfg := { w.cfg with creatureRegen := 3 } } rest
    else if choice = 2 then
      .returned true { w with cfg := { w.cfg with creatureRegen := 1 } } rest
    else .returned false w rest

/-- The body of `case CONFIG_MENU_RANDOM_MAZE`. -/
def caseRandomMaze (w : World) (polls : Polls) : Outcome Bool :=
  (menu_list 2 w polls).bind fun choice w rest =>
    if choice = 0 then .returned false { w with cfg := { w.cfg with RandomMaze := true } } rest
    else if choice = 1 then
      .returned false { w with cfg := { w.cfg with RandomMaze := false } } rest
    else .returned false w rest

/-- The body of `case CONFIG_MENU_SND_MODE`; after STEREO or MONO the two `break`s lead
to the Help `switch`. -/
def caseSndMode (c : MenuIds) (o : OptMasks) (item : Int) (w : World) (polls : Polls) :
    Outcome Bool :=
  (menu_list 2 w polls).bind fun choice w rest =>
    if choice = 0 then
      helpMenu c item { w with cfg := { w.cfg with g_options := stereoOn o w.cfg.g_options } }
        rest
    else if choice = 1 then
      helpMenu c item { w with cfg := { w.cfg with g_options := stereoOff o w.cfg.g_options } }
        rest
    else .returned false w rest

/-- The body of `case CONFIG_MENU_DEFAULTS`. -/
def caseDefaults (o : OptMasks) (w : World) : World :=
  let w := { w with cfg := loadDefaults o w.cfg }
  changeVideoRes w.cfg.width w

/-- The `switch(item)` under `case CONFIG_MENU_SWITCH`; an item that matches no `case`,
or a `break` out of the `switch`, falls through to the Help `switch`. -/
def configMenu (c : MenuIds) (o : OptMasks) (item : Int) (w : World) (polls : Polls) :
    Outcome Bool :=
  if item = c.CONFIG_MENU_FULL_SCREEN then caseFullScreen w polls
  else if item = c.CONFIG_MENU_VIDEO_RES then caseVideoRes w polls
  else if item = c.CONFIG_MENU_GRAPHICS then caseGraphics o w polls
  else if item = c.CONFIG_MENU_COLOR then caseNotice w polls
  else if item = c.CONFIG_MENU_VOLUME then caseVolume w polls
  else if item = c.CONFIG_MENU_SAVEDIR then caseNotice w polls
  else if item = c.CONFIG_MENU_CREATURE_SPEED then caseCreatureSpeed c item w polls
  else if item = c.CONFIG_MENU_REGEN_SPEED then caseRegenSpeed w polls
  else if item = c.CONFIG_MENU_RANDOM_MAZE then caseRandomMaze w polls
  else if item = c.CONFIG_MENU_SND_MODE then caseSndMode c o item w polls
  else if item = c.CONFIG_MENU_SAVE_OPT then .returned true (saveOptFile o w).1 polls
  else if item = c.CONFIG_MENU_DEFAULTS then .returned true (caseDefaults o w) polls
  else helpMenu c item w polls

/-- The `switch(item)` under `case FILE_MENU_SWITCH`; an item that matches no `case`
falls through to the Configuration `switch`. -/
def fileMenu (c : MenuIds) (o : OptMasks) (item : Int) (w : World) (polls : Polls) :
    Outcome Bool :=
  if item = c.FILE_MENU_NEW then
    let w := w.log (.pause false)
    .returned true (if !w.AUTFLG then { w with hasWon := true, demoRestart := false } else w)
      polls
  else if item = c.FILE_MENU_RETURN then .returned true w polls
  else if item = c.FILE_MENU_ABORT then
    let w := w.log (.pause false)
    .returned true
      (if !w.AUTFLG then { w with AUTFLG := true, hasWon := true, demoRestart := true } else w)
      polls
  else if item = c.FILE_MENU_EXIT then .exited 0 w
  else configMenu c o item w polls

/-- The function `OS_Link::menu_return`; its call is logged on entry. -/
def menu_return (c : MenuIds) (o : OptMasks) (menu_id item : Int) (w : World)
    (polls : Polls) : Outcome Bool :=
  let w := w.log (.menu_return menu_id item)
  if menu_id = c.FILE_MENU_SWITCH then fileMenu c o item w polls
  else if menu_id = c.CONFIG_MENU_SWITCH then configMenu c o item w polls
  else if menu_id = c.HELP_MENU_SWITCH then helpMenu c item w polls
  else .returned true w polls

/-! ## The main menu -/

/-- The cursor after the `SDLK_UP`, `SDLK_DOWN`, `SDLK_LEFT` and `SDLK_RIGHT` cases of the
`switch` in `main_menu`; every other key leaves it where it is. -/
def moveCursor (c : MenuIds) (sym : Nat) (col row : Int) : Int × Int :=
  if sym = SDLK_UP then (col, if row < 1 then c.getMenuSize col - 1 else row - 1)
  else if sym = SDLK_DOWN then (col, if row > c.getMenuSize col - 2 then 0 else row + 1)
  else if sym = SDLK_LEFT then (if col < 1 then c.NUM_MENU - 1 else col - 1, 0)
  else if sym = SDLK_RIGHT then (if col > 1 then 0 else col + 1, 0)
  else (col, row)

/-- The `do ... while(!end)` loop of `main_menu`, one poll result per step; `fuel`
bounds the number of steps. -/
def main_menu_loop (c : MenuIds) (o : OptMasks) : Nat → Bool → World → Polls → Outcome Bool
  | 0, _, w, _ => .waiting w
  | _ + 1, _, w, [] => .waiting w
  | fuel + 1, end_, w, none :: rest =>
    if end_ then .returned false (w.log (.pause false)) rest
    else main_menu_loop c o fuel end_ w rest
  | fuel + 1, end_, w, some (.keyDown sym) :: rest =>
    if sym = SDLK_RETURN then
      match menu_return c o w.col w.row w rest with
      | .returned e w rest =>
        if w.col = c.FILE_MENU_SWITCH ∧ w.row = c.FILE_MENU_NEW then .returned true w rest
        else main_menu_loop c o fuel e (w.log (.drawMenu w.col w.row)) rest
      | .exited code w => .exited code w
      | .crashed => .crashed
      | .waiting w => .waiting w
    else
      let p := moveCursor c sym w.col w.row
      let w := { w with col := p.1, row := p.2 }
      main_menu_loop c o fuel (if sym = SDLK_ESCAPE then true else end_)
        (w.log (.drawMenu w.col w.row)) rest
  | _ + 1, _, w, some .quit :: _ => .exited 0 w
  | fuel + 1, end_, w, some .other :: rest => main_menu_loop c o fuel end_ w rest

/-- The function `OS_Link::main_menu`.  Each step of the loop consumes a poll result, so
the fuel `polls.length` is never used up before the poll results are. -/
def main_menu (c : MenuIds) (o : OptMasks) (w : World) (polls : Polls) : Outcome Bool :=
  main_menu_loop c o polls.length false
    ((w.log (.pause true)).log (.drawMenu w.col w.row)) polls

/-- The arguments of the `scheduler.pause` calls in a trace, oldest first. -/
def pauseCalls (t : List Call) : List Bool :=
  t.filterMap fun x => match x with
    | .pause b => some b
    | _ => none

/-- Modelled from the spec: the scheduler (outside this file) holds the pause flag of the
simulation clock; `pause(b)` sets it to `b`, and it is clear before the first call. -/
def pauseFlag (t : List Call) : Bool := ((pauseCalls t).getLast?).getD false

/-- The number of `menu_return` calls on the File category's New Game item. -/
def newGameCalls (c : MenuIds) (t : List Call) : Nat :=
  t.count (.menu_return c.FILE_MENU_SWITCH c.FILE_MENU_NEW)

/-- Sample menu identifiers: three categories of 4, 12 and 3 items, numbered from 0. -/
def sampleMenu : MenuIds :=
  { NUM_MENU := 3
    getMenuSize := fun col => if col = 0 then 4 else if col = 1 then 12 else 3
    FILE_MENU_SWITCH := 0, CONFIG_MENU_SWITCH := 1, HELP_MENU_SWITCH := 2
    FILE_MENU_NEW := 0, FILE_MENU_RETURN := 1, FILE_MENU_ABORT := 2, FILE_MENU_EXIT := 3
    CONFIG_MENU_FULL_SCREEN := 0, CONFIG_MENU_VIDEO_RES := 1, CONFIG_MENU_GRAPHICS := 2
    CONFIG_MENU_COLOR := 3, CONFIG_MENU_VOLUME := 4, CONFIG_MENU_SAVEDIR := 5
    CONFIG_MENU_CREATURE_SPEED := 6, CONFIG_MENU_REGEN_SPEED := 7
    CONFIG_MENU_RANDOM_MAZE := 8, CONFIG_MENU_SND_MODE := 9, CONFIG_MENU_SAVE_OPT := 10
    CONFIG_MENU_DEFAULTS := 11
    HELP_MENU_HOWTOPLAY := 0, HELP_MENU_LICENSE := 1, HELP_MENU_ABOUT := 2 }

/-- Sample state at process start. -/
def sampleWorld : World := World.start sampleSettings true false true none true

/-- The calls that `menu_return` and the widgets make after the entry of `menu_return`:
`pause(false)`, the widget drawings and the About box. -/
def Call.inner : Call → Bool
  | .pause b => !b
  | .drawMenu _ _ => false
  | .menu_return _ _ => false
  | .drawMenuList _ => true
  | .drawMenuScrollbar _ => true
  | .aboutBox => true

/-- State `w'` comes after `w` with the same menu cursor and a trace longer by calls
made inside `menu_return`. -/
def Ext (w w' : World) : Prop :=
  w'.col = w.col ∧ w'.row = w.row ∧ ∃ t, w'.trace = w.trace ++ t ∧ ∀ x ∈ t, x.inner = true

/-- The state an outcome ends in, if any, satisfies `P`. -/
def Outcome.All {α : Type} (P : World → Prop) (x : Outcome α) : Prop :=
  ∀ w', x.state? = some w' → P w'

/-- A returned outcome leaves at most `n` poll results. -/
def Outcome.RestLe {α : Type} (n : Nat) : Outcome α → Prop
  | .returned _ _ rest => rest.length ≤ n
  | _ => True

/-! ## Key presses, and the positions the widgets compute -/

/-- A poll stream that delivers the given key presses one after the other. -/
def presses (syms : List Nat) : Polls := syms.map fun sym => some (.keyDown sym)

/-- The value an outcome returns, if it returns. -/
def Outcome.value? {α : Type} : Outcome α → Option α
  | .returned v _ _ => some v
  | _ => none

/-- The cursor of `main_menu` after a run of key presses, none of them Return. -/
def moveCursorAll (c : MenuIds) (syms : List Nat) (col row : Int) : Int × Int :=
  syms.foldl (fun p sym => moveCursor c sym p.1 p.2) (col, row)

/-- The state of `main_menu` after a run of key presses, none of them Return: the cursor
moves and the menu is drawn after each press. -/
def afterKeys (c : MenuIds) (w : World) (syms : List Nat) : World :=
  syms.foldl
    (fun w sym =>
      let p := moveCursor c sym w.col w.row
      ({ w with col := p.1, row := p.2 }).log (.drawMenu p.1 p.2))
    w

/-- The selection of `menu_list` after one key press: the `SDLK_UP` and `SDLK_DOWN` cases. -/
def listMove (listSize : Int) (currentChoice : Int) (sym : Nat) : Int :=
  if sym = SDLK_UP then (if currentChoice < 1 then listSize - 1 else currentChoice - 1)
  else if sym = SDLK_DOWN then (if currentChoice > listSize - 2 then 0 else currentChoice + 1)
  else currentChoice

/-- The selection of `menu_list` after a run of key presses. -/
def listPos (listSize : Int) (currentChoice : Int) (syms : List Nat) : Int :=
  syms.foldl (listMove listSize) currentChoice

/-- The relative position of `menu_scrollbar` after one key press: the `SDLK_LEFT` and
`SDLK_RIGHT` cases. -/
def scrollMove (increment newMax newMin : Int) (current : Int) (sym : Nat) : Int :=
  if sym = SDLK_LEFT then (if current > newMin then current - increment else newMin)
  else if sym = SDLK_RIGHT then (if current < newMax then current + increment else newMax)
  else current

/-- The relative position of `menu_scrollbar` after a run of key presses. -/
def scrollPos (increment newMax newMin : Int) (current : Int) (syms : List Nat) : Int :=
  syms.foldl (scrollMove increment newMax newMin) current

/-- The state of `menu_scrollbar` after a run of key presses, none of them Return or
Escape: the bar is drawn after each press. -/
def scrollDraws (increment newMax newMin : Int) :
    Int → World → List Nat → World
  | _, w, [] => w
  | current, w, sym :: syms =>
    let current := scrollMove increment newMax newMin current sym
    scrollDraws increment newMax newMin current
      (w.log (.drawMenuScrollbar (Int.tdiv (current - newMin) increment))) syms

/-! ## The key table and the text entry -/

/-- Key symbol `SDLK_BACKSPACE` of SDL2. -/
def SDLK_BACKSPACE : Nat := 8
/-- Key symbol `SDLK_SPACE` of SDL2. -/
def SDLK_SPACE : Nat := 32
/-- Key symbol `SDLK_COMMA` of SDL2. -/
def SDLK_COMMA : Nat := 44
/-- Key symbol `SDLK_PERIOD` of SDL2. -/
def SDLK_PERIOD : Nat := 46
/-- Key symbol `SDLK_SLASH` of SDL2. -/
def SDLK_SLASH : Nat := 47
/-- Key symbol `SDLK_SEMICOLON` of SDL2. -/
def SDLK_SEMICOLON : Nat := 59
/-- Key symbol `SDLK_a` of SDL2. -/
def SDLK_a : Nat := 97
/-- Key symbol `SDLK_b` of SDL2. -/
def SDLK_b : Nat := 98
/-- Key symbol `SDLK_c` of SDL2. -/
def SDLK_c : Nat := 99
/-- Key symbol `SDLK_d` of SDL2. -/
def SDLK_d : Nat := 100
/-- Key symbol `SDLK_e` of SDL2. -/
def SDLK_e : Nat := 101
/-- Key symbol `SDLK_f` of SDL2. -/
def SDLK_f : Nat := 102
/-- Key symbol `SDLK_g` of SDL2. -/
def SDLK_g : Nat := 103
/-- Key symbol `SDLK_h` of SDL2. -/
def SDLK_h : Nat := 104
/-- Key symbol `SDLK_i` of SDL2. -/
def SDLK_i : Nat := 105
/-- Key symbol `SDLK_j` of SDL2. -/
def SDLK_j : Nat := 106
/-- Key symbol `SDLK_k` of SDL2. -/
def SDLK_k : Nat := 107
/-- Key symbol `SDLK_l` of SDL2. -/
def SDLK_l : Nat := 108
/-- Key symbol `SDLK_m` of SDL2. -/
def SDLK_m : Nat := 109
/-- Key symbol `SDLK_n` of SDL2. -/
def SDLK_n : Nat := 110
/-- Key symbol `SDLK_o` of SDL2. -/
def SDLK_o : Nat := 111
/-- Key symbol `SDLK_p` of SDL2. -/
def SDLK_p : Nat := 112
/-- Key symbol `SDLK_q` of SDL2. -/
def SDLK_q : Nat := 113
/-- Key symbol `SDLK_r` of SDL2. -/
def SDLK_r : Nat := 114
/-- Key symbol `SDLK_s` of SDL2. -/
def SDLK_s : Nat := 115
/-- Key symbol `SDLK_t` of SDL2. -/
def SDLK_t : Nat := 116
/-- Key symbol `SDLK_u` of SDL2. -/
def SDLK_u : Nat := 117
/-- Key symbol `SDLK_v` of SDL2. -/
def SDLK_v : Nat := 118
/-- Key symbol `SDLK_w` of SDL2. -/
def SDLK_w : Nat := 119
/-- Key symbol `SDLK_x` of SDL2. -/
def SDLK_x : Nat := 120
/-- Key symbol `SDLK_y` of SDL2. -/
def SDLK_y : Nat := 121
/-- Key symbol `SDLK_z` of SDL2. -/
def SDLK_z : Nat := 122

/-- The key symbols `menu_string` ignores, in the order of its `case` labels:
`SDLK_RSHIFT`, `SDLK_LSHIFT`, `SDLK_RCTRL`, `SDLK_LCTRL`, `SDLK_RALT`, `SDLK_LALT`,
`SDLK_RGUI`, `SDLK_LGUI`, `SDLK_MODE`, `SDLK_APPLICATION`, `SDLK_NUMLOCKCLEAR`,
`SDLK_CAPSLOCK`, `SDLK_SCROLLLOCK`, `SDLK_UP`, `SDLK_DOWN` (values of SDL2). -/
def ignoredKeys : List Nat :=
  [1073742053, 1073742049, 1073742052, 1073742048, 1073742054, 1073742050, 1073742055,
    1073742051, 1073742081, 1073741925, 1073741907, 1073741881, 1073741895, SDLK_UP,
    SDLK_DOWN]

/-- The character codes `parser.C_BS`, `parser.C_CR` and `parser.C_SP`, bytes defined
outside this file. -/
structure ParserChars where
  C_BS : Nat
  C_CR : Nat
  C_SP : Nat
deriving DecidableEq, Repr

/-- The length `keyLen` of the array `keys`. -/
def keyLen : Nat := 256

/-- One assignment `keys[a.1] = a.2`. -/
def setKey (keys : Nat → Nat) (a : Nat × Nat) : Nat → Nat :=
  fun i => if i = a.1 then a.2 else keys i

/-- The assignments of `OS_Link::init` for `keylayout == 0` (QWERTY), in order. -/
def qwertyKeys (p : ParserChars) : List (Nat × Nat) :=
  [ (SDLK_a, 'A'.toNat), (SDLK_b, 'B'.toNat), (SDLK_c, 'C'.toNat), (SDLK_d, 'D'.toNat),
    (SDLK_e, 'E'.toNat), (SDLK_f, 'F'.toNat), (SDLK_g, 'G'.toNat), (SDLK_h, 'H'.toNat),
    (SDLK_i, 'I'.toNat), (SDLK_j, 'J'.toNat), (SDLK_k, 'K'.toNat), (SDLK_l, 'L'.toNat),
    (SDLK_m, 'M'.toNat), (SDLK_n, 'N'.toNat), (SDLK_o, 'O'.toNat), (SDLK_p, 'P'.toNat),
    (SDLK_q, 'Q'.toNat), (SDLK_r, 'R'.toNat), (SDLK_s, 'S'.toNat), (SDLK_t, 'T'.toNat),
    (SDLK_u, 'U'.toNat), (SDLK_v, 'V'.toNat), (SDLK_w, 'W'.toNat), (SDLK_x, 'X'.toNat),
    (SDLK_y, 'Y'.toNat), (SDLK_z, 'Z'.toNat), (SDLK_BACKSPACE, p.C_BS),
    (SDLK_RETURN, p.C_CR), (SDLK_SPACE, p.C_SP) ]

/-- The assignments of `OS_Link::init` for `keylayout == 1` (Dvorak), in order. -/
def dvorakKeys (p : ParserChars) : List (Nat × Nat) :=
  [ (SDLK_a, 'A'.toNat), (SDLK_n, 'B'.toNat), (SDLK_i, 'C'.toNat), (SDLK_h, 'D'.toNat),
    (SDLK_d, 'E'.toNat), (SDLK_y, 'F'.toNat), (SDLK_u, 'G'.toNat), (SDLK_j, 'H'.toNat),
    (SDLK_g, 'I'.toNat), (SDLK_c, 'J'.toNat), (SDLK_v, 'K'.toNat), (SDLK_p, 'L'.toNat),
    (SDLK_m, 'M'.toNat), (SDLK_l, 'N'.toNat), (SDLK_s, 'O'.toNat), (SDLK_r, 'P'.toNat),
    (SDLK_x, 'Q'.toNat), (SDLK_o, 'R'.toNat), (SDLK_SEMICOLON, 'S'.toNat),
    (SDLK_k, 'T'.toNat), (SDLK_f, 'U'.toNat), (SDLK_PERIOD, 'V'.toNat),
    (SDLK_COMMA, 'W'.toNat), (SDLK_b, 'X'.toNat), (SDLK_t, 'Y'.toNat),
    (SDLK_SLASH, 'Z'.toNat), (SDLK_BACKSPACE, p.C_BS), (SDLK_RETURN, p.C_CR),
    (SDLK_SPACE, p.C_SP) ]

/-- The array `keys` as `OS_Link::init` leaves it: `memset` to `parser.C_SP`, then the
assignments of the layout.  The value at an index is meaningful below `keyLen`. -/
def initKeys (p : ParserChars) (keylayout : Int) : Nat → Nat :=
  let keys : Nat → Nat := fun _ => p.C_SP
  if keylayout = 0 then (qwertyKeys p).foldl setKey keys
  else if keylayout = 1 then (dvorakKeys p).foldl setKey keys
  else keys

/-- The comparison `strlen(newString) < maxLength` of a `size_t` with an `int`: the `int`
is converted to `size_t`, so a negative `maxLength` counts as a value above every string
length. -/
def strlenLt (newString : List Char) (maxLength : Int) : Bool :=
  maxLength < 0 || (newString.length : Int) < maxLength

/-- The two stores of the `default` case of `menu_string`: a NUL after the end, then the
byte at the end; storing the byte 0 leaves the string as it was. -/
def storeChar (newString : List Char) (byte : Nat) : List Char :=
  if byte = 0 then newString else newString ++ [Char.ofNat byte]

/-- The loop of `OS_Link::menu_string`; `keys` is the key table. -/
def menu_string_loop (keys : Nat → Nat) (maxLength : Int) :
    List Char → World → Polls → Outcome (List Char)
  | _, w, [] => .waiting w
  | newString, w, none :: rest => menu_string_loop keys maxLength newString w rest
  | newString, w, some (.keyDown sym) :: rest =>
    if sym = SDLK_RETURN then .returned newString w rest
    else if sym ∈ ignoredKeys then menu_string_loop keys maxLength newString w rest
    else if sym = SDLK_BACKSPACE ∨ sym = SDLK_LEFT then
      menu_string_loop keys maxLength newString.dropLast w rest
    else if sym = SDLK_ESCAPE then .returned [] w rest
    else if strlenLt newString maxLength then
      if sym < keyLen then
        menu_string_loop keys maxLength (storeChar newString (keys sym)) w rest
      else .crashed
    else menu_string_loop keys maxLength newString w rest
  | _, w, some .quit :: _ => .exited 0 w
  | newString, w, some .other :: rest => menu_string_loop keys maxLength newString w rest

/-- The function `OS_Link::menu_string`: the returned value is the string left in
`newString`.  The drawings of the title and of the string only reach the display. -/
def menu_string (keys : Nat → Nat) (maxLength : Int) (w : World) (polls : Polls) :
    Outcome (List Char) :=
  menu_string_loop keys maxLength [] w polls

/-- A key that reaches the `default` case of `menu_string` with an index inside `keys`
and a byte other than 0 in the table; Backspace is not among them. -/
def isCharKey (keys : Nat → Nat) (sym : Nat) : Bool :=
  sym != SDLK_RETURN && !(ignoredKeys.contains sym) && sym != SDLK_BACKSPACE &&
    sym != SDLK_LEFT && sym != SDLK_ESCAPE && decide (sym < keyLen) && keys sym != 0

/-- The edit the text entry makes for one key, by the words of the specification: a
character key appends its mapped character if the length is below `maxLength`, Backspace
removes the last character, and is without effect on the empty buffer. -/
def editKey (keys : Nat → Nat) (maxLength : Int) (buffer : List Char) (sym : Nat) :
    List Char :=
  if sym = SDLK_BACKSPACE then buffer.dropLast
  else if (buffer.length : Int) < maxLength then buffer ++ [Char.ofNat (keys sym)]
  else buffer

/-- The buffer after a run of keys, by the words of the specification. -/
def editAll (keys : Nat → Nat) (maxLength : Int) (buffer : List Char) (syms : List Nat) :
    List Char :=
  syms.foldl (editKey keys maxLength) buffer

/-- Sample character codes of the parser. -/
def sampleChars : ParserChars := { C_BS := 8, C_CR := 13, C_SP := 32 }

/-- Sample state whose volume level, 2, lies between two steps of the volume bar. -/
def lowVolumeWorld : World :=
  { sampleWorld with cfg := { sampleSettings with volumeLevel := 2 } }

/-! ## The state change of a committed choice -/

/-- A value committed by a widget of the Configuration menu: the index `menu_list`
returns on Enter, or the value `menu_scrollbar` returns on Enter. -/
inductive Committed where
  | index (choice : Int)
  | value (v : Int)
deriving DecidableEq, Repr

/-- The `switch(menu_list(...))` of `case CONFIG_MENU_FULL_SCREEN`, for the index
returned. -/
def applyFullScreen (choice : Int) (w : World) : World :=
  if choice = 0 then (if !w.cfg.FullScreen then changeFullScreen w else w)
  else if choice = 1 then (if w.cfg.FullScreen then changeFullScreen w else w)
  else w

/-- The `switch(menu_list(...))` of `case CONFIG_MENU_VIDEO_RES`, for the index
returned. -/
def applyVideoRes (choice : Int) (w : World) : World :=
  if choice = 0 then changeVideoRes 640 w
  else if choice = 1 then changeVideoRes 800 w
  else if choice = 2 then changeVideoRes 1024 w
  else if choice = 3 then changeVideoRes 1280 w
  else w

/-- The `switch(menu_list(...))` of `case CONFIG_MENU_GRAPHICS`, for the index
returned. -/
def applyGraphics (o : OptMasks) (choice : Int) (w : World) : World :=
  if choice = 0 then { w with cfg := { w.cfg with g_options := gfxNormal o w.cfg.g_options } }
  else if choice = 1 then
    { w with cfg := { w.cfg with g_options := gfxHires o w.cfg.g_options } }
  else if choice = 2 then
    { w with cfg := { w.cfg with g_options := gfxVector o w.cfg.g_options } }
  else w

/-- The assignment of `case CONFIG_MENU_VOLUME`, for the value the scrollbar returned. -/
def applyVolume (v : Int) (w : World) : World :=
  { w with cfg := { w.cfg with volumeLevel := v } }

/-- The assignment of `case 0` (COCO) under `case CONFIG_MENU_CREATURE_SPEED`; the
index 1 (CUSTOM) only opens the scrollbar. -/
def applySpeedChoice (choice : Int) (w : World) : World :=
  if choice = 0 then { w with cfg := { w.cfg with creSpeedMul := 200 } } else w

/-- The assignment of `case 1` (CUSTOM) under `case CONFIG_MENU_CREATURE_SPEED`, for
the value the scrollbar returned. -/
def applySpeedValue (v : Int) (w : World) : World :=
  { w with cfg := { w.cfg with creSpeedMul := v } }

/-- The `switch(menu_list(...))` of `case CONFIG_MENU_REGEN_SPEED`, for the index
returned. -/
def applyRegenSpeed (choice : Int) (w : World) : World :=
  if choice = 0 then { w with cfg := { w.cfg with creatureRegen := 5 } }
  else if choice = 1 then { w with cfg := { w.cfg with creatureRegen := 3 } }
  else if choice = 2 then { w with cfg := { w.cfg with creatureRegen := 1 } }
  else w

/-- The `switch(menu_list(...))` of `case CONFIG_MENU_RANDOM_MAZE`, for the index
returned. -/
def applyRandomMaze (choice : Int) (w : World) : World :=
  if choice = 0 then { w with cfg := { w.cfg with RandomMaze := true } }
  else if choice = 1 then { w with cfg := { w.cfg with RandomMaze := false } }
  else w

/-- The `switch(menu_list(...))` of `case CONFIG_MENU_SND_MODE`, for the index
returned. -/
def applySndMode (o : OptMasks) (choice : Int) (w : World) : World :=
  if choice = 0 then { w with cfg := { w.cfg with g_options := stereoOn o w.cfg.g_options } }
  else if choice = 1 then
    { w with cfg := { w.cfg with g_options := stereoOff o w.cfg.g_options } }
  else w

/-- What the `case` of a Configuration item does to the state once its widget has
committed a value; the `case` labels are tried in the order of `configMenu`.  The items
without a widget, `CONFIG_MENU_SAVE_OPT` and `CONFIG_MENU_DEFAULTS`, act whatever the
value is. -/
def applyCommitted (c : MenuIds) (o : OptMasks) (item : Int) (r : Committed) (w : World) :
    World :=
  if item = c.CONFIG_MENU_FULL_SCREEN then
    match r with
    | .index choice => applyFullScreen choice w
    | .value _ => w
  else if item = c.CONFIG_MENU_VIDEO_RES then
    match r with
    | .index choice => applyVideoRes choice w
    | .value _ => w
  else if item = c.CONFIG_MENU_GRAPHICS then
    match r with
    | .index choice => applyGraphics o choice w
    | .value _ => w
  else if item = c.CONFIG_MENU_COLOR then w
  else if item = c.CONFIG_MENU_VOLUME then
    match r with
    | .index _ => w
    | .value v => applyVolume v w
  else if item = c.CONFIG_MENU_SAVEDIR then w
  else if item = c.CONFIG_MENU_CREATURE_SPEED then
    match r with
    | .index choice => applySpeedChoice choice w
    | .value v => applySpeedValue v w
  else if item = c.CONFIG_MENU_REGEN_SPEED then
    match r with
    | .index choice => applyRegenSpeed choice w
    | .value _ => w
  else if item = c.CONFIG_MENU_RANDOM_MAZE then
    match r with
    | .index choice => applyRandomMaze choice w
    | .value _ => w
  else if item = c.CONFIG_MENU_SND_MODE then
    match r with
    | .index choice => applySndMode o choice w
    | .value _ => w
  else if item = c.CONFIG_MENU_SAVE_OPT then (saveOptFile o w).1
  else if item = c.CONFIG_MENU_DEFAULTS then caseDefaults o w
  else w

/-! ## Key presses of the game -/

/-- The key symbols of the `case` labels of `handle_key_down` that read the table
`keys`, in order. -/
def supportedKeys : List Nat :=
  [ SDLK_q, SDLK_w, SDLK_e, SDLK_r, SDLK_t, SDLK_y, SDLK_u, SDLK_i, SDLK_o, SDLK_p,
    SDLK_a, SDLK_s, SDLK_d, SDLK_f, SDLK_g, SDLK_h, SDLK_j, SDLK_k, SDLK_l, SDLK_z,
    SDLK_x, SDLK_c, SDLK_v, SDLK_b, SDLK_n, SDLK_m, SDLK_BACKSPACE, SDLK_RETURN,
    SDLK_SPACE ]

/-- What a call of `handle_key_down` does: the byte it passes to `parser.KBDPUT`, if
any; whether it calls `main_menu`; whether it leaves the map for the 3D view. -/
structure KeyEffect where
  kbdput : Option Nat
  openMenu : Bool
  leaveMap : Bool
deriving DecidableEq, Repr

/-- The function `OS_Link::handle_key_down`; `mapMode` tells whether
`viewer.display_mode == Viewer::MODE_MAP`, and `keys` is the key table. -/
def handle_key_down (mapMode : Bool) (keys : Nat → Nat) (sym : Nat) : KeyEffect :=
  if mapMode then
    if sym = SDLK_ESCAPE then { kbdput := none, openMenu := true, leaveMap := false }
    else { kbdput := some 32, openMenu := false, leaveMap := true }
  else if sym ∈ supportedKeys then
    { kbdput := some (keys sym), openMenu := false, leaveMap := false }
  else if sym = SDLK_ESCAPE then { kbdput := none, openMenu := true, leaveMap := false }
  else { kbdput := none, openMenu := false, leaveMap := false }

/-- The letters `'A'` to `'Z'`, as bytes. -/
def letters : List Nat := (List.range 26).map fun k => 'A'.toNat + k

/-- The keys the first 26 assignments of a layout give to the letters. -/
def letterKeys (table : List (Nat × Nat)) : List Nat := (table.take 26).map Prod.fst

/-- The letters the first 26 assignments of a layout assign. -/
def letterBytes (table : List (Nat × Nat)) : List Nat := (table.take 26).map Prod.snd

/-! ## The keys of the options file -/

/-- The keys `OS_Link::saveOptFile` writes, in the order of its statements. -/
def savedKeys : List (List Char) :=
  [ "creatureSpeed".toList, "turnDelay".toList, "moveDelay".toList, "keylayout".toList,
    "volumeLevel".toList, "saveDirectory".toList, "fullScreen".toList,
    "screenWidth".toList, "creatureRegen".toList, "graphicsMode".toList,
    "stereoMode".toList, "RandomMaze".toList, "ShieldFix".toList, "VisionScroll".toList,
    "CreaturesIgnoreObjects".toList, "CreaturesInstaRegen".toList,
    "MarkDoorsOnScrollMaps".toList ]

/-- The values `OS_Link::saveOptFile` writes after the keys, given the two symbolic
names. -/
def savedValues (s : Settings) (graphics stereo : List Char) : List (List Char) :=
  [ showInt s.creSpeedMul, showInt s.turnDelay, showInt s.moveDelay, showInt s.keylayout,
    showInt s.volumeLevel, s.savedDir, showBool s.FullScreen, showInt s.width,
    showInt s.creatureRegen, graphics, stereo, showBool s.RandomMaze, showBool s.ShieldFix,
    showBool s.VisionScroll, showBool s.CreaturesIgnoreObjects,
    showBool s.CreaturesInstaRegen, showBool s.MarkDoorsOnScrollMaps ]

/-- A key of `menu_string` that is neither Return nor Escape and, if it reaches the
`default` case, has an index inside the table `keys`. -/
def isTableKey (sym : Nat) : Bool :=
  sym != SDLK_RETURN && sym != SDLK_ESCAPE &&
    (ignoredKeys.contains sym || sym == SDLK_BACKSPACE || sym == SDLK_LEFT ||
      decide (sym < keyLen))

/-! ## Bits of the option register -/

/-- The register value `g'` differs from `g` at most in the bits of the mask `m`. -/
def sameOutside (m g g' : Nat) : Prop :=
  ∀ i, m.testBit i = false → g'.testBit i = g.testBit i

/-- At most one of `OPT_HIRES` and `OPT_VECTOR` is set in `g`. -/
def atMostOneMode (o : OptMasks) (g : Nat) : Prop :=
  g &&& o.OPT_HIRES = 0 ∨ g &&& o.OPT_VECTOR = 0

instance (o : OptMasks) (g : Nat) : Decidable (atMostOneMode o g) := by
  unfold atMostOneMode; infer_instance

/-! ## Lemmas on the text primitives -/

theorem digitChar_isDigit (d : Nat) : isDigit (digitChar d) = true := by
  unfold digitChar
  split <;> rfl

theorem digitVal_digitChar (d : Nat) (h : d < 10) : digitVal (digitChar d) = d := by
  interval_cases d <;> rfl

theorem showNatAux_append (fuel n : Nat) (acc : List Char) :
    showNatAux fuel n acc = showNatAux fuel n [] ++ acc := by
  induction fuel generalizing n acc with
  | zero => simp [showNatAux]
  | succ f ih =>
    unfold showNatAux
    split
    · simp
    · rw [ih (n / 10) (digitChar (n % 10) :: acc), ih (n / 10) [digitChar (n % 10)]]
      simp

theorem digitsVal_append (a : Nat) (xs ys : List Char) :
    digitsVal a (xs ++ ys) = digitsVal (digitsVal a xs) ys := by
  simp [digitsVal]

theorem showNatAux_spec (fuel n : Nat) (h : n < fuel) :
    (∀ c ∈ showNatAux fuel n [], isDigit c = true) ∧ showNatAux fuel n [] ≠ [] ∧
      digitsVal 0 (showNatAux fuel n []) = n := by
  induction fuel generalizing n with
  | zero => omega
  | succ f ih =>
    unfold showNatAux
    split
    · rename_i hn
      refine ⟨?_, by simp, ?_⟩
      · intro c hc
        simp at hc
        subst hc
        exact digitChar_isDigit n
      · simp [digitsVal, digitVal_digitChar n hn]
    · rename_i hn
      have hlt : n / 10 < f := by omega
      obtain ⟨h1, h2, h3⟩ := ih (n / 10) hlt
      rw [showNatAux_append]
      refine ⟨?_, by simp [h2], ?_⟩
      · intro c hc
        simp at hc
        rcases hc with hc | hc
        · exact h1 c hc
        · subst hc
          exact digitChar_isDigit _
      · rw [digitsVal_append, h3]
        simp [digitsVal, digitVal_digitChar (n % 10) (Nat.mod_lt _ (by decide))]
        omega

theorem showNat_digits (n : Nat) : ∀ c ∈ showNat n, isDigit c = true :=
  (showNatAux_spec (n + 1) n (Nat.lt_succ_self n)).1

theorem showNat_ne_nil (n : Nat) : showNat n ≠ [] :=
  (showNatAux_spec (n + 1) n (Nat.lt_succ_self n)).2.1

theorem showNat_val (n : Nat) : digitsVal 0 (showNat n) = n :=
  (showNatAux_spec (n + 1) n (Nat.lt_succ_self n)).2.2

theorem takeWhile_all {p : Char → Bool} (xs : List Char) (h : ∀ c ∈ xs, p c = true) :
    xs.takeWhile p = xs :=
  List.takeWhile_eq_self_iff.mpr h

theorem scanDigits_showNat (n : Nat) : scanDigits (showNat n) = some n := by
  unfold scanDigits
  rw [takeWhile_all _ (showNat_digits n)]
  have h := showNat_ne_nil n
  have hv := showNat_val n
  cases hs : showNat n with
  | nil => exact absurd hs h
  | cons d ds => simp [← hs, hv]

theorem isDigit_not_space (c : Char) (h : isDigit c = true) : isSpace c = false := by
  simp [isDigit, isSpace] at *
  omega

theorem isDigit_not_sign (c : Char) (h : isDigit c = true) : c ≠ '-' ∧ c ≠ '+' := by
  constructor <;> (intro hc; subst hc; revert h; decide)

theorem wrapInt32_of_range (x : Int) (h : isInt32 x) : wrapInt32 x = x := by
  unfold isInt32 at h
  unfold wrapInt32
  omega

theorem sscanf_d_showInt (i : Int) (h : isInt32 i) : sscanf_d (showInt i) = some i := by
  unfold showInt
  split
  · rename_i hneg
    obtain ⟨n, hn, hi⟩ : ∃ n : Nat, i.natAbs = n ∧ -(n : Int) = i := ⟨i.natAbs, rfl, by omega⟩
    rw [hn]
    have hsp : isSpace '-' = false := rfl
    simp only [sscanf_d, List.dropWhile, hsp, if_true, scanDigits_showNat, Option.map_some', hi]
    rw [wrapInt32_of_range i h]
  · rename_i hpos
    obtain ⟨n, hn, hi⟩ : ∃ n : Nat, i.toNat = n ∧ (n : Int) = i := ⟨i.toNat, rfl, by omega⟩
    rw [hn]
    have hne := showNat_ne_nil n
    have hd := showNat_digits n
    have hs := scanDigits_showNat n
    cases hsn : showNat n with
    | nil => exact absurd hsn hne
    | cons c cs =>
      rw [hsn] at hd hs
      have hc : isDigit c = true := hd c (by simp)
      have hsp := isDigit_not_space c hc
      obtain ⟨hm, hp⟩ := isDigit_not_sign c hc
      simp only [sscanf_d, List.dropWhile, hsp, hm, hp, if_false, hs, Option.map_some', hi]
      rw [wrapInt32_of_range i h]

theorem sscanf_d_showBool (b : Bool) : (sscanf_d (showBool b)).map intToBool = some b := by
  cases b <;> decide


/-! ## Lemmas on the option bits -/

theorem testBit_bitNot32 (k i : Nat) (hk : k < 2 ^ 32) :
    (bitNot32 k).testBit i = (decide (i < 32) && !k.testBit i) := by
  have h : bitNot32 k = 2 ^ 32 - (k + 1) := by unfold bitNot32; omega
  rw [h, Nat.testBit_two_pow_sub_succ hk]

theorem testBit_lt_of_lt (m i : Nat) (hm : m < 2 ^ 32) (h : m.testBit i = true) : i < 32 := by
  by_contra hge
  have h32 : 2 ^ 32 ≤ 2 ^ i := Nat.pow_le_pow_right (by decide) (by omega)
  have := Nat.testBit_eq_false_of_lt (Nat.lt_of_lt_of_le hm h32)
  simp [this] at h

theorem and_bitNot32_disjoint (a k m : Nat) (hk : k < 2 ^ 32) (hm : m < 2 ^ 32)
    (hd : k &&& m = 0) : (a &&& bitNot32 k) &&& m = a &&& m := by
  apply Nat.eq_of_testBit_eq
  intro i
  have hi := congrArg (fun n => n.testBit i) hd
  simp only [Nat.testBit_and, Nat.zero_testBit] at hi
  have hlt := testBit_lt_of_lt m i hm
  simp only [Nat.testBit_and, testBit_bitNot32 k i hk]
  cases hmi : m.testBit i <;> cases hki : k.testBit i <;> simp_all

theorem and_bitNot32_sub (a k m : Nat) (hk : k < 2 ^ 32) (hs : m &&& k = m) :
    (a &&& bitNot32 k) &&& m = 0 := by
  apply Nat.eq_of_testBit_eq
  intro i
  have hi := congrArg (fun n => n.testBit i) hs
  simp only [Nat.testBit_and] at hi
  simp only [Nat.testBit_and, testBit_bitNot32 k i hk, Nat.zero_testBit]
  cases hmi : m.testBit i <;> cases hki : k.testBit i <;> simp_all

theorem or_and_eq (a b m : Nat) : (a ||| b) &&& m = (a &&& m) ||| (b &&& m) := by
  apply Nat.eq_of_testBit_eq
  intro i
  simp only [Nat.testBit_and, Nat.testBit_or]
  cases a.testBit i <;> cases b.testBit i <;> cases m.testBit i <;> rfl

theorem or_eq_zero_iff (a b : Nat) : a ||| b = 0 ↔ a = 0 ∧ b = 0 := by
  constructor
  · intro h
    constructor <;> apply Nat.eq_of_testBit_eq <;> intro i <;>
      have hi := congrArg (fun n => n.testBit i) h <;>
      simp only [Nat.testBit_or, Nat.zero_testBit, Bool.or_eq_false_iff] at hi <;>
      simp [hi]
  · rintro ⟨rfl, rfl⟩
    rfl


theorem or_lt_two_pow32 (a b : Nat) (ha : a < 2 ^ 32) (hb : b < 2 ^ 32) : a ||| b < 2 ^ 32 :=
  Nat.or_lt_two_pow ha hb

theorem and_or_self_left (a b : Nat) : a &&& (a ||| b) = a := by
  apply Nat.eq_of_testBit_eq
  intro i
  simp only [Nat.testBit_and, Nat.testBit_or]
  cases a.testBit i <;> cases b.testBit i <;> rfl

theorem and_or_self_right (a b : Nat) : b &&& (a ||| b) = b := by
  apply Nat.eq_of_testBit_eq
  intro i
  simp only [Nat.testBit_and, Nat.testBit_or]
  cases a.testBit i <;> cases b.testBit i <;> rfl

theorem gfxNormal_and_vector (o : OptMasks) (h : o.WF) (g : Nat) :
    gfxNormal o g &&& o.OPT_VECTOR = 0 := by
  obtain ⟨hV, hH, -⟩ := h
  exact and_bitNot32_sub g _ _ (or_lt_two_pow32 _ _ hV hH) (and_or_self_left _ _)

theorem gfxNormal_and_hires (o : OptMasks) (h : o.WF) (g : Nat) :
    gfxNormal o g &&& o.OPT_HIRES = 0 := by
  obtain ⟨hV, hH, -⟩ := h
  exact and_bitNot32_sub g _ _ (or_lt_two_pow32 _ _ hV hH) (and_or_self_right _ _)

theorem graphicsModeOf_gfxNormal (o : OptMasks) (h : o.WF) (g : Nat) :
    graphicsModeOf o (gfxNormal o g) = .NORMAL := by
  simp [graphicsModeOf, gfxNormal_and_vector o h, gfxNormal_and_hires o h]

theorem graphicsModeOf_gfxHires (o : OptMasks) (h : o.WF) (g : Nat) :
    graphicsModeOf o (gfxHires o g) = .HIRES := by
  obtain ⟨hV, hH, hS, hV0, hH0, hS0, hVH, hVS, hHS⟩ := h
  have hHV : o.OPT_HIRES &&& o.OPT_VECTOR = 0 := by rw [Nat.and_comm]; exact hVH
  have h1 : gfxHires o g &&& o.OPT_VECTOR = 0 := by
    unfold gfxHires
    rw [or_and_eq, and_bitNot32_sub g _ _ hV (Nat.and_self _), hHV]
    rfl
  have h2 : gfxHires o g &&& o.OPT_HIRES ≠ 0 := by
    unfold gfxHires
    rw [or_and_eq, Nat.and_self]
    intro h0
    exact hH0 ((or_eq_zero_iff _ _).mp h0).2
  simp [graphicsModeOf, h1, h2]

theorem graphicsModeOf_gfxVector (o : OptMasks) (h : o.WF) (g : Nat) :
    graphicsModeOf o (gfxVector o g) = .VECTOR := by
  obtain ⟨hV, hH, hS, hV0, hH0, hS0, hVH, hVS, hHS⟩ := h
  have h2 : gfxVector o g &&& o.OPT_VECTOR ≠ 0 := by
    unfold gfxVector
    rw [or_and_eq, Nat.and_self]
    intro h0
    exact hV0 ((or_eq_zero_iff _ _).mp h0).2
  simp [graphicsModeOf, h2]

theorem graphicsModeOf_stereoOn (o : OptMasks) (h : o.WF) (g : Nat) :
    graphicsModeOf o (stereoOn o g) = graphicsModeOf o g := by
  obtain ⟨hV, hH, hS, hV0, hH0, hS0, hVH, hVS, hHS⟩ := h
  have hSV : o.OPT_STEREO &&& o.OPT_VECTOR = 0 := by rw [Nat.and_comm]; exact hVS
  have hSH : o.OPT_STEREO &&& o.OPT_HIRES = 0 := by rw [Nat.and_comm]; exact hHS
  have h1 : stereoOn o g &&& o.OPT_VECTOR = g &&& o.OPT_VECTOR := by
    unfold stereoOn
    rw [or_and_eq, hSV, Nat.or_zero]
  have h2 : stereoOn o g &&& o.OPT_HIRES = g &&& o.OPT_HIRES := by
    unfold stereoOn
    rw [or_and_eq, hSH, Nat.or_zero]
  simp [graphicsModeOf, h1, h2]

theorem graphicsModeOf_stereoOff (o : OptMasks) (h : o.WF) (g : Nat) :
    graphicsModeOf o (stereoOff o g) = graphicsModeOf o g := by
  obtain ⟨hV, hH, hS, hV0, hH0, hS0, hVH, hVS, hHS⟩ := h
  have hSV : o.OPT_STEREO &&& o.OPT_VECTOR = 0 := by rw [Nat.and_comm]; exact hVS
  have hSH : o.OPT_STEREO &&& o.OPT_HIRES = 0 := by rw [Nat.and_comm]; exact hHS
  have h1 : stereoOff o g &&& o.OPT_VECTOR = g &&& o.OPT_VECTOR :=
    and_bitNot32_disjoint g _ _ hS hV hSV
  have h2 : stereoOff o g &&& o.OPT_HIRES = g &&& o.OPT_HIRES :=
    and_bitNot32_disjoint g _ _ hS hH hSH
  simp [graphicsModeOf, h1, h2]

theorem stereoModeOf_stereoOn (o : OptMasks) (h : o.WF) (g : Nat) :
    stereoModeOf o (stereoOn o g) = true := by
  obtain ⟨hV, hH, hS, hV0, hH0, hS0, hVH, hVS, hHS⟩ := h
  have h2 : stereoOn o g &&& o.OPT_STEREO ≠ 0 := by
    unfold stereoOn
    rw [or_and_eq, Nat.and_self]
    intro h0
    exact hS0 ((or_eq_zero_iff _ _).mp h0).2
  simp [stereoModeOf, h2]

theorem stereoModeOf_stereoOff (o : OptMasks) (h : o.WF) (g : Nat) :
    stereoModeOf o (stereoOff o g) = false := by
  obtain ⟨hV, hH, hS, -⟩ := h
  have h2 : stereoOff o g &&& o.OPT_STEREO = 0 :=
    and_bitNot32_sub g _ _ hS (Nat.and_self _)
  simp [stereoModeOf, h2]

/-! ## Lemmas on tokens and entries -/

theorem wordsAux_word (w rest cur : List Char) (c : Char)
    (hw : ∀ x ∈ w, isSpace x = false) (hc : isSpace c = true) (hne : cur.reverse ++ w ≠ []) :
    wordsAux (w ++ c :: rest) cur = (cur.reverse ++ w) :: wordsAux rest [] := by
  induction w generalizing cur with
  | nil =>
    have hcur : cur ≠ [] := by simpa using hne
    simp [wordsAux, hc, hcur]
  | cons x xs ih =>
    have hx : isSpace x = false := hw x (by simp)
    have hxs : ∀ y ∈ xs, isSpace y = false := fun y hy => hw y (by simp [hy])
    have hstep : wordsAux ((x :: xs) ++ c :: rest) cur = wordsAux (xs ++ c :: rest) (x :: cur) := by
      simp [wordsAux, hx]
    rw [hstep, ih (x :: cur) hxs (by simp)]
    simp

theorem wordsAux_unlines (ls : List (List Char))
    (h : ∀ l ∈ ls, l ≠ [] ∧ ∀ x ∈ l, isSpace x = false) :
    wordsAux (unlines ls) [] = ls := by
  induction ls with
  | nil => rfl
  | cons l ls ih =>
    obtain ⟨hne, hsp⟩ := h l (by simp)
    have hrest : ∀ m ∈ ls, m ≠ [] ∧ ∀ x ∈ m, isSpace x = false :=
      fun m hm => h m (by simp [hm])
    unfold unlines
    rw [wordsAux_word l (unlines ls) [] _ hsp (by decide) (by simpa using hne), ih hrest]
    simp

theorem strchr_entry (key value : List Char) (hk : '=' ∉ key) :
    strchr (entry key value) '=' = some key.length := by
  induction key with
  | nil => simp [entry, strchr]
  | cons x xs ih =>
    have hx : x ≠ '=' := fun h => hk (by simp [h])
    have hxs : '=' ∉ xs := fun h => hk (by simp [h])
    have := ih hxs
    simp only [entry] at this
    simp [entry, strchr, hx, this]

theorem processToken_entry (o : OptMasks) (s : Settings) (key value : List Char)
    (hk : '=' ∉ key) : processToken o s (entry key value) = applyEntry o s key value := by
  unfold processToken
  rw [strchr_entry key value hk]
  simp [entry]

set_option maxRecDepth 100000 in
theorem optFileText_eq_unlines (o : OptMasks) (s : Settings) :
    optFileText o s = unlines (optFileLines o s) := by
  have hg : graphicsName (graphicsModeOf o s.g_options) =
      (if s.g_options &&& o.OPT_VECTOR ≠ 0 then "VECTOR".toList
       else if s.g_options &&& o.OPT_HIRES ≠ 0 then "HIRES".toList
       else "NORMAL".toList) := by
    unfold graphicsModeOf
    split
    · rfl
    · split <;> rfl
  have hs : stereoName (stereoModeOf o s.g_options) =
      (if s.g_options &&& o.OPT_STEREO ≠ 0 then "STEREO".toList else "MONO".toList) := by
    unfold stereoModeOf stereoName
    split <;> simp_all
  simp only [optFileText, optFileLines, hg, hs]
  generalize (if s.g_options &&& o.OPT_VECTOR ≠ 0 then "VECTOR".toList
       else if s.g_options &&& o.OPT_HIRES ≠ 0 then "HIRES".toList
       else "NORMAL".toList) = gname
  generalize (if s.g_options &&& o.OPT_STEREO ≠ 0 then "STEREO".toList else "MONO".toList) = sname
  simp only [List.foldr, unlines, entry, List.append_assoc, List.cons_append, List.nil_append,
    List.append_nil]
  rfl

theorem cstr_of_plain (l : List Char) (h : ∀ c ∈ l, c.toNat ≠ 0) : cstr l = l := by
  unfold cstr
  exact List.takeWhile_eq_self_iff.mpr (by simpa using h)

theorem isDigit_plain (c : Char) (h : isDigit c = true) : isSpace c = false ∧ c.toNat ≠ 0 := by
  refine ⟨isDigit_not_space c h, ?_⟩
  simp [isDigit] at h
  omega

theorem showInt_plain (i : Int) : ∀ c ∈ showInt i, isSpace c = false ∧ c.toNat ≠ 0 := by
  intro c hc
  unfold showInt at hc
  split at hc
  · simp at hc
    rcases hc with hc | hc
    · subst hc; decide
    · exact isDigit_plain c (showNat_digits _ c hc)
  · exact isDigit_plain c (showNat_digits _ c hc)

theorem showBool_plain (b : Bool) : ∀ c ∈ showBool b, isSpace c = false ∧ c.toNat ≠ 0 := by
  cases b <;> decide

theorem graphicsName_plain (m : GraphicsMode) :
    ∀ c ∈ graphicsName m, isSpace c = false ∧ c.toNat ≠ 0 := by
  cases m <;> decide

theorem stereoName_plain (b : Bool) : ∀ c ∈ stereoName b, isSpace c = false ∧ c.toNat ≠ 0 := by
  cases b <;> decide

theorem entry_plain (key value : List Char)
    (hk : ∀ c ∈ key, isSpace c = false ∧ c.toNat ≠ 0)
    (hv : ∀ c ∈ value, isSpace c = false ∧ c.toNat ≠ 0) :
    entry key value ≠ [] ∧ ∀ c ∈ entry key value, isSpace c = false ∧ c.toNat ≠ 0 := by
  refine ⟨by simp [entry], ?_⟩
  intro c hc
  simp only [entry, List.mem_append, List.mem_cons] at hc
  rcases hc with hc | hc | hc
  · exact hk c hc
  · subst hc; decide
  · exact hv c hc

theorem optFileLines_plain (o : OptMasks) (s : Settings)
    (hd : ∀ c ∈ s.savedDir, isSpace c = false ∧ c.toNat ≠ 0) :
    ∀ l ∈ optFileLines o s, l ≠ [] ∧ ∀ c ∈ l, isSpace c = false ∧ c.toNat ≠ 0 := by
  intro l hl
  simp only [optFileLines, List.mem_cons, List.mem_singleton, List.not_mem_nil, or_false] at hl
  rcases hl with h | h | h | h | h | h | h | h | h | h | h | h | h | h | h | h | h <;>
    subst h <;> apply entry_plain <;>
    first
      | exact showInt_plain _
      | exact showBool_plain _
      | exact graphicsName_plain _
      | exact stereoName_plain _
      | exact hd
      | decide

theorem tokens_optFileText (o : OptMasks) (s : Settings)
    (hd : ∀ c ∈ s.savedDir, isSpace c = false ∧ c.toNat ≠ 0) :
    tokens (optFileText o s) = optFileLines o s := by
  have hp := optFileLines_plain o s hd
  unfold tokens
  rw [optFileText_eq_unlines, wordsAux_unlines _ (fun l hl => ⟨(hp l hl).1, fun c hc => ((hp l hl).2 c hc).1⟩)]
  have : ∀ l ∈ optFileLines o s, cstr l = l :=
    fun l hl => cstr_of_plain l (fun c hc => ((hp l hl).2 c hc).2)
  exact (List.map_congr_left this).trans (List.map_id _)

theorem sscanf_d_showBool_eq (b : Bool) :
    sscanf_d (showBool b) = some (if b then 1 else 0) := by
  cases b <;> decide

theorem intToBool_ite (b : Bool) : intToBool (if b then 1 else 0) = b := by
  cases b <;> decide

/-- The settings after `loadLoop` has read the lines `saveOptFile` wrote for `t`. -/
theorem loadLoop_optFileLines (o : OptMasks) (s t : Settings) (ht : t.InRange) :
    loadLoop o s (optFileLines o t) =
      { creSpeedMul := t.creSpeedMul
        turnDelay := t.turnDelay
        moveDelay := t.moveDelay
        keylayout := t.keylayout
        volumeLevel := t.volumeLevel
        savedDir := "saved".toList
        FullScreen := t.FullScreen
        width := t.width
        creatureRegen := t.creatureRegen
        g_options :=
          (match stereoModeOf o t.g_options with
           | true => stereoOn o
           | false => stereoOff o)
          (match graphicsModeOf o t.g_options with
           | .NORMAL => gfxNormal o s.g_options
           | .HIRES => gfxHires o s.g_options
           | .VECTOR => gfxVector o s.g_options)
        RandomMaze := t.RandomMaze
        ShieldFix := t.ShieldFix
        VisionScroll := t.VisionScroll
        CreaturesIgnoreObjects := t.CreaturesIgnoreObjects
        CreaturesInstaRegen := t.CreaturesInstaRegen
        MarkDoorsOnScrollMaps := t.MarkDoorsOnScrollMaps } := by
  obtain ⟨h1, h2, h3, h4, h5, h6, h7⟩ := ht
  simp only [loadLoop, optFileLines, List.foldl]
  rw [processToken_entry o _ "creatureSpeed".toList _ (by decide),
    processToken_entry o _ "turnDelay".toList _ (by decide),
    processToken_entry o _ "moveDelay".toList _ (by decide),
    processToken_entry o _ "keylayout".toList _ (by decide),
    processToken_entry o _ "volumeLevel".toList _ (by decide),
    processToken_entry o _ "saveDirectory".toList _ (by decide),
    processToken_entry o _ "fullScreen".toList _ (by decide),
    processToken_entry o _ "screenWidth".toList _ (by decide),
    processToken_entry o _ "creatureRegen".toList _ (by decide),
    processToken_entry o _ "graphicsMode".toList _ (by decide),
    processToken_entry o _ "stereoMode".toList _ (by decide),
    processToken_entry o _ "RandomMaze".toList _ (by decide),
    processToken_entry o _ "ShieldFix".toList _ (by decide),
    processToken_entry o _ "VisionScroll".toList _ (by decide),
    processToken_entry o _ "CreaturesIgnoreObjects".toList _ (by decide),
    processToken_entry o _ "CreaturesInstaRegen".toList _ (by decide),
    processToken_entry o _ "MarkDoorsOnScrollMaps".toList _ (by decide)]
  cases hg : graphicsModeOf o t.g_options <;> cases hs : stereoModeOf o t.g_options <;>
    simp [applyEntry, sscanf_d_showInt, h1, h2, h3, h4, h5, h6, h7, sscanf_d_showBool_eq,
      intToBool_ite, graphicsName, stereoName]

/-! ## The options file: round trip and defaults -/

/-- Reloading the text saved for `t`, from any state `s`, gives the settings of `t` with
the save directory set to `saved`. -/
theorem configOf_load_save (o : OptMasks) (ho : o.WF) (s t : Settings) (ht : t.InRange)
    (hd : ∀ c ∈ t.savedDir, isSpace c = false ∧ c.toNat ≠ 0) :
    configOf o (loadOptFile o s (some (optFileText o t))) =
      { configOf o t with savedDirectory := "saved".toList } := by
  simp only [loadOptFile]
  rw [tokens_optFileText o t hd, loadLoop_optFileLines o _ t ht]
  cases hg : graphicsModeOf o t.g_options <;> cases hs : stereoModeOf o t.g_options <;>
    simp [configOf, hg, hs, graphicsModeOf_gfxNormal o ho, graphicsModeOf_gfxHires o ho,
      graphicsModeOf_gfxVector o ho, graphicsModeOf_stereoOn o ho, graphicsModeOf_stereoOff o ho,
      stereoModeOf_stereoOn o ho, stereoModeOf_stereoOff o ho]

theorem loadDefaults_inRange (o : OptMasks) (s : Settings) : (loadDefaults o s).InRange := by
  simp only [Settings.InRange, loadDefaults, MIX_MAX_VOLUME]
  decide

theorem saved_plain : ∀ c ∈ "saved".toList, isSpace c = false ∧ c.toNat ≠ 0 := by
  decide

/-- C1 (as stated, refuted): the settings `gamesDirSettings` have save directory `games`;
after `saveOptFile` and `loadOptFile` the save directory is `saved`. -/
theorem roundtrip_savedDir_counterexample :
    gamesDirSettings.InRange ∧
    configOf sampleMasks
        (loadOptFile sampleMasks gamesDirSettings
          (some (optFileText sampleMasks gamesDirSettings))) ≠
      configOf sampleMasks gamesDirSettings := by
  decide

/-- C1 (amended): for all settings `t` whose `int` members are 32-bit values and whose
save directory is `saved`, `loadOptFile` run from any state `s` on the text `saveOptFile`
writes for `t` yields settings equal to those of `t` in every field. -/
theorem roundtrip_load_save (o : OptMasks) (ho : o.WF) (s t : Settings) (ht : t.InRange)
    (hd : t.savedDir = "saved".toList) :
    configOf o (loadOptFile o s (some (optFileText o t))) = configOf o t := by
  rw [configOf_load_save o ho s t ht (by rw [hd]; exact saved_plain)]
  simp [configOf, hd]

/-- The amended round trip at the sample settings with their flags set. -/
theorem roundtrip_load_save_witness :
    sampleMasks.WF ∧ flagsOnSettings.InRange ∧ flagsOnSettings.savedDir = "saved".toList ∧
    configOf sampleMasks
        (loadOptFile sampleMasks sampleSettings
          (some (optFileText sampleMasks flagsOnSettings))) =
      configOf sampleMasks flagsOnSettings :=
  ⟨by decide, by decide, by decide,
    roundtrip_load_save sampleMasks (by decide) sampleSettings flagsOnSettings (by decide)
      (by decide)⟩

/-- C2: the settings right after `loadDefaults`, saved with `saveOptFile` and reloaded
with `loadOptFile` from any state `s`, come back equal in every field. -/
theorem roundtrip_defaults (o : OptMasks) (ho : o.WF) (s s0 : Settings) :
    configOf o (loadOptFile o s (some (optFileText o (loadDefaults o s0)))) =
      configOf o (loadDefaults o s0) := by
  rw [configOf_load_save o ho s _ (loadDefaults_inRange o s0)
    (by simp only [loadDefaults]; exact saved_plain)]
  simp [configOf, loadDefaults]

/-- The defaults round trip at the sample masks, reloading into a state with other values. -/
theorem roundtrip_defaults_witness :
    sampleMasks.WF ∧
    configOf sampleMasks
        (loadOptFile sampleMasks gamesDirSettings
          (some (optFileText sampleMasks (loadDefaults sampleMasks flagsOnSettings)))) =
      configOf sampleMasks (loadDefaults sampleMasks flagsOnSettings) :=
  ⟨by decide, roundtrip_defaults sampleMasks (by decide) gamesDirSettings flagsOnSettings⟩

/-- C3 (the code at the failing input): `loadDefaults` run on settings whose six `game`
flags are set leaves all six set, while the eleven settings it assigns take their
baseline values. -/
theorem loadDefaults_keeps_game_flags :
    configOf sampleMasks (loadDefaults sampleMasks flagsOnSettings) =
      { turnDelay := 37, moveDelay := 500, keyLayout := 0, volumeLevel := 128,
        creatureSpeedMultiplier := 200, savedDirectory := "saved".toList, fullScreen := false,
        screenWidth := 1024, creatureRegenMinutes := 5, graphicsMode := .NORMAL,
        stereoMode := true, randomMaze := true, shieldFix := true, visionScroll := true,
        creaturesIgnoreObjects := true, creaturesInstaRegen := true,
        markDoorsOnScrollMaps := true } := by
  decide

/-! ## The options file: entries that change nothing -/

theorem strchr_none (tok : List Char) (c : Char) (h : c ∉ tok) : strchr tok c = none := by
  induction tok with
  | nil => rfl
  | cons x xs ih =>
    have hx : x ≠ c := fun e => h (by simp [e])
    have hxs : c ∉ xs := fun e => h (by simp [e])
    simp [strchr, hx, ih hxs]

theorem processToken_no_equals (o : OptMasks) (s : Settings) (tok : List Char)
    (h : '=' ∉ tok) : processToken o s tok = s := by
  unfold processToken
  rw [strchr_none tok '=' h]

theorem applyEntry_empty_key (o : OptMasks) (s : Settings) (value : List Char) :
    applyEntry o s [] value = s := by
  simp [applyEntry]

theorem sscanf_d_nil : sscanf_d [] = none := rfl

theorem applyEntry_unknown (o : OptMasks) (s : Settings) (key value : List Char)
    (hu : key ∉ recognizedKeys) : applyEntry o s key value = s := by
  simp only [recognizedKeys, List.mem_cons, List.mem_singleton, List.not_mem_nil, or_false,
    not_or] at hu
  obtain ⟨h1, h2, h3, h4, h5, h6, h7, h8, h9, h10, h11, h12, h13, h14, h15, h16, h17⟩ := hu
  unfold applyEntry
  simp only [h1, h2, h3, h4, h5, h6, h7, h8, h9, h10, h11, h12, h13, h14, h15, h16, h17,
    if_false]

theorem applyEntry_empty_value (o : OptMasks) (s : Settings) (key : List Char)
    (hs : s.savedDir = "saved".toList) : applyEntry o s key [] = s := by
  by_cases hk : key ∈ recognizedKeys
  · simp only [recognizedKeys, List.mem_cons, List.mem_singleton, List.not_mem_nil,
      or_false] at hk
    rcases hk with h | h | h | h | h | h | h | h | h | h | h | h | h | h | h | h | h <;>
      subst h <;> simp [applyEntry, sscanf_d_nil]
    cases s
    simp only [Settings.mk.injEq, true_and, and_true]
    exact hs.symm
  · exact applyEntry_unknown o s key [] hk

theorem applyEntry_savedDir (o : OptMasks) (s : Settings) (key value : List Char)
    (hs : s.savedDir = "saved".toList) : (applyEntry o s key value).savedDir = "saved".toList := by
  by_cases hk : key ∈ recognizedKeys
  · simp only [recognizedKeys, List.mem_cons, List.mem_singleton, List.not_mem_nil,
      or_false] at hk
    rcases hk with h | h | h | h | h | h | h | h | h | h | h | h | h | h | h | h | h <;>
      subst h <;> simp only [applyEntry, String.toList, List.cons.injEq, Char.reduceEq,
        false_and, and_false, and_self, if_false, if_true, reduceCtorEq] <;>
      first
        | rfl
        | (split <;> exact hs)
        | (split_ifs <;> exact hs)
  · rw [applyEntry_unknown o s key value hk]
    exact hs

theorem processToken_savedDir (o : OptMasks) (s : Settings) (tok : List Char)
    (hs : s.savedDir = "saved".toList) : (processToken o s tok).savedDir = "saved".toList := by
  unfold processToken
  split
  · exact hs
  · simp only [Bool.true_or, if_true]
    exact applyEntry_savedDir o s _ _ hs

theorem loadLoop_savedDir (o : OptMasks) (s : Settings) (toks : List (List Char))
    (hs : s.savedDir = "saved".toList) : (loadLoop o s toks).savedDir = "saved".toList := by
  induction toks generalizing s with
  | nil => exact hs
  | cons t ts ih => exact ih (processToken o s t) (processToken_savedDir o s t hs)

theorem loadLoop_append (o : OptMasks) (s : Settings) (xs ys : List (List Char)) :
    loadLoop o s (xs ++ ys) = loadLoop o (loadLoop o s xs) ys := by
  simp [loadLoop]

theorem processToken_malformed (o : OptMasks) (s : Settings) (tok : List Char)
    (hs : s.savedDir = "saved".toList)
    (h : '=' ∉ tok ∨ (∃ v, tok = '=' :: v) ∨ ∃ k, '=' ∉ k ∧ tok = k ++ ['=']) :
    processToken o s tok = s := by
  rcases h with h | ⟨v, rfl⟩ | ⟨k, hk, rfl⟩
  · exact processToken_no_equals o s tok h
  · have := processToken_entry o s [] v (by simp)
    simp only [entry, List.nil_append] at this
    rw [this, applyEntry_empty_key]
  · have := processToken_entry o s k [] hk
    simp only [entry] at this
    rw [this, applyEntry_empty_value o s k hs]

/-- C4 (as stated, refuted): the token `turnDelay=5=` ends in `'='`, and processing it
in the state `loadOptFile` starts its read loop with changes `turnDelay` from 37 to 5. -/
theorem trailing_equals_counterexample :
    "turnDelay=5=".toList.getLast? = some '=' ∧
    (loadDefaults sampleMasks sampleSettings).turnDelay = 37 ∧
    (processToken sampleMasks (loadDefaults sampleMasks sampleSettings)
      "turnDelay=5=".toList).turnDelay = 5 ∧
    loadOptFile sampleMasks sampleSettings (some "turnDelay=5= moveDelay=9".toList) ≠
      loadOptFile sampleMasks sampleSettings (some "moveDelay=9".toList) := by
  decide

/-- C4 (amended): a token that contains no `'='`, or starts with `'='`, or whose first
`'='` is its last character, changes no settings field when `loadOptFile` processes it,
and the tokens after it are processed as if it were absent: a file whose tokens are
`pre`, the token, `post` loads like a file whose tokens are `pre`, `post`. -/
theorem malformed_token_skipped (o : OptMasks) (s : Settings) (text text' : List Char)
    (pre post : List (List Char)) (tok : List Char)
    (h : '=' ∉ tok ∨ (∃ v, tok = '=' :: v) ∨ ∃ k, '=' ∉ k ∧ tok = k ++ ['='])
    (ht : tokens text = pre ++ tok :: post) (ht' : tokens text' = pre ++ post) :
    loadOptFile o s (some text) = loadOptFile o s (some text') := by
  simp only [loadOptFile, ht, ht', loadLoop_append]
  have hs : (loadLoop o (loadDefaults o s) pre).savedDir = "saved".toList :=
    loadLoop_savedDir o _ pre rfl
  show loadLoop o (processToken o (loadLoop o (loadDefaults o s) pre) tok) post = _
  rw [processToken_malformed o _ tok hs h]

/-- The amended claim on a file with the tokens `turnDelay=5`, `volumeLevel=`,
`moveDelay=9`: the middle token has its only `'='` at the end. -/
theorem malformed_token_skipped_witness :
    loadOptFile sampleMasks flagsOnSettings
        (some "turnDelay=5 volumeLevel= moveDelay=9".toList) =
      loadOptFile sampleMasks flagsOnSettings (some "turnDelay=5 moveDelay=9".toList) :=
  malformed_token_skipped sampleMasks flagsOnSettings _ _ ["turnDelay=5".toList]
    ["moveDelay=9".toList] "volumeLevel=".toList
    (Or.inr (Or.inr ⟨"volumeLevel".toList, by decide, by decide⟩)) (by decide) (by decide)

/-- C5: an entry `key=value` whose key is none of the 17 recognized names leaves every
settings field unchanged, in every state, and the read loop goes on with the tokens after
it. -/
theorem unknown_key_ignored (o : OptMasks) (s : Settings) (key value : List Char)
    (rest : List (List Char)) (hk : '=' ∉ key) (hu : key ∉ recognizedKeys) :
    processToken o s (entry key value) = s ∧
    loadLoop o s (entry key value :: rest) = loadLoop o s rest := by
  have h : processToken o s (entry key value) = s := by
    rw [processToken_entry o s key value hk, applyEntry_unknown o s key value hu]
  refine ⟨h, ?_⟩
  show loadLoop o (processToken o s (entry key value)) rest = _
  rw [h]

/-- The entry `foo=bar` in front of `turnDelay=5`. -/
theorem unknown_key_ignored_witness :
    processToken sampleMasks flagsOnSettings (entry "foo".toList "bar".toList) =
      flagsOnSettings ∧
    loadLoop sampleMasks flagsOnSettings
        [entry "foo".toList "bar".toList, "turnDelay=5".toList] =
      loadLoop sampleMasks flagsOnSettings ["turnDelay=5".toList] :=
  unknown_key_ignored sampleMasks flagsOnSettings "foo".toList "bar".toList
    ["turnDelay=5".toList] (by decide) (by decide)

theorem scanDigits_none (cs : List Char)
    (h : match cs with | [] => True | d :: _ => isDigit d = false) : scanDigits cs = none := by
  cases cs with
  | nil => rfl
  | cons d ds =>
    simp only at h
    simp [scanDigits, List.takeWhile, h]

theorem sscanf_d_none (v : List Char) (h : startsWithDecimal v = false) :
    sscanf_d v = none := by
  unfold startsWithDecimal at h
  unfold sscanf_d
  cases hd : v.dropWhile isSpace with
  | nil => rfl
  | cons c rest =>
    rw [hd] at h
    simp only at h ⊢
    by_cases hm : c = '-'
    · have hr : scanDigits rest = none := by
        apply scanDigits_none
        cases rest <;> simp_all
      simp [hm, hr]
    · by_cases hp : c = '+'
      · have hr : scanDigits rest = none := by
          apply scanDigits_none
          cases rest <;> simp_all
        simp [hp, hr]
      · have hr : scanDigits (c :: rest) = none := by
          apply scanDigits_none
          simp_all
        simp [hm, hp, hr]

/-- C6: for each of the 14 numeric keys, an entry whose value does not start with a
decimal integer leaves that field and every other settings field unchanged, in every
state, and the read loop goes on with the tokens after it. -/
theorem unparsable_number_ignored (o : OptMasks) (s : Settings) (key value : List Char)
    (rest : List (List Char)) (hk : key ∈ numericKeys) (hv : startsWithDecimal value = false) :
    processToken o s (entry key value) = s ∧
    loadLoop o s (entry key value :: rest) = loadLoop o s rest := by
  have hn := sscanf_d_none value hv
  have h : processToken o s (entry key value) = s := by
    simp only [numericKeys, List.mem_cons, List.mem_singleton, List.not_mem_nil, or_false] at hk
    rcases hk with h | h | h | h | h | h | h | h | h | h | h | h | h | h <;>
      subst h <;> rw [processToken_entry o s _ value (by decide)] <;>
      simp [applyEntry, hn]
  refine ⟨h, ?_⟩
  show loadLoop o (processToken o s (entry key value)) rest = _
  rw [h]

/-- The entry `volumeLevel=loud` in front of `turnDelay=5`. -/
theorem unparsable_number_ignored_witness :
    processToken sampleMasks flagsOnSettings (entry "volumeLevel".toList "loud".toList) =
      flagsOnSettings ∧
    loadLoop sampleMasks flagsOnSettings
        [entry "volumeLevel".toList "loud".toList, "turnDelay=5".toList] =
      loadLoop sampleMasks flagsOnSettings ["turnDelay=5".toList] :=
  unparsable_number_ignored sampleMasks flagsOnSettings "volumeLevel".toList "loud".toList
    ["turnDelay=5".toList] (by decide) (by decide)

/-! ## The menu: what `menu_return` and the widgets do to the trace -/

theorem ext_refl (w : World) : Ext w w :=
  ⟨rfl, rfl, [], by simp, by simp⟩

theorem ext_trans {w w1 w2 : World} (h1 : Ext w w1) (h2 : Ext w1 w2) : Ext w w2 := by
  obtain ⟨hc1, hr1, t1, ht1, hi1⟩ := h1
  obtain ⟨hc2, hr2, t2, ht2, hi2⟩ := h2
  refine ⟨hc2.trans hc1, hr2.trans hr1, t1 ++ t2, by rw [ht2, ht1, List.append_assoc], ?_⟩
  intro x hx
  rcases List.mem_append.mp hx with h | h
  · exact hi1 x h
  · exact hi2 x h

theorem ext_log {w w1 : World} (h : Ext w w1) (c : Call) (hc : c.inner = true) :
    Ext w (w1.log c) :=
  ext_trans h ⟨rfl, rfl, [c], rfl, by simpa using hc⟩

theorem ext_same {w w1 w2 : World} (h : Ext w w1) (hc : w2.col = w1.col)
    (hr : w2.row = w1.row) (ht : w2.trace = w1.trace) : Ext w w2 :=
  ext_trans h ⟨hc, hr, [], by simp [ht], by simp⟩

theorem all_bind {α β : Type} {P : World → Prop} {x : Outcome α}
    {f : α → World → Polls → Outcome β} (hx : x.All P)
    (hf : ∀ v w1 r, x = .returned v w1 r → (f v w1 r).All P) : (x.bind f).All P := by
  cases x with
  | returned v w1 r => exact hf v w1 r rfl
  | exited code w1 => exact hx
  | crashed => exact hx
  | waiting w1 => exact hx

theorem all_returned {α : Type} {P : World → Prop} {v : α} {w : World} {r : Polls}
    (h : P w) : (Outcome.returned v w r).All P := by
  intro w' hw
  simp only [Outcome.state?, Option.some.injEq] at hw
  exact hw ▸ h

theorem all_exited {α : Type} {P : World → Prop} {code : Int} {w : World}
    (h : P w) : (Outcome.exited code w : Outcome α).All P := by
  intro w' hw
  simp only [Outcome.state?, Option.some.injEq] at hw
  exact hw ▸ h

theorem all_waiting {α : Type} {P : World → Prop} {w : World}
    (h : P w) : (Outcome.waiting w : Outcome α).All P := by
  intro w' hw
  simp only [Outcome.state?, Option.some.injEq] at hw
  exact hw ▸ h

theorem all_crashed {α : Type} {P : World → Prop} : (Outcome.crashed : Outcome α).All P := by
  intro w' hw
  simp [Outcome.state?] at hw

theorem all_of_returned {α : Type} {P : World → Prop} {x : Outcome α} {v : α} {w : World}
    {r : Polls} (h : x.All P) (hx : x = .returned v w r) : P w := by
  subst hx
  exact h w rfl

theorem menu_list_loop_all (listSize : Int) (w0 : World) (polls : Polls) :
    ∀ (cur : Int) (w : World), Ext w0 w →
      (menu_list_loop listSize cur w polls).All (Ext w0) := by
  induction polls with
  | nil => intro cur w h; exact all_waiting h
  | cons p rest ih =>
    intro cur w h
    cases p with
    | none => exact ih _ _ (ext_log h _ rfl)
    | some e =>
      cases e with
      | keyDown sym =>
        simp only [menu_list_loop]
        split_ifs <;> first | exact all_returned h | exact ih _ _ h
      | quit => exact all_exited h
      | other => exact ih _ _ h

theorem menu_list_all (listSize : Int) (w0 w : World) (polls : Polls) (h : Ext w0 w) :
    (menu_list listSize w polls).All (Ext w0) :=
  menu_list_loop_all listSize w0 polls 0 _ (ext_log h _ rfl)

theorem menu_scrollbar_loop_all (min oldvalue increment newMax newMin : Int) (w0 : World)
    (polls : Polls) :
    ∀ (cur : Int) (w : World), Ext w0 w →
      (menu_scrollbar_loop min oldvalue increment newMax newMin cur w polls).All (Ext w0) := by
  induction polls with
  | nil => intro cur w h; exact all_waiting h
  | cons p rest ih =>
    intro cur w h
    cases p with
    | none => exact ih _ _ h
    | some e =>
      cases e with
      | keyDown sym =>
        simp only [menu_scrollbar_loop]
        split_ifs <;> first | exact all_returned h | exact ih _ _ (ext_log h _ rfl)
      | quit => exact all_exited h
      | other => exact ih _ _ h

theorem menu_scrollbar_all (min max current : Int) (w0 w : World) (polls : Polls)
    (h : Ext w0 w) : (menu_scrollbar min max current w polls).All (Ext w0) := by
  unfold menu_scrollbar
  simp only
  split_ifs
  · exact all_crashed
  · exact menu_scrollbar_loop_all _ _ _ _ _ w0 polls _ _ (ext_log h _ rfl)

theorem aboutWait_all (w0 : World) (polls : Polls) :
    ∀ w : World, Ext w0 w → (aboutWait w polls).All (Ext w0) := by
  induction polls with
  | nil => intro w h; exact all_waiting h
  | cons p rest ih =>
    intro w h
    cases p with
    | none => exact ih _ h
    | some e =>
      cases e with
      | keyDown sym => exact all_returned h
      | quit => exact all_exited h
      | other => exact ih _ h

theorem bind_ext {α β : Type} {w0 : World} {x : Outcome α}
    {f : α → World → Polls → Outcome β} (hx : x.All (Ext w0))
    (hf : ∀ v w1 r, Ext w0 w1 → (f v w1 r).All (Ext w0)) : (x.bind f).All (Ext w0) :=
  all_bind hx fun v w1 r e => hf v w1 r (all_of_returned hx e)

theorem caseNotice_all (w0 w : World) (polls : Polls) (h : Ext w0 w) :
    (caseNotice w polls).All (Ext w0) :=
  bind_ext (menu_list_all _ w0 w polls h) fun _ _ _ h1 => all_returned h1

theorem helpMenu_all (c : MenuIds) (item : Int) (w0 w : World) (polls : Polls)
    (h : Ext w0 w) : (helpMenu c item w polls).All (Ext w0) := by
  unfold helpMenu
  split_ifs
  · exact caseNotice_all w0 w polls h
  · exact caseNotice_all w0 w polls h
  · exact aboutWait_all w0 polls _ (ext_log h _ rfl)
  · exact all_returned h

theorem saveOptFile_same (o : OptMasks) (w : World) :
    (saveOptFile o w).1.col = w.col ∧ (saveOptFile o w).1.row = w.row ∧
      (saveOptFile o w).1.trace = w.trace := by
  unfold saveOptFile
  split_ifs <;> exact ⟨rfl, rfl, rfl⟩

theorem caseFullScreen_all (w0 w : World) (polls : Polls) (h : Ext w0 w) :
    (caseFullScreen w polls).All (Ext w0) := by
  refine bind_ext (menu_list_all _ w0 w polls h) fun v w1 r h1 => ?_
  split_ifs <;> exact all_returned h1

theorem caseVideoRes_all (w0 w : World) (polls : Polls) (h : Ext w0 w) :
    (caseVideoRes w polls).All (Ext w0) := by
  refine bind_ext (menu_list_all _ w0 w polls h) fun v w1 r h1 => ?_
  split_ifs <;> exact all_returned h1

theorem caseGraphics_all (o : OptMasks) (w0 w : World) (polls : Polls) (h : Ext w0 w) :
    (caseGraphics o w polls).All (Ext w0) := by
  refine bind_ext (menu_list_all _ w0 w polls h) fun v w1 r h1 => ?_
  split_ifs <;> exact all_returned h1

theorem caseVolume_all (w0 w : World) (polls : Polls) (h : Ext w0 w) :
    (caseVolume w polls).All (Ext w0) :=
  bind_ext (menu_scrollbar_all _ _ _ w0 w polls h) fun _ _ _ h1 =>
    all_returned (ext_same h1 rfl rfl rfl)

theorem caseCreatureSpeed_all (c : MenuIds) (item : Int) (w0 w : World) (polls : Polls)
    (h : Ext w0 w) : (caseCreatureSpeed c item w polls).All (Ext w0) := by
  refine bind_ext (menu_list_all _ w0 w polls h) fun v w1 r h1 => ?_
  split_ifs
  · exact helpMenu_all c item w0 _ r (ext_same h1 rfl rfl rfl)
  · exact bind_ext (menu_scrollbar_all _ _ _ w0 w1 r h1) fun _ _ _ h2 =>
      all_returned (ext_same h2 rfl rfl rfl)
  · exact all_returned h1

theorem caseRegenSpeed_all (w0 w : World) (polls : Polls) (h : Ext w0 w) :
    (caseRegenSpeed w polls).All (Ext w0) := by
  refine bind_ext (menu_list_all _ w0 w polls h) fun v w1 r h1 => ?_
  split_ifs <;> exact all_returned h1

theorem caseRandomMaze_all (w0 w : World) (polls : Polls) (h : Ext w0 w) :
    (caseRandomMaze w polls).All (Ext w0) := by
  refine bind_ext (menu_list_all _ w0 w polls h) fun v w1 r h1 => ?_
  split_ifs <;> exact all_returned h1

theorem caseSndMode_all (c : MenuIds) (o : OptMasks) (item : Int) (w0 w : World)
    (polls : Polls) (h : Ext w0 w) : (caseSndMode c o item w polls).All (Ext w0) := by
  refine bind_ext (menu_list_all _ w0 w polls h) fun v w1 r h1 => ?_
  split_ifs
  · exact helpMenu_all c item w0 _ r (ext_same h1 rfl rfl rfl)
  · exact helpMenu_all c item w0 _ r (ext_same h1 rfl rfl rfl)
  · exact all_returned h1

theorem configMenu_all (c : MenuIds) (o : OptMasks) (item : Int) (w0 w : World)
    (polls : Polls) (h : Ext w0 w) : (configMenu c o item w polls).All (Ext w0) := by
  unfold configMenu
  by_cases hi : item = c.CONFIG_MENU_FULL_SCREEN
  · rw [if_pos hi]
    exact caseFullScreen_all w0 w polls h
  rw [if_neg hi]
  clear hi
  by_cases hi : item = c.CONFIG_MENU_VIDEO_RES
  · rw [if_pos hi]
    exact caseVideoRes_all w0 w polls h
  rw [if_neg hi]
  clear hi
  by_cases hi : item = c.CONFIG_MENU_GRAPHICS
  · rw [if_pos hi]
    exact caseGraphics_all o w0 w polls h
  rw [if_neg hi]
  clear hi
  by_cases hi : item = c.CONFIG_MENU_COLOR
  · rw [if_pos hi]
    exact caseNotice_all w0 w polls h
  rw [if_neg hi]
  clear hi
  by_cases hi : item = c.CONFIG_MENU_VOLUME
  · rw [if_pos hi]
    exact caseVolume_all w0 w polls h
  rw [if_neg hi]
  clear hi
  by_cases hi : item = c.CONFIG_MENU_SAVEDIR
  · rw [if_pos hi]
    exact caseNotice_all w0 w polls h
  rw [if_neg hi]
  clear hi
  by_cases hi : item = c.CONFIG_MENU_CREATURE_SPEED
  · rw [if_pos hi]
    exact caseCreatureSpeed_all c item w0 w polls h
  rw [if_neg hi]
  clear hi
  by_cases hi : item = c.CONFIG_MENU_REGEN_SPEED
  · rw [if_pos hi]
    exact caseRegenSpeed_all w0 w polls h
  rw [if_neg hi]
  clear hi
  by_cases hi : item = c.CONFIG_MENU_RANDOM_MAZE
  · rw [if_pos hi]
    exact caseRandomMaze_all w0 w polls h
  rw [if_neg hi]
  clear hi
  by_cases hi : item = c.CONFIG_MENU_SND_MODE
  · rw [if_pos hi]
    exact caseSndMode_all c o item w0 w polls h
  rw [if_neg hi]
  clear hi
  by_cases hi : item = c.CONFIG_MENU_SAVE_OPT
  · rw [if_pos hi]
    obtain ⟨h1, h2, h3⟩ := saveOptFile_same o w
    exact all_returned (ext_same h h1 h2 h3)
  rw [if_neg hi]
  clear hi
  by_cases hi : item = c.CONFIG_MENU_DEFAULTS
  · rw [if_pos hi]
    exact all_returned (ext_same h rfl rfl rfl)
  rw [if_neg hi]
  clear hi
  exact helpMenu_all c item w0 w polls h

theorem fileMenu_all (c : MenuIds) (o : OptMasks) (item : Int) (w0 w : World)
    (polls : Polls) (h : Ext w0 w) : (fileMenu c o item w polls).All (Ext w0) := by
  have hp : Ext w0 (w.log (.pause false)) := ext_log h _ rfl
  unfold fileMenu
  split
  · apply all_returned
    dsimp only
    split
    · exact ext_same hp rfl rfl rfl
    · exact hp
  split
  · exact all_returned h
  split
  · apply all_returned
    dsimp only
    split
    · exact ext_same hp rfl rfl rfl
    · exact hp
  split
  · exact all_exited h
  · exact configMenu_all c o item w0 w polls h

/-- Every state `menu_return` ends in has the cursor it was called with and a trace longer
by the entry of `menu_return` and by calls made inside it. -/
theorem menu_return_all (c : MenuIds) (o : OptMasks) (menu_id item : Int) (w : World)
    (polls : Polls) :
    (menu_return c o menu_id item w polls).All fun w' =>
      w'.col = w.col ∧ w'.row = w.row ∧
      ∃ t, w'.trace = w.trace ++ Call.menu_return menu_id item :: t ∧
        ∀ x ∈ t, x.inner = true := by
  have h0 : Ext (w.log (.menu_return menu_id item)) (w.log (.menu_return menu_id item)) :=
    ext_refl _
  have key : (menu_return c o menu_id item w polls).All
      (Ext (w.log (.menu_return menu_id item))) := by
    unfold menu_return
    simp only
    split_ifs
    · exact fileMenu_all c o item _ _ polls h0
    · exact configMenu_all c o item _ _ polls h0
    · exact helpMenu_all c item _ _ polls h0
    · exact all_returned h0
  intro w' hw
  obtain ⟨hc, hr, t, ht, hi⟩ := key w' hw
  refine ⟨hc, hr, t, ?_, hi⟩
  rw [ht]
  simp [World.log]

/-- Enter on the File category's New Game item: `menu_return` calls `pause(false)`,
updates the `game` members and returns `true` without reading input. -/
theorem menu_return_newGame (c : MenuIds) (o : OptMasks) (w : World) (polls : Polls) :
    ∃ w', menu_return c o c.FILE_MENU_SWITCH c.FILE_MENU_NEW w polls =
        .returned true w' polls ∧
      w'.trace = w.trace ++
        [Call.menu_return c.FILE_MENU_SWITCH c.FILE_MENU_NEW, Call.pause false] := by
  simp only [menu_return, fileMenu, if_true]
  split_ifs
  · exact ⟨_, rfl, by simp [World.log]⟩
  · exact ⟨_, rfl, by simp [World.log]⟩

/-! ## The fuel of the main loop is never the limit -/

theorem restLe_mono {α : Type} {x : Outcome α} {n m : Nat} (h : x.RestLe n)
    (hnm : n ≤ m) : x.RestLe m := by
  cases x with
  | returned v w r => exact Nat.le_trans h hnm
  | exited code w => trivial
  | crashed => trivial
  | waiting w => trivial

theorem restLe_bind {α β : Type} {x : Outcome α} {n : Nat}
    {f : α → World → Polls → Outcome β} (hx : x.RestLe n)
    (hf : ∀ v w r, r.length ≤ n → (f v w r).RestLe n) : (x.bind f).RestLe n := by
  cases x with
  | returned v w r => exact hf v w r hx
  | exited code w => trivial
  | crashed => trivial
  | waiting w => trivial

theorem menu_list_loop_rest (listSize : Int) (polls : Polls) :
    ∀ (cur : Int) (w : World), (menu_list_loop listSize cur w polls).RestLe polls.length := by
  induction polls with
  | nil => intro cur w; trivial
  | cons p rest ih =>
    intro cur w
    have hle : rest.length ≤ (p :: rest).length := by simp
    cases p with
    | none => exact restLe_mono (ih _ _) hle
    | some e =>
      cases e with
      | keyDown sym =>
        simp only [menu_list_loop]
        split_ifs <;> first | exact hle | exact restLe_mono (ih _ _) hle
      | quit => trivial
      | other => exact restLe_mono (ih _ _) hle

theorem menu_list_rest (listSize : Int) (w : World) (polls : Polls) :
    (menu_list listSize w polls).RestLe polls.length :=
  menu_list_loop_rest listSize polls 0 _

theorem menu_scrollbar_loop_rest (min oldvalue increment newMax newMin : Int)
    (polls : Polls) :
    ∀ (cur : Int) (w : World),
      (menu_scrollbar_loop min oldvalue increment newMax newMin cur w polls).RestLe
        polls.length := by
  induction polls with
  | nil => intro cur w; trivial
  | cons p rest ih =>
    intro cur w
    have hle : rest.length ≤ (p :: rest).length := by simp
    cases p with
    | none => exact restLe_mono (ih _ _) hle
    | some e =>
      cases e with
      | keyDown sym =>
        simp only [menu_scrollbar_loop]
        split_ifs <;> first | exact hle | exact restLe_mono (ih _ _) hle
      | quit => trivial
      | other => exact restLe_mono (ih _ _) hle

theorem menu_scrollbar_rest (min max current : Int) (w : World) (polls : Polls) :
    (menu_scrollbar min max current w polls).RestLe polls.length := by
  unfold menu_scrollbar
  simp only
  split_ifs
  · trivial
  · exact menu_scrollbar_loop_rest _ _ _ _ _ polls _ _

theorem aboutWait_rest (polls : Polls) :
    ∀ w : World, (aboutWait w polls).RestLe polls.length := by
  induction polls with
  | nil => intro w; trivial
  | cons p rest ih =>
    intro w
    have hle : rest.length ≤ (p :: rest).length := by simp
    cases p with
    | none => exact restLe_mono (ih _) hle
    | some e =>
      cases e with
      | keyDown sym => exact hle
      | quit => trivial
      | other => exact restLe_mono (ih _) hle

theorem caseNotice_rest (w : World) (polls : Polls) :
    (caseNotice w polls).RestLe polls.length :=
  restLe_bind (menu_list_rest _ w polls) fun _ _ _ h => h

theorem helpMenu_rest (c : MenuIds) (item : Int) (w : World) (polls : Polls) :
    (helpMenu c item w polls).RestLe polls.length := by
  unfold helpMenu
  split_ifs
  · exact caseNotice_rest w polls
  · exact caseNotice_rest w polls
  · exact aboutWait_rest polls _
  · exact Nat.le_refl _

theorem configMenu_rest (c : MenuIds) (o : OptMasks) (item : Int) (w : World)
    (polls : Polls) : (configMenu c o item w polls).RestLe polls.length := by
  have hlist : ∀ (k : Int) (f : Int → World → Polls → Outcome Bool),
      (∀ v w1 r, r.length ≤ polls.length → (f v w1 r).RestLe polls.length) →
      ((menu_list k w polls).bind f).RestLe polls.length :=
    fun k f hf => restLe_bind (menu_list_rest k w polls) hf
  unfold configMenu
  by_cases hi : item = c.CONFIG_MENU_FULL_SCREEN
  · rw [if_pos hi]
    exact hlist _ _ fun v w1 r h => by split_ifs <;> exact h
  rw [if_neg hi]
  clear hi
  by_cases hi : item = c.CONFIG_MENU_VIDEO_RES
  · rw [if_pos hi]
    exact hlist _ _ fun v w1 r h => by split_ifs <;> exact h
  rw [if_neg hi]
  clear hi
  by_cases hi : item = c.CONFIG_MENU_GRAPHICS
  · rw [if_pos hi]
    exact hlist _ _ fun v w1 r h => by split_ifs <;> exact h
  rw [if_neg hi]
  clear hi
  by_cases hi : item = c.CONFIG_MENU_COLOR
  · rw [if_pos hi]
    exact caseNotice_rest w polls
  rw [if_neg hi]
  clear hi
  by_cases hi : item = c.CONFIG_MENU_VOLUME
  · rw [if_pos hi]
    exact restLe_bind (menu_scrollbar_rest _ _ _ w polls) fun _ _ _ h => h
  rw [if_neg hi]
  clear hi
  by_cases hi : item = c.CONFIG_MENU_SAVEDIR
  · rw [if_pos hi]
    exact caseNotice_rest w polls
  rw [if_neg hi]
  clear hi
  by_cases hi : item = c.CONFIG_MENU_CREATURE_SPEED
  · rw [if_pos hi]
    refine hlist _ _ fun v w1 r h => ?_
    split_ifs
    · exact restLe_mono (helpMenu_rest c item _ r) h
    · refine restLe_mono ?_ h
      exact restLe_bind (menu_scrollbar_rest _ _ _ w1 r) fun _ _ _ h2 => h2
    · exact h
  rw [if_neg hi]
  clear hi
  by_cases hi : item = c.CONFIG_MENU_REGEN_SPEED
  · rw [if_pos hi]
    exact hlist _ _ fun v w1 r h => by split_ifs <;> exact h
  rw [if_neg hi]
  clear hi
  by_cases hi : item = c.CONFIG_MENU_RANDOM_MAZE
  · rw [if_pos hi]
    exact hlist _ _ fun v w1 r h => by split_ifs <;> exact h
  rw [if_neg hi]
  clear hi
  by_cases hi : item = c.CONFIG_MENU_SND_MODE
  · rw [if_pos hi]
    refine hlist _ _ fun v w1 r h => ?_
    split_ifs
    · exact restLe_mono (helpMenu_rest c item _ r) h
    · exact restLe_mono (helpMenu_rest c item _ r) h
    · exact h
  rw [if_neg hi]
  clear hi
  by_cases hi : item = c.CONFIG_MENU_SAVE_OPT
  · rw [if_pos hi]
    exact Nat.le_refl _
  rw [if_neg hi]
  clear hi
  by_cases hi : item = c.CONFIG_MENU_DEFAULTS
  · rw [if_pos hi]
    exact Nat.le_refl _
  rw [if_neg hi]
  exact helpMenu_rest c item w polls

theorem menu_return_rest (c : MenuIds) (o : OptMasks) (menu_id item : Int) (w : World)
    (polls : Polls) : (menu_return c o menu_id item w polls).RestLe polls.length := by
  unfold menu_return
  simp only
  split_ifs
  · unfold fileMenu
    split_ifs
    · exact Nat.le_refl _
    · exact Nat.le_refl _
    · exact Nat.le_refl _
    · trivial
    · exact configMenu_rest c o item _ polls
  · exact configMenu_rest c o item _ polls
  · exact helpMenu_rest c item _ polls
  · exact Nat.le_refl _

/-- Any two fuels that are at least the number of poll results give the same outcome:
the loop of `main_menu` stops because the input ends, never because the fuel does. -/
theorem main_menu_loop_fuel (c : MenuIds) (o : OptMasks) :
    ∀ (n m : Nat) (e : Bool) (w : World) (polls : Polls),
      polls.length ≤ n → polls.length ≤ m →
      main_menu_loop c o n e w polls = main_menu_loop c o m e w polls := by
  intro n
  induction n with
  | zero =>
    intro m e w polls hn hm
    have : polls = [] := List.length_eq_zero.mp (Nat.le_zero.mp hn)
    subst this
    cases m <;> rfl
  | succ n ih =>
    intro m e w polls hn hm
    cases polls with
    | nil => cases m <;> rfl
    | cons p ps =>
      obtain ⟨m, rfl⟩ : ∃ k, m = k + 1 := ⟨m - 1, by simp at hm; omega⟩
      have hn' : ps.length ≤ n := by simpa using hn
      have hm' : ps.length ≤ m := by simpa using hm
      cases p with
      | none =>
        simp only [main_menu_loop]
        split_ifs
        · rfl
        · exact ih m _ _ _ hn' hm'
      | some ev =>
        cases ev with
        | keyDown sym =>
          simp only [main_menu_loop]
          by_cases hret : sym = SDLK_RETURN
          · rw [if_pos hret, if_pos hret]
            have hr := menu_return_rest c o w.col w.row w ps
            cases hm : menu_return c o w.col w.row w ps with
            | returned e1 w1 r1 =>
              rw [hm] at hr
              simp only
              split_ifs
              · rfl
              · exact ih m _ _ _ (Nat.le_trans hr hn') (Nat.le_trans hr hm')
            | exited code w1 => rfl
            | crashed => rfl
            | waiting w1 => rfl
          · rw [if_neg hret, if_neg hret]
            exact ih m _ _ _ hn' hm'
        | quit => rfl
        | other =>
          simp only [main_menu_loop]
          exact ih m _ _ _ hn' hm'

/-! ## The main menu: pause calls and the New Game result -/

theorem count_inner_eq_zero (t : List Call) (h : ∀ x ∈ t, x.inner = true) (c : Call)
    (hc : c.inner = false) : t.count c = 0 := by
  apply List.count_eq_zero.mpr
  intro hm
  have := h c hm
  rw [hc] at this
  exact Bool.noConfusion this

/-- Every return of the main loop: the trace grew by calls `t` and a final
`pause(false)`; `t` holds no `pause(true)`, and one `menu_return` on New Game when the
result is `true`, none when it is `false`. -/
theorem main_menu_loop_returned (c : MenuIds) (o : OptMasks) :
    ∀ (fuel : Nat) (e : Bool) (w : World) (polls : Polls) (b : Bool) (w' : World)
      (rest : Polls), main_menu_loop c o fuel e w polls = .returned b w' rest →
      ∃ t, w'.trace = w.trace ++ t ++ [Call.pause false] ∧ t.count (.pause true) = 0 ∧
        t.count (.menu_return c.FILE_MENU_SWITCH c.FILE_MENU_NEW) = if b then 1 else 0 := by
  intro fuel
  induction fuel with
  | zero =>
    intro e w polls b w' rest h
    simp [main_menu_loop] at h
  | succ n ih =>
    intro e w polls b w' rest h
    cases polls with
    | nil => simp [main_menu_loop] at h
    | cons p ps =>
      cases p with
      | none =>
        simp only [main_menu_loop] at h
        split_ifs at h with he
        · simp only [Outcome.returned.injEq] at h
          obtain ⟨hb, hw, -⟩ := h
          subst hb hw
          exact ⟨[], by simp [World.log], by simp, by simp⟩
        · exact ih _ _ _ _ _ _ h
      | some ev =>
        cases ev with
        | keyDown sym =>
          simp only [main_menu_loop] at h
          by_cases hret : sym = SDLK_RETURN
          · rw [if_pos hret] at h
            cases hm : menu_return c o w.col w.row w ps with
            | returned e1 w1 r1 =>
              rw [hm] at h
              simp only at h
              obtain ⟨hc1, hr1, t1, ht1, hi1⟩ := menu_return_all c o w.col w.row w ps w1
                (by rw [hm]; rfl)
              split_ifs at h with hng
              · simp only [Outcome.returned.injEq] at h
                obtain ⟨hb, hw, -⟩ := h
                subst hb hw
                have hcol : w.col = c.FILE_MENU_SWITCH := by rw [← hc1]; exact hng.1
                have hrow : w.row = c.FILE_MENU_NEW := by rw [← hr1]; exact hng.2
                obtain ⟨w2, hw2, ht2⟩ := menu_return_newGame c o w ps
                rw [hcol, hrow] at hm
                rw [hm] at hw2
                simp only [Outcome.returned.injEq] at hw2
                obtain ⟨-, hw12, -⟩ := hw2
                subst hw12
                exact ⟨[.menu_return c.FILE_MENU_SWITCH c.FILE_MENU_NEW],
                  by simp [ht2], by simp, by simp⟩
              · obtain ⟨t2, ht2, hp2, hn2⟩ := ih _ _ _ _ _ _ h
                refine ⟨Call.menu_return w.col w.row :: t1 ++ [Call.drawMenu w1.col w1.row] ++ t2,
                  ?_, ?_, ?_⟩
                · rw [ht2]
                  simp [World.log, ht1]
                · have := count_inner_eq_zero t1 hi1 (.pause true) rfl
                  simp [List.count_cons, List.count_append, this, hp2]
                · have := count_inner_eq_zero t1 hi1
                    (.menu_return c.FILE_MENU_SWITCH c.FILE_MENU_NEW) rfl
                  have hne : ¬(w.col = c.FILE_MENU_SWITCH ∧ w.row = c.FILE_MENU_NEW) := by
                    rw [← hc1, ← hr1]; exact hng
                  simp only [List.count_cons, List.count_append, this, hn2, List.count_nil,
                    beq_iff_eq, Call.menu_return.injEq, reduceCtorEq]
                  simp [hne]
            | exited code w1 => rw [hm] at h; simp at h
            | crashed => rw [hm] at h; simp at h
            | waiting w1 => rw [hm] at h; simp at h
          · rw [if_neg hret] at h
            obtain ⟨t2, ht2, hp2, hn2⟩ := ih _ _ _ _ _ _ h
            refine ⟨Call.drawMenu (moveCursor c sym w.col w.row).1
              (moveCursor c sym w.col w.row).2 :: t2, ?_, ?_, ?_⟩
            · rw [ht2]
              simp [World.log]
            · simp [List.count_cons, hp2]
            · simp [List.count_cons, hn2]
        | quit => simp [main_menu_loop] at h
        | other =>
          simp only [main_menu_loop] at h
          exact ih _ _ _ _ _ _ h

theorem pauseCalls_append (xs ys : List Call) :
    pauseCalls (xs ++ ys) = pauseCalls xs ++ pauseCalls ys := by
  simp [pauseCalls, List.filterMap_append]

/-- C7: whenever `main_menu` returns, on any path, the last `scheduler.pause` call made is
`pause(false)`, so the pause flag is clear at return, and the opening issued `pause(true)`
exactly once. -/
theorem main_menu_unpauses (c : MenuIds) (o : OptMasks) (w : World) (polls : Polls)
    (b : Bool) (w' : World) (rest : Polls)
    (h : main_menu c o w polls = .returned b w' rest) :
    pauseFlag w'.trace = false ∧ (pauseCalls w'.trace).getLast? = some false ∧
      w'.trace.count (.pause true) = w.trace.count (.pause true) + 1 := by
  obtain ⟨t, ht, hp, -⟩ := main_menu_loop_returned c o _ _ _ _ _ _ _ h
  have hl : (pauseCalls w'.trace).getLast? = some false := by
    rw [ht, pauseCalls_append]
    simp [pauseCalls]
  refine ⟨by simp [pauseFlag, hl], hl, ?_⟩
  rw [ht]
  simp [World.log, List.count_append, List.count_cons, hp]

/-- C8: whenever `main_menu` returns, the result is `true` exactly when this opening
called `menu_return` on the File category's New Game item (Enter with the cursor there),
and `false` exactly when it made no such call. -/
theorem main_menu_result (c : MenuIds) (o : OptMasks) (w : World) (polls : Polls)
    (b : Bool) (w' : World) (rest : Polls)
    (h : main_menu c o w polls = .returned b w' rest) :
    (b = true ↔ newGameCalls c w'.trace = newGameCalls c w.trace + 1) ∧
      (b = false ↔ newGameCalls c w'.trace = newGameCalls c w.trace) := by
  obtain ⟨t, ht, -, hn⟩ := main_menu_loop_returned c o _ _ _ _ _ _ _ h
  have hc : newGameCalls c w'.trace = newGameCalls c w.trace + if b then 1 else 0 := by
    unfold newGameCalls
    rw [ht]
    simp [World.log, List.count_append, List.count_cons, hn]
  cases b <;> simp [hc]

/-- A run of `main_menu` closed with Escape: the flag is clear and `pause(true)` was
issued once. -/
theorem main_menu_unpauses_witness :
    pauseFlag
        (sampleWorld.trace ++
          [Call.pause true, Call.drawMenu 0 0, Call.drawMenu 0 1, Call.drawMenu 0 1, Call.pause false]) = false ∧
      (pauseCalls
        (sampleWorld.trace ++
          [Call.pause true, Call.drawMenu 0 0, Call.drawMenu 0 1, Call.drawMenu 0 1, Call.pause false])).getLast? =
        some false ∧
      (sampleWorld.trace ++
          [Call.pause true, Call.drawMenu 0 0, Call.drawMenu 0 1, Call.drawMenu 0 1, Call.pause false]).count
        (.pause true) = sampleWorld.trace.count (.pause true) + 1 :=
  main_menu_unpauses sampleMenu sampleMasks sampleWorld
    [some (.keyDown SDLK_DOWN), some (.keyDown SDLK_ESCAPE), none] false
    { sampleWorld with
      row := 1
      trace := sampleWorld.trace ++
        [Call.pause true, Call.drawMenu 0 0, Call.drawMenu 0 1, Call.drawMenu 0 1, Call.pause false] }
    [] (by decide)

/-- A run of `main_menu` where Enter is pressed on New Game: the result is `true` and one
New Game call was made. -/
theorem main_menu_result_witness :
    (true = true ↔
        newGameCalls sampleMenu
            (sampleWorld.trace ++ [Call.pause true, Call.drawMenu 0 0, Call.menu_return 0 0, Call.pause false]) =
          newGameCalls sampleMenu sampleWorld.trace + 1) ∧
      (true = false ↔
        newGameCalls sampleMenu
            (sampleWorld.trace ++ [Call.pause true, Call.drawMenu 0 0, Call.menu_return 0 0, Call.pause false]) =
          newGameCalls sampleMenu sampleWorld.trace) :=
  main_menu_result sampleMenu sampleMasks sampleWorld [some (.keyDown SDLK_RETURN), none] true
    { sampleWorld with
      trace := sampleWorld.trace ++
        [Call.pause true, Call.drawMenu 0 0, Call.menu_return 0 0, Call.pause false] }
    [none] (by decide)

/-! ## The main menu: the cursor at opening -/

theorem main_menu_loop_grows (c : MenuIds) (o : OptMasks) :
    ∀ (fuel : Nat) (e : Bool) (w0 w : World) (polls : Polls),
      (∃ t, w.trace = w0.trace ++ t) →
      (main_menu_loop c o fuel e w polls).All fun w' => ∃ t, w'.trace = w0.trace ++ t := by
  intro fuel
  induction fuel with
  | zero =>
    intro e w0 w polls h
    exact all_waiting h
  | succ n ih =>
    intro e w0 w polls h
    obtain ⟨t0, ht0⟩ := h
    cases polls with
    | nil => exact all_waiting ⟨t0, ht0⟩
    | cons p ps =>
      cases p with
      | none =>
        simp only [main_menu_loop]
        split_ifs
        · exact all_returned ⟨t0 ++ [.pause false], by simp [World.log, ht0]⟩
        · exact ih _ _ _ _ ⟨t0, ht0⟩
      | some ev =>
        cases ev with
        | keyDown sym =>
          simp only [main_menu_loop]
          by_cases hret : sym = SDLK_RETURN
          · rw [if_pos hret]
            have hall := menu_return_all c o w.col w.row w ps
            cases hm : menu_return c o w.col w.row w ps with
            | returned e1 w1 r1 =>
              obtain ⟨-, -, t1, ht1, -⟩ := hall w1 (by rw [hm]; rfl)
              simp only
              split_ifs
              · exact all_returned ⟨t0 ++ Call.menu_return w.col w.row :: t1, by simp [ht1, ht0]⟩
              · exact ih _ _ _ _
                  ⟨t0 ++ Call.menu_return w.col w.row :: t1 ++ [.drawMenu w1.col w1.row],
                    by simp [World.log, ht1, ht0]⟩
            | exited code w1 =>
              obtain ⟨-, -, t1, ht1, -⟩ := hall w1 (by rw [hm]; rfl)
              exact all_exited ⟨t0 ++ Call.menu_return w.col w.row :: t1, by simp [ht1, ht0]⟩
            | crashed => exact all_crashed
            | waiting w1 =>
              obtain ⟨-, -, t1, ht1, -⟩ := hall w1 (by rw [hm]; rfl)
              exact all_waiting ⟨t0 ++ Call.menu_return w.col w.row :: t1, by simp [ht1, ht0]⟩
          · rw [if_neg hret]
            exact ih _ _ _ _ ⟨t0 ++ [.drawMenu (moveCursor c sym w.col w.row).1
              (moveCursor c sym w.col w.row).2], by simp [World.log, ht0]⟩
        | quit => exact all_exited ⟨t0, ht0⟩
        | other =>
          simp only [main_menu_loop]
          exact ih _ _ _ _ ⟨t0, ht0⟩

/-- C9 (as stated, refuted): a first opening is closed with the cursor on row 1 (Down,
Escape); the second opening starts by drawing the menu at (0,1), not (0,0). -/
theorem second_opening_counterexample :
    ((main_menu sampleMenu sampleMasks sampleWorld
        [some (.keyDown SDLK_DOWN), some (.keyDown SDLK_ESCAPE), none]).bind
      fun _ w _ => main_menu sampleMenu sampleMasks w
        [some (.keyDown SDLK_ESCAPE), none]).state?.map (fun w => w.trace) =
      some [.pause true, .drawMenu 0 0, .drawMenu 0 1, .drawMenu 0 1, .pause false,
        .pause true, .drawMenu 0 1, .drawMenu 0 1, .pause false] := by
  decide

/-- C9 (amended): every opening of the menu first calls `pause(true)` and then draws the
menu at the cursor held in the statics `col` and `row`, that is (0,0) in the state at
process start and otherwise the cursor the previous session ended with. -/
theorem main_menu_opens_at_stored_cursor (c : MenuIds) (o : OptMasks) (w : World)
    (polls : Polls) (w' : World) (h : (main_menu c o w polls).state? = some w') :
    (∀ cfg a b d f g, (World.start cfg a b d f g).col = 0 ∧ (World.start cfg a b d f g).row = 0) ∧
      ∃ t, w'.trace = w.trace ++ Call.pause true :: Call.drawMenu w.col w.row :: t := by
  refine ⟨fun _ _ _ _ _ _ => ⟨rfl, rfl⟩, ?_⟩
  have := main_menu_loop_grows c o polls.length false
    ((w.log (.pause true)).log (.drawMenu w.col w.row))
    ((w.log (.pause true)).log (.drawMenu w.col w.row)) polls ⟨[], by simp⟩ w' h
  obtain ⟨t, ht⟩ := this
  exact ⟨t, by rw [ht]; simp [World.log]⟩

/-- The first opening, at process start, draws the menu at (0,0). -/
theorem main_menu_opens_at_stored_cursor_witness :
    (∀ cfg a b d f g, (World.start cfg a b d f g).col = 0 ∧ (World.start cfg a b d f g).row = 0) ∧
      ∃ t, [Call.pause true, Call.drawMenu 0 0, Call.drawMenu 0 1] =
        sampleWorld.trace ++ Call.pause true :: Call.drawMenu sampleWorld.col sampleWorld.row :: t :=
  main_menu_opens_at_stored_cursor sampleMenu sampleMasks sampleWorld
    [some (.keyDown SDLK_DOWN)]
    { sampleWorld with row := 1, trace := [.pause true, .drawMenu 0 0, .drawMenu 0 1] }
    (by decide)

/-! ## The main menu: moving the cursor -/

/-- C10: in a column whose category has `R ≥ 1` items and for a row in `[0, R)`, Up maps
row 0 to `R - 1` and any other row `r` to `r - 1`, Down maps row `R - 1` to 0 and any other
row `r` to `r + 1`; neither changes the column, and the loop of `main_menu` goes on from
that cursor after drawing it. -/
theorem row_wraparound (c : MenuIds) (o : OptMasks) (w : World) (R : Int)
    (hR : c.getMenuSize w.col = R) (_h1 : 1 ≤ R) (h0 : 0 ≤ w.row) (hlt : w.row < R)
    (n : Nat) (e : Bool) (ps : Polls) :
    moveCursor c SDLK_UP w.col w.row = (w.col, if w.row = 0 then R - 1 else w.row - 1) ∧
    moveCursor c SDLK_DOWN w.col w.row = (w.col, if w.row = R - 1 then 0 else w.row + 1) ∧
    main_menu_loop c o (n + 1) e w (some (.keyDown SDLK_UP) :: ps) =
      main_menu_loop c o n e
        (({ w with row := if w.row = 0 then R - 1 else w.row - 1 }).log
          (.drawMenu w.col (if w.row = 0 then R - 1 else w.row - 1))) ps ∧
    main_menu_loop c o (n + 1) e w (some (.keyDown SDLK_DOWN) :: ps) =
      main_menu_loop c o n e
        (({ w with row := if w.row = R - 1 then 0 else w.row + 1 }).log
          (.drawMenu w.col (if w.row = R - 1 then 0 else w.row + 1))) ps := by
  have hup : moveCursor c SDLK_UP w.col w.row =
      (w.col, if w.row = 0 then R - 1 else w.row - 1) := by
    simp only [moveCursor, if_true, hR]
    by_cases hz : w.row = 0
    · simp [hz]
    · have : ¬ w.row < 1 := by omega
      simp [hz, this]
  have hdown : moveCursor c SDLK_DOWN w.col w.row =
      (w.col, if w.row = R - 1 then 0 else w.row + 1) := by
    have hne : SDLK_DOWN ≠ SDLK_UP := by decide
    simp only [moveCursor, if_neg hne, if_true, hR]
    by_cases hz : w.row = R - 1
    · have : w.row > R - 2 := by omega
      simp [hz, this]
    · have : ¬ w.row > R - 2 := by omega
      simp [hz, this]
  refine ⟨hup, hdown, ?_, ?_⟩
  · have hne : SDLK_UP ≠ SDLK_RETURN := by decide
    have hne2 : SDLK_UP ≠ SDLK_ESCAPE := by decide
    simp only [main_menu_loop, if_neg hne, if_neg hne2, hup]
  · have hne : SDLK_DOWN ≠ SDLK_RETURN := by decide
    have hne2 : SDLK_DOWN ≠ SDLK_ESCAPE := by decide
    simp only [main_menu_loop, if_neg hne, if_neg hne2, hdown]

/-- The File column of the sample menu has four rows: from row 0, Up leads to row 3 and
Down to row 1. -/
theorem row_wraparound_witness :
    moveCursor sampleMenu SDLK_UP sampleWorld.col sampleWorld.row =
      (sampleWorld.col, if sampleWorld.row = 0 then 4 - 1 else sampleWorld.row - 1) ∧
    moveCursor sampleMenu SDLK_DOWN sampleWorld.col sampleWorld.row =
      (sampleWorld.col, if sampleWorld.row = 4 - 1 then 0 else sampleWorld.row + 1) ∧
    main_menu_loop sampleMenu sampleMasks (0 + 1) false sampleWorld
        (some (.keyDown SDLK_UP) :: []) =
      main_menu_loop sampleMenu sampleMasks 0 false
        (({ sampleWorld with row := if sampleWorld.row = 0 then 4 - 1 else sampleWorld.row - 1 }).log
          (.drawMenu sampleWorld.col (if sampleWorld.row = 0 then 4 - 1 else sampleWorld.row - 1)))
        [] ∧
    main_menu_loop sampleMenu sampleMasks (0 + 1) false sampleWorld
        (some (.keyDown SDLK_DOWN) :: []) =
      main_menu_loop sampleMenu sampleMasks 0 false
        (({ sampleWorld with
            row := if sampleWorld.row = 4 - 1 then 0 else sampleWorld.row + 1 }).log
          (.drawMenu sampleWorld.col
            (if sampleWorld.row = 4 - 1 then 0 else sampleWorld.row + 1))) [] :=
  row_wraparound sampleMenu sampleMasks sampleWorld 4 (by decide) (by decide) (by decide)
    (by decide) 0 false []

/-! ## The main menu: columns and the cursor invariant -/

theorem main_menu_loop_key (c : MenuIds) (o : OptMasks) (n : Nat) (e : Bool) (w : World)
    (sym : Nat) (ps : Polls) (hr : sym ≠ SDLK_RETURN) (he : sym ≠ SDLK_ESCAPE) :
    main_menu_loop c o (n + 1) e w (some (.keyDown sym) :: ps) =
      main_menu_loop c o n e (afterKeys c w [sym]) ps := by
  simp only [main_menu_loop, if_neg hr, if_neg he, afterKeys, List.foldl]

/-- C11: with the three categories of the menu (`NUM_MENU = 3`) and a column in
`[0, NUM_MENU)`, Left maps column 0 to `NUM_MENU - 1` and any other column `c` to `c - 1`,
Right maps column `NUM_MENU - 1` to 0 and any other column `c` to `c + 1`; both set the
row to 0, and the loop of `main_menu` goes on from that cursor after drawing it. -/
theorem column_wraparound (c : MenuIds) (o : OptMasks) (w : World) (hN : c.NUM_MENU = 3)
    (h0 : 0 ≤ w.col) (hlt : w.col < c.NUM_MENU) (n : Nat) (e : Bool) (ps : Polls) :
    moveCursor c SDLK_LEFT w.col w.row =
      (if w.col = 0 then c.NUM_MENU - 1 else w.col - 1, 0) ∧
    moveCursor c SDLK_RIGHT w.col w.row =
      (if w.col = c.NUM_MENU - 1 then 0 else w.col + 1, 0) ∧
    main_menu_loop c o (n + 1) e w (some (.keyDown SDLK_LEFT) :: ps) =
      main_menu_loop c o n e
        (({ w with col := if w.col = 0 then c.NUM_MENU - 1 else w.col - 1, row := 0 }).log
          (.drawMenu (if w.col = 0 then c.NUM_MENU - 1 else w.col - 1) 0)) ps ∧
    main_menu_loop c o (n + 1) e w (some (.keyDown SDLK_RIGHT) :: ps) =
      main_menu_loop c o n e
        (({ w with col := if w.col = c.NUM_MENU - 1 then 0 else w.col + 1, row := 0 }).log
          (.drawMenu (if w.col = c.NUM_MENU - 1 then 0 else w.col + 1) 0)) ps := by
  have hleft : moveCursor c SDLK_LEFT w.col w.row =
      (if w.col = 0 then c.NUM_MENU - 1 else w.col - 1, 0) := by
    have h1 : SDLK_LEFT ≠ SDLK_UP := by decide
    have h2 : SDLK_LEFT ≠ SDLK_DOWN := by decide
    simp only [moveCursor, if_neg h1, if_neg h2, if_true]
    by_cases hz : w.col = 0
    · simp [hz]
    · have : ¬ w.col < 1 := by omega
      simp [hz, this]
  have hright : moveCursor c SDLK_RIGHT w.col w.row =
      (if w.col = c.NUM_MENU - 1 then 0 else w.col + 1, 0) := by
    have h1 : SDLK_RIGHT ≠ SDLK_UP := by decide
    have h2 : SDLK_RIGHT ≠ SDLK_DOWN := by decide
    have h3 : SDLK_RIGHT ≠ SDLK_LEFT := by decide
    simp only [moveCursor, if_neg h1, if_neg h2, if_neg h3, if_true]
    by_cases hz : w.col = c.NUM_MENU - 1
    · have : w.col > 1 := by omega
      rw [if_pos this, if_pos hz]
    · have : ¬ w.col > 1 := by omega
      rw [if_neg this, if_neg hz]
  refine ⟨hleft, hright, ?_, ?_⟩
  · rw [main_menu_loop_key c o n e w SDLK_LEFT ps (by decide) (by decide)]
    simp only [afterKeys, List.foldl, hleft]
  · rw [main_menu_loop_key c o n e w SDLK_RIGHT ps (by decide) (by decide)]
    simp only [afterKeys, List.foldl, hright]

/-- The sample menu has three columns: from column 0, Left leads to column 2 and Right to
column 1. -/
theorem column_wraparound_witness :
    moveCursor sampleMenu SDLK_LEFT sampleWorld.col sampleWorld.row =
      (if sampleWorld.col = 0 then sampleMenu.NUM_MENU - 1 else sampleWorld.col - 1, 0) ∧
    moveCursor sampleMenu SDLK_RIGHT sampleWorld.col sampleWorld.row =
      (if sampleWorld.col = sampleMenu.NUM_MENU - 1 then 0 else sampleWorld.col + 1, 0) ∧
    main_menu_loop sampleMenu sampleMasks (0 + 1) false sampleWorld
        (some (.keyDown SDLK_LEFT) :: []) =
      main_menu_loop sampleMenu sampleMasks 0 false
        (({ sampleWorld with
            col := if sampleWorld.col = 0 then sampleMenu.NUM_MENU - 1 else sampleWorld.col - 1,
            row := 0 }).log
          (.drawMenu (if sampleWorld.col = 0 then sampleMenu.NUM_MENU - 1
            else sampleWorld.col - 1) 0)) [] ∧
    main_menu_loop sampleMenu sampleMasks (0 + 1) false sampleWorld
        (some (.keyDown SDLK_RIGHT) :: []) =
      main_menu_loop sampleMenu sampleMasks 0 false
        (({ sampleWorld with
            col := if sampleWorld.col = sampleMenu.NUM_MENU - 1 then 0
              else sampleWorld.col + 1,
            row := 0 }).log
          (.drawMenu (if sampleWorld.col = sampleMenu.NUM_MENU - 1 then 0
            else sampleWorld.col + 1) 0)) [] :=
  column_wraparound sampleMenu sampleMasks sampleWorld (by decide) (by decide) (by decide)
    0 false []

theorem moveCursor_valid (c : MenuIds) (hN : 3 ≤ c.NUM_MENU)
    (hsz : ∀ col, 0 ≤ col → col < c.NUM_MENU → 1 ≤ c.getMenuSize col) (sym : Nat)
    (col row : Int) (hc0 : 0 ≤ col) (hc1 : col < c.NUM_MENU) (hr0 : 0 ≤ row)
    (hr1 : row < c.getMenuSize col) :
    0 ≤ (moveCursor c sym col row).1 ∧ (moveCursor c sym col row).1 < c.NUM_MENU ∧
    0 ≤ (moveCursor c sym col row).2 ∧
    (moveCursor c sym col row).2 < c.getMenuSize (moveCursor c sym col row).1 := by
  unfold moveCursor
  by_cases h1 : sym = SDLK_UP
  · rw [if_pos h1]
    dsimp only
    refine ⟨hc0, hc1, ?_, ?_⟩ <;> split_ifs <;> omega
  rw [if_neg h1]
  by_cases h2 : sym = SDLK_DOWN
  · rw [if_pos h2]
    dsimp only
    refine ⟨hc0, hc1, ?_, ?_⟩ <;> split_ifs <;> omega
  rw [if_neg h2]
  by_cases h3 : sym = SDLK_LEFT
  · rw [if_pos h3]
    dsimp only
    by_cases hz : col < 1
    · simp only [if_pos hz]
      have := hsz (c.NUM_MENU - 1) (by omega) (by omega)
      refine ⟨by omega, by omega, le_refl _, by omega⟩
    · simp only [if_neg hz]
      have := hsz (col - 1) (by omega) (by omega)
      refine ⟨by omega, by omega, le_refl _, by omega⟩
  rw [if_neg h3]
  by_cases h4 : sym = SDLK_RIGHT
  · rw [if_pos h4]
    dsimp only
    by_cases hz : col > 1
    · simp only [if_pos hz]
      have := hsz 0 (le_refl _) (by omega)
      refine ⟨le_refl _, by omega, le_refl _, by omega⟩
    · simp only [if_neg hz]
      have := hsz (col + 1) (by omega) (by omega)
      refine ⟨by omega, by omega, le_refl _, by omega⟩
  rw [if_neg h4]
  exact ⟨hc0, hc1, hr0, hr1⟩

theorem afterKeys_cursor (c : MenuIds) (syms : List Nat) :
    ∀ w : World, ((afterKeys c w syms).col, (afterKeys c w syms).row) =
      moveCursorAll c syms w.col w.row := by
  induction syms with
  | nil => intro w; rfl
  | cons s ss ih =>
    intro w
    have := ih (afterKeys c w [s])
    simp only [afterKeys, moveCursorAll, List.foldl] at this ⊢
    rw [this]
    rfl

theorem main_menu_loop_keys (c : MenuIds) (o : OptMasks) (e : Bool) (ps : Polls)
    (syms : List Nat) (hs : ∀ s ∈ syms, s ≠ SDLK_RETURN ∧ s ≠ SDLK_ESCAPE) :
    ∀ (n : Nat) (w : World),
      main_menu_loop c o (n + syms.length) e w (presses syms ++ ps) =
        main_menu_loop c o n e (afterKeys c w syms) ps := by
  induction syms with
  | nil => intro n w; rfl
  | cons s ss ih =>
    intro n w
    obtain ⟨hr, he⟩ := hs s (by simp)
    have hss : ∀ x ∈ ss, x ≠ SDLK_RETURN ∧ x ≠ SDLK_ESCAPE := fun x hx => hs x (by simp [hx])
    have hlen : n + (s :: ss).length = (n + ss.length) + 1 := by simp; omega
    rw [hlen]
    show main_menu_loop c o (n + ss.length + 1) e w
      (some (.keyDown s) :: (presses ss ++ ps)) = _
    rw [main_menu_loop_key c o _ e w s _ hr he, ih hss n (afterKeys c w [s])]
    rfl

theorem moveCursorAll_valid (c : MenuIds) (hN : 3 ≤ c.NUM_MENU)
    (hsz : ∀ col, 0 ≤ col → col < c.NUM_MENU → 1 ≤ c.getMenuSize col) (syms : List Nat) :
    ∀ (col row : Int), 0 ≤ col → col < c.NUM_MENU → 0 ≤ row → row < c.getMenuSize col →
      0 ≤ (moveCursorAll c syms col row).1 ∧
      (moveCursorAll c syms col row).1 < c.NUM_MENU ∧
      0 ≤ (moveCursorAll c syms col row).2 ∧
      (moveCursorAll c syms col row).2 < c.getMenuSize (moveCursorAll c syms col row).1 := by
  induction syms with
  | nil => intro col row h1 h2 h3 h4; exact ⟨h1, h2, h3, h4⟩
  | cons s ss ih =>
    intro col row h1 h2 h3 h4
    obtain ⟨a, b, d, f⟩ := moveCursor_valid c hN hsz s col row h1 h2 h3 h4
    exact ih _ _ a b d f

/-- C12: with at least the three categories of the menu (`3 ≤ NUM_MENU`), every category
holding at least one item, and a cursor with `0 ≤ col < NUM_MENU` and
`0 ≤ row < getMenuSize col`: after any run of Up, Down, Left and Right presses the loop of
`main_menu` is at a cursor that satisfies both bounds. -/
theorem cursor_invariant (c : MenuIds) (o : OptMasks) (w : World) (hN : 3 ≤ c.NUM_MENU)
    (hsz : ∀ col, 0 ≤ col → col < c.NUM_MENU → 1 ≤ c.getMenuSize col)
    (hc0 : 0 ≤ w.col) (hc1 : w.col < c.NUM_MENU) (hr0 : 0 ≤ w.row)
    (hr1 : w.row < c.getMenuSize w.col) (syms : List Nat)
    (hs : ∀ s ∈ syms, s = SDLK_UP ∨ s = SDLK_DOWN ∨ s = SDLK_LEFT ∨ s = SDLK_RIGHT)
    (n : Nat) (e : Bool) (ps : Polls) :
    main_menu_loop c o (n + syms.length) e w (presses syms ++ ps) =
      main_menu_loop c o n e (afterKeys c w syms) ps ∧
    0 ≤ (afterKeys c w syms).col ∧ (afterKeys c w syms).col < c.NUM_MENU ∧
    0 ≤ (afterKeys c w syms).row ∧
    (afterKeys c w syms).row < c.getMenuSize (afterKeys c w syms).col := by
  refine ⟨main_menu_loop_keys c o e ps syms ?_ n w, ?_⟩
  · intro s hm
    rcases hs s hm with h | h | h | h <;> subst h <;> decide
  · have hv := moveCursorAll_valid c hN hsz syms w.col w.row hc0 hc1 hr0 hr1
    have hcur := afterKeys_cursor c syms w
    rw [← hcur] at hv
    exact hv

/-- The sample menu, from the cursor (0,0): Up, Right, Right, Down, Left. -/
theorem cursor_invariant_witness :
    main_menu_loop sampleMenu sampleMasks
        (0 + [SDLK_UP, SDLK_RIGHT, SDLK_RIGHT, SDLK_DOWN, SDLK_LEFT].length) false sampleWorld
        (presses [SDLK_UP, SDLK_RIGHT, SDLK_RIGHT, SDLK_DOWN, SDLK_LEFT] ++ []) =
      main_menu_loop sampleMenu sampleMasks 0 false
        (afterKeys sampleMenu sampleWorld
          [SDLK_UP, SDLK_RIGHT, SDLK_RIGHT, SDLK_DOWN, SDLK_LEFT]) [] ∧
    0 ≤ (afterKeys sampleMenu sampleWorld
          [SDLK_UP, SDLK_RIGHT, SDLK_RIGHT, SDLK_DOWN, SDLK_LEFT]).col ∧
    (afterKeys sampleMenu sampleWorld
          [SDLK_UP, SDLK_RIGHT, SDLK_RIGHT, SDLK_DOWN, SDLK_LEFT]).col <
      sampleMenu.NUM_MENU ∧
    0 ≤ (afterKeys sampleMenu sampleWorld
          [SDLK_UP, SDLK_RIGHT, SDLK_RIGHT, SDLK_DOWN, SDLK_LEFT]).row ∧
    (afterKeys sampleMenu sampleWorld
          [SDLK_UP, SDLK_RIGHT, SDLK_RIGHT, SDLK_DOWN, SDLK_LEFT]).row <
      sampleMenu.getMenuSize
        (afterKeys sampleMenu sampleWorld
          [SDLK_UP, SDLK_RIGHT, SDLK_RIGHT, SDLK_DOWN, SDLK_LEFT]).col :=
  cursor_invariant sampleMenu sampleMasks sampleWorld (by decide)
    (by
      intro col h0 h1
      simp only [sampleMenu]
      split_ifs <;> decide)
    (by decide) (by decide) (by decide) (by decide)
    [SDLK_UP, SDLK_RIGHT, SDLK_RIGHT, SDLK_DOWN, SDLK_LEFT] (by decide) 0 false []

/-! ## The scrollbar -/

theorem menu_scrollbar_loop_presses (min oldvalue increment newMax newMin : Int)
    (ps : Polls) (syms : List Nat)
    (hs : ∀ s ∈ syms, s ≠ SDLK_RETURN ∧ s ≠ SDLK_ESCAPE) :
    ∀ (cur : Int) (w : World),
      menu_scrollbar_loop min oldvalue increment newMax newMin cur w (presses syms ++ ps) =
        menu_scrollbar_loop min oldvalue increment newMax newMin
          (scrollPos increment newMax newMin cur syms)
          (scrollDraws increment newMax newMin cur w syms) ps := by
  induction syms with
  | nil => intro cur w; rfl
  | cons s ss ih =>
    intro cur w
    obtain ⟨hr, he⟩ := hs s (by simp)
    have hss : ∀ x ∈ ss, x ≠ SDLK_RETURN ∧ x ≠ SDLK_ESCAPE := fun x hx => hs x (by simp [hx])
    show menu_scrollbar_loop min oldvalue increment newMax newMin cur w
      (some (.keyDown s) :: (presses ss ++ ps)) = _
    simp only [menu_scrollbar_loop, if_neg hr, if_neg he]
    exact ih hss _ _

/-- For a range whose step is not zero: after any run of Left and Right presses, Escape
makes `menu_scrollbar` return the original `current`, and Enter the relative position plus
`min`. -/
theorem menu_scrollbar_results (min max current : Int) (w : World) (rest : Polls)
    (syms : List Nat) (hs : ∀ s ∈ syms, s = SDLK_LEFT ∨ s = SDLK_RIGHT)
    (hi : Int.tdiv (max - min) 31 ≠ 0) :
    (∃ w', menu_scrollbar min max current w
        (presses syms ++ some (.keyDown SDLK_ESCAPE) :: rest) = .returned current w' rest) ∧
    (∃ w', menu_scrollbar min max current w
        (presses syms ++ some (.keyDown SDLK_RETURN) :: rest) =
      .returned
        (scrollPos (Int.tdiv (max - min) 31) (Int.tdiv (max - min) 31 * 31) 0 (current - min)
          syms + min) w' rest) := by
  have hs' : ∀ s ∈ syms, s ≠ SDLK_RETURN ∧ s ≠ SDLK_ESCAPE := by
    intro s hm
    rcases hs s hm with h | h <;> subst h <;> decide
  have hne : SDLK_ESCAPE ≠ SDLK_RETURN := by decide
  have e1 : menu_scrollbar min max current w
      (presses syms ++ some (.keyDown SDLK_ESCAPE) :: rest) =
      .returned current
        (scrollDraws (Int.tdiv (max - min) 31) (Int.tdiv (max - min) 31 * 31) 0
          (current - min)
          (w.log (.drawMenuScrollbar (Int.tdiv (current - min - 0) (Int.tdiv (max - min) 31))))
          syms) rest := by
    simp only [menu_scrollbar, if_neg hi]
    rw [menu_scrollbar_loop_presses _ _ _ _ _ _ syms hs']
    simp only [menu_scrollbar_loop, if_neg hne, if_true]
  have e2 : menu_scrollbar min max current w
      (presses syms ++ some (.keyDown SDLK_RETURN) :: rest) =
      .returned
        (scrollPos (Int.tdiv (max - min) 31) (Int.tdiv (max - min) 31 * 31) 0 (current - min)
          syms + min)
        (scrollDraws (Int.tdiv (max - min) 31) (Int.tdiv (max - min) 31 * 31) 0
          (current - min)
          (w.log (.drawMenuScrollbar (Int.tdiv (current - min - 0) (Int.tdiv (max - min) 31))))
          syms) rest := by
    simp only [menu_scrollbar, if_neg hi]
    rw [menu_scrollbar_loop_presses _ _ _ _ _ _ syms hs']
    simp only [menu_scrollbar_loop, if_true]
  exact ⟨⟨_, e1⟩, ⟨_, e2⟩⟩

theorem scrollMove_grid (step : Int) (sym : Nat) (hs : sym = SDLK_LEFT ∨ sym = SDLK_RIGHT)
    (cur : Int) (h : ∃ k : Int, cur = step * k ∧ 0 ≤ k ∧ k ≤ 31) :
    ∃ k : Int, scrollMove step (step * 31) 0 cur sym = step * k ∧ 0 ≤ k ∧ k ≤ 31 := by
  obtain ⟨k, hk, hk0, hk1⟩ := h
  have hne : SDLK_RIGHT ≠ SDLK_LEFT := by decide
  rcases hs with hs | hs
  · subst hs
    simp only [scrollMove, if_true]
    by_cases hpos : cur > 0
    · rw [if_pos hpos]
      have hkpos : 0 < k := by
        by_contra hcon
        have hk' : k = 0 := by omega
        rw [hk', mul_zero] at hk
        omega
      exact ⟨k - 1, by rw [hk]; ring, by omega, by omega⟩
    · rw [if_neg hpos]
      exact ⟨0, by ring, le_refl _, by omega⟩
  · subst hs
    simp only [scrollMove, if_neg hne, if_true]
    by_cases hlt : cur < step * 31
    · rw [if_pos hlt]
      have hk31 : k < 31 := by
        by_contra hcon
        have hk' : k = 31 := by omega
        rw [hk'] at hk
        omega
      exact ⟨k + 1, by rw [hk]; ring, by omega, by omega⟩
    · rw [if_neg hlt]
      exact ⟨31, rfl, by omega, le_refl _⟩

theorem scrollPos_grid (step : Int) (syms : List Nat)
    (hs : ∀ s ∈ syms, s = SDLK_LEFT ∨ s = SDLK_RIGHT) :
    ∀ cur : Int, (∃ k : Int, cur = step * k ∧ 0 ≤ k ∧ k ≤ 31) →
      ∃ k : Int, scrollPos step (step * 31) 0 cur syms = step * k ∧ 0 ≤ k ∧ k ≤ 31 := by
  induction syms with
  | nil => intro cur h; exact h
  | cons s ss ih =>
    intro cur h
    have hss : ∀ x ∈ ss, x = SDLK_LEFT ∨ x = SDLK_RIGHT := fun x hx => hs x (by simp [hx])
    exact ih hss _ (scrollMove_grid step s (hs s (by simp)) cur h)

theorem grid_bounds (step k : Int) (h1 : 1 ≤ step) (hk0 : 0 ≤ k) (hk1 : k ≤ 31) :
    step ∣ step * k ∧ 0 ≤ step * k ∧ step * k ≤ 31 * step := by
  refine ⟨Dvd.intro k rfl, mul_nonneg (by omega) hk0, ?_⟩
  have := mul_le_mul_of_nonneg_left hk1 (show (0 : Int) ≤ step by omega)
  linarith

/-- C13 (the code at the failing input): for `min = 0`, `max = 10` the step
`(max - min) / 31` is 0, and `menu_scrollbar` divides by it before it reads any key. -/
theorem scrollbar_narrow_range_crashes (w : World) (polls : Polls) :
    Int.tdiv (10 - 0) 31 = 0 ∧ menu_scrollbar 0 10 0 w polls = .crashed := by
  exact ⟨by decide, rfl⟩

/-- C14 (the code at the failing input): for `min = 0`, `max = 128`, `current = 2` the step
is 4; one Left press takes the relative position from 2 to -2, and Enter returns -2. -/
theorem scrollbar_leaves_range :
    Int.tdiv (128 - 0) 31 = 4 ∧ scrollPos 4 (4 * 31) 0 (2 - 0) [SDLK_LEFT] = -2 ∧
    (menu_scrollbar 0 128 2 sampleWorld (presses [SDLK_LEFT, SDLK_RETURN])).value? =
      some (-2) := by
  decide

/-- C15: for a range with step `(max - min) / 31 ≥ 1` and a starting value whose offset
from `min` is a multiple of the step within `[0, 31 * step]`, after every run of Left and
Right presses the offset is a multiple of the step within `[0, 31 * step]` and Enter returns
it plus `min`; Right at `31 * step` and Left at 0 leave the offset unchanged; for `min = 0`,
`max = 128`, `current = 64` the step is 4 and no number of Right presses takes the position
above 124. -/
theorem scrollbar_on_grid (min max current : Int) (w : World) (rest : Polls)
    (syms : List Nat) (hs : ∀ s ∈ syms, s = SDLK_LEFT ∨ s = SDLK_RIGHT)
    (hstep : 1 ≤ (max - min) / 31) (hdvd : (max - min) / 31 ∣ current - min)
    (h0 : 0 ≤ current - min) (h31 : current - min ≤ 31 * ((max - min) / 31)) :
    Int.tdiv (max - min) 31 = (max - min) / 31 ∧
    (max - min) / 31 ∣
      scrollPos ((max - min) / 31) ((max - min) / 31 * 31) 0 (current - min) syms ∧
    0 ≤ scrollPos ((max - min) / 31) ((max - min) / 31 * 31) 0 (current - min) syms ∧
    scrollPos ((max - min) / 31) ((max - min) / 31 * 31) 0 (current - min) syms ≤
      31 * ((max - min) / 31) ∧
    (∃ w', menu_scrollbar min max current w
        (presses syms ++ some (.keyDown SDLK_RETURN) :: rest) =
      .returned
        (scrollPos ((max - min) / 31) ((max - min) / 31 * 31) 0 (current - min) syms + min)
        w' rest) ∧
    scrollMove ((max - min) / 31) ((max - min) / 31 * 31) 0 (31 * ((max - min) / 31))
      SDLK_RIGHT = 31 * ((max - min) / 31) ∧
    scrollMove ((max - min) / 31) ((max - min) / 31 * 31) 0 0 SDLK_LEFT = 0 ∧
    Int.tdiv (128 - 0) 31 = 4 ∧
    ∀ n : Nat, scrollPos 4 (4 * 31) 0 (64 - 0) (List.replicate n SDLK_RIGHT) ≤ 124 := by
  have hrange : 0 ≤ max - min := by omega
  have htd : Int.tdiv (max - min) 31 = (max - min) / 31 :=
    Int.tdiv_eq_ediv hrange (by decide)
  have hk : ∃ k : Int, current - min = (max - min) / 31 * k ∧ 0 ≤ k ∧ k ≤ 31 := by
    obtain ⟨k, hk⟩ := hdvd
    refine ⟨k, hk, ?_, ?_⟩
    · by_contra hcon
      have : (max - min) / 31 * k ≤ (max - min) / 31 * (-1) :=
        mul_le_mul_of_nonneg_left (by omega) (by omega)
      omega
    · by_contra hcon
      have : (max - min) / 31 * 32 ≤ (max - min) / 31 * k :=
        mul_le_mul_of_nonneg_left (by omega) (by omega)
      omega
  obtain ⟨k, hpos, hk0, hk1⟩ := scrollPos_grid _ syms hs _ hk
  obtain ⟨hd, hlo, hhi⟩ := grid_bounds _ k hstep hk0 hk1
  have hne : SDLK_RIGHT ≠ SDLK_LEFT := by decide
  refine ⟨htd, ?_, ?_, ?_, ?_, ?_, ?_, by decide, ?_⟩
  · rw [hpos]; exact hd
  · rw [hpos]; exact hlo
  · rw [hpos]; exact hhi
  · have hi : Int.tdiv (max - min) 31 ≠ 0 := by rw [htd]; omega
    have := (menu_scrollbar_results min max current w rest syms hs hi).2
    rw [htd] at this
    exact this
  · simp only [scrollMove, if_neg hne, if_true]
    split_ifs <;> omega
  · simp only [scrollMove, if_true]
    split_ifs <;> omega
  · intro n
    obtain ⟨j, hj, hj0, hj1⟩ := scrollPos_grid 4 (List.replicate n SDLK_RIGHT)
      (fun s hm => Or.inr (List.eq_of_mem_replicate hm)) (64 - 0) ⟨16, by decide, by decide, by decide⟩
    rw [hj]
    omega

/-- The volume bar, `min = 0`, `max = 128`, from 64: Right, Right, Left. -/
theorem scrollbar_on_grid_witness :
    Int.tdiv (128 - 0) 31 = (128 - 0) / 31 ∧
    (128 - 0) / 31 ∣
      scrollPos ((128 - 0) / 31) ((128 - 0) / 31 * 31) 0 (64 - 0)
        [SDLK_RIGHT, SDLK_RIGHT, SDLK_LEFT] ∧
    0 ≤ scrollPos ((128 - 0) / 31) ((128 - 0) / 31 * 31) 0 (64 - 0)
        [SDLK_RIGHT, SDLK_RIGHT, SDLK_LEFT] ∧
    scrollPos ((128 - 0) / 31) ((128 - 0) / 31 * 31) 0 (64 - 0)
        [SDLK_RIGHT, SDLK_RIGHT, SDLK_LEFT] ≤ 31 * ((128 - 0) / 31) ∧
    (∃ w', menu_scrollbar 0 128 64 sampleWorld
        (presses [SDLK_RIGHT, SDLK_RIGHT, SDLK_LEFT] ++ some (.keyDown SDLK_RETURN) :: []) =
      .returned
        (scrollPos ((128 - 0) / 31) ((128 - 0) / 31 * 31) 0 (64 - 0)
          [SDLK_RIGHT, SDLK_RIGHT, SDLK_LEFT] + 0) w' []) ∧
    scrollMove ((128 - 0) / 31) ((128 - 0) / 31 * 31) 0 (31 * ((128 - 0) / 31))
      SDLK_RIGHT = 31 * ((128 - 0) / 31) ∧
    scrollMove ((128 - 0) / 31) ((128 - 0) / 31 * 31) 0 0 SDLK_LEFT = 0 ∧
    Int.tdiv (128 - 0) 31 = 4 ∧
    ∀ n : Nat, scrollPos 4 (4 * 31) 0 (64 - 0) (List.replicate n SDLK_RIGHT) ≤ 124 :=
  scrollbar_on_grid 0 128 64 sampleWorld [] [SDLK_RIGHT, SDLK_RIGHT, SDLK_LEFT] (by decide)
    (by decide) (by decide) (by decide) (by decide)

/-- C16 (the code at the failing input): for `min = 0`, `max = 10`, `current = 5`, a call
ended by Escape, or by Enter, does not return: the step is 0 and `menu_scrollbar` divides
by it before it reads the key. -/
theorem scrollbar_escape_narrow_range (w : World) (rest : Polls) :
    menu_scrollbar 0 10 5 w (presses [] ++ some (.keyDown SDLK_ESCAPE) :: rest) = .crashed ∧
    menu_scrollbar 0 10 5 w (presses [] ++ some (.keyDown SDLK_RETURN) :: rest) = .crashed := by
  exact ⟨rfl, rfl⟩

/-- C17 (the code at the failing input): with `volumeLevel = 2`, the body of
`case CONFIG_MENU_VOLUME` run on Left, Enter stores the volume level -2. -/
theorem volume_leaves_range :
    lowVolumeWorld.cfg.volumeLevel = 2 ∧
    (caseVolume lowVolumeWorld (presses [SDLK_LEFT, SDLK_RETURN])).state?.map
      (fun w => w.cfg.volumeLevel) = some (-2) := by
  decide

/-- C18 (the code at the failing input): with `creSpeedMul = 200` and `volumeLevel = 128`,
Creature Speed, CUSTOM, then Escape in the scrollbar: the body of
`case CONFIG_MENU_CREATURE_SPEED` stores 128, the volume level, in `creSpeedMul`. -/
theorem creature_speed_cancel_changes_speed :
    sampleWorld.cfg.creSpeedMul = 200 ∧ sampleWorld.cfg.volumeLevel = 128 ∧
    (caseCreatureSpeed sampleMenu sampleMenu.CONFIG_MENU_CREATURE_SPEED sampleWorld
      (presses [SDLK_DOWN, SDLK_RETURN, SDLK_ESCAPE])).state?.map
      (fun w => w.cfg.creSpeedMul) = some 128 ∧
    (menu_return sampleMenu sampleMasks sampleMenu.CONFIG_MENU_SWITCH
      sampleMenu.CONFIG_MENU_CREATURE_SPEED sampleWorld
      (presses [SDLK_DOWN, SDLK_RETURN, SDLK_ESCAPE])).state?.map
      (fun w => w.cfg.creSpeedMul) = some 128 := by
  decide

/-! ## The list -/

theorem menu_list_loop_presses (listSize : Int) (ps : Polls) (syms : List Nat)
    (hs : ∀ s ∈ syms, s ≠ SDLK_RETURN ∧ s ≠ SDLK_ESCAPE) :
    ∀ (cur : Int) (w : World),
      menu_list_loop listSize cur w (presses syms ++ ps) =
        menu_list_loop listSize (listPos listSize cur syms) w ps := by
  induction syms with
  | nil => intro cur w; rfl
  | cons s ss ih =>
    intro cur w
    obtain ⟨hr, he⟩ := hs s (by simp)
    have hss : ∀ x ∈ ss, x ≠ SDLK_RETURN ∧ x ≠ SDLK_ESCAPE := fun x hx => hs x (by simp [hx])
    show menu_list_loop listSize cur w (some (.keyDown s) :: (presses ss ++ ps)) = _
    have hstep : menu_list_loop listSize cur w (some (.keyDown s) :: (presses ss ++ ps)) =
        menu_list_loop listSize (listMove listSize cur s) w (presses ss ++ ps) := by
      simp only [menu_list_loop, if_neg hr, if_neg he, listMove]
      by_cases hu : s = SDLK_UP
      · simp only [if_pos hu]
      · simp only [if_neg hu]
        by_cases hd : s = SDLK_DOWN
        · simp only [if_pos hd]
        · simp only [if_neg hd]
    rw [hstep, ih hss]
    rfl

theorem emod_of_shift (a n r q : Int) (h : a = r + q * n) (h0 : 0 ≤ r) (h1 : r < n) :
    a % n = r := by
  rw [h, Int.add_mul_emod_self, Int.emod_eq_of_lt h0 h1]

theorem listMove_up (n cur : Int) (h0 : 0 ≤ cur) (h1 : cur < n) :
    listMove n cur SDLK_UP = (cur - 1) % n := by
  simp only [listMove, if_true]
  by_cases hz : cur < 1
  · rw [if_pos hz]
    exact (emod_of_shift (cur - 1) n (n - 1) (-1) (by omega) (by omega) (by omega)).symm
  · rw [if_neg hz]
    exact (Int.emod_eq_of_lt (by omega) (by omega)).symm

theorem listMove_down (n cur : Int) (h0 : 0 ≤ cur) (h1 : cur < n) :
    listMove n cur SDLK_DOWN = (cur + 1) % n := by
  have hne : SDLK_DOWN ≠ SDLK_UP := by decide
  simp only [listMove, if_neg hne, if_true]
  by_cases hz : cur > n - 2
  · rw [if_pos hz]
    exact (emod_of_shift (cur + 1) n 0 1 (by omega) (le_refl _) (by omega)).symm
  · rw [if_neg hz]
    exact (Int.emod_eq_of_lt (by omega) (by omega)).symm

theorem listPos_eq (n : Int) (hn : 1 ≤ n) (syms : List Nat)
    (hs : ∀ s ∈ syms, s = SDLK_UP ∨ s = SDLK_DOWN) :
    ∀ cur : Int, 0 ≤ cur → cur < n →
      listPos n cur syms =
        (cur + ((syms.count SDLK_DOWN : Int) - (syms.count SDLK_UP : Int))) % n := by
  induction syms with
  | nil =>
    intro cur h0 h1
    simp only [listPos, List.foldl, List.count_nil, Nat.cast_zero, sub_zero, add_zero]
    exact (Int.emod_eq_of_lt h0 h1).symm
  | cons s ss ih =>
    intro cur h0 h1
    have hss : ∀ x ∈ ss, x = SDLK_UP ∨ x = SDLK_DOWN := fun x hx => hs x (by simp [hx])
    have hnpos : 0 < n := by omega
    have hdu : SDLK_DOWN ≠ SDLK_UP := by decide
    have hud : SDLK_UP ≠ SDLK_DOWN := by decide
    show listPos n (listMove n cur s) ss = _
    rcases hs s (by simp) with h | h
    · subst h
      rw [listMove_up n cur h0 h1,
        ih hss _ (Int.emod_nonneg _ (by omega)) (Int.emod_lt_of_pos _ hnpos),
        Int.emod_add_emod]
      congr 1
      simp only [List.count_cons_self, List.count_cons_of_ne hdu, Nat.cast_add, Nat.cast_one]
      ring
    · subst h
      rw [listMove_down n cur h0 h1,
        ih hss _ (Int.emod_nonneg _ (by omega)) (Int.emod_lt_of_pos _ hnpos),
        Int.emod_add_emod]
      congr 1
      simp only [List.count_cons_self, List.count_cons_of_ne hud, Nat.cast_add, Nat.cast_one]
      ring

/-- C19: for a list of `listSize ≥ 1` entries and every run of Up and Down presses,
`menu_list` ended by Escape returns -1, and ended by Enter returns the number of Down
presses minus the number of Up presses, modulo `listSize`, an index in `[0, listSize)`. -/
theorem menu_list_result (listSize : Int) (hn : 1 ≤ listSize) (syms : List Nat)
    (hs : ∀ s ∈ syms, s = SDLK_UP ∨ s = SDLK_DOWN) (w : World) (rest : Polls) :
    menu_list listSize w (presses syms ++ some (.keyDown SDLK_ESCAPE) :: rest) =
      .returned (-1) (w.log (.drawMenuList 0)) rest ∧
    menu_list listSize w (presses syms ++ some (.keyDown SDLK_RETURN) :: rest) =
      .returned (((syms.count SDLK_DOWN : Int) - (syms.count SDLK_UP : Int)) % listSize)
        (w.log (.drawMenuList 0)) rest ∧
    0 ≤ ((syms.count SDLK_DOWN : Int) - (syms.count SDLK_UP : Int)) % listSize ∧
    ((syms.count SDLK_DOWN : Int) - (syms.count SDLK_UP : Int)) % listSize < listSize := by
  have hs' : ∀ s ∈ syms, s ≠ SDLK_RETURN ∧ s ≠ SDLK_ESCAPE := by
    intro s hm
    rcases hs s hm with h | h <;> subst h <;> decide
  have hpos := listPos_eq listSize hn syms hs 0 (le_refl _) (by omega)
  rw [zero_add] at hpos
  have h1 : SDLK_ESCAPE ≠ SDLK_RETURN := by decide
  have h2 : SDLK_ESCAPE ≠ SDLK_UP := by decide
  have h3 : SDLK_ESCAPE ≠ SDLK_DOWN := by decide
  refine ⟨?_, ?_, Int.emod_nonneg _ (by omega), Int.emod_lt_of_pos _ (by omega)⟩
  · simp only [menu_list]
    rw [menu_list_loop_presses listSize _ syms hs']
    simp only [menu_list_loop, if_neg h1, if_neg h2, if_neg h3, if_true]
  · simp only [menu_list]
    rw [menu_list_loop_presses listSize _ syms hs', hpos]
    simp only [menu_list_loop, if_true]

/-- A list of three entries: Up, Up, Down, Up. -/
theorem menu_list_result_witness :
    menu_list 3 sampleWorld
        (presses [SDLK_UP, SDLK_UP, SDLK_DOWN, SDLK_UP] ++
          some (.keyDown SDLK_ESCAPE) :: []) =
      .returned (-1) (sampleWorld.log (.drawMenuList 0)) [] ∧
    menu_list 3 sampleWorld
        (presses [SDLK_UP, SDLK_UP, SDLK_DOWN, SDLK_UP] ++
          some (.keyDown SDLK_RETURN) :: []) =
      .returned
        ((([SDLK_UP, SDLK_UP, SDLK_DOWN, SDLK_UP].count SDLK_DOWN : Int) -
          ([SDLK_UP, SDLK_UP, SDLK_DOWN, SDLK_UP].count SDLK_UP : Int)) % 3)
        (sampleWorld.log (.drawMenuList 0)) [] ∧
    0 ≤ (([SDLK_UP, SDLK_UP, SDLK_DOWN, SDLK_UP].count SDLK_DOWN : Int) -
          ([SDLK_UP, SDLK_UP, SDLK_DOWN, SDLK_UP].count SDLK_UP : Int)) % 3 ∧
    (([SDLK_UP, SDLK_UP, SDLK_DOWN, SDLK_UP].count SDLK_DOWN : Int) -
          ([SDLK_UP, SDLK_UP, SDLK_DOWN, SDLK_UP].count SDLK_UP : Int)) % 3 < 3 :=
  menu_list_result 3 (by decide) [SDLK_UP, SDLK_UP, SDLK_DOWN, SDLK_UP] (by decide)
    sampleWorld []

/-! ## The text entry -/

theorem menu_string_loop_key (keys : Nat → Nat) (maxLength : Int) (hm : 0 ≤ maxLength)
    (buf : List Char) (w : World) (s : Nat) (ps : Polls)
    (hs : s = SDLK_BACKSPACE ∨ isCharKey keys s = true) :
    menu_string_loop keys maxLength buf w (some (.keyDown s) :: ps) =
      menu_string_loop keys maxLength (editKey keys maxLength buf s) w ps := by
  rcases hs with h | h
  · subst h
    have h1 : SDLK_BACKSPACE ≠ SDLK_RETURN := by decide
    have h2 : SDLK_BACKSPACE ∉ ignoredKeys := by decide
    simp only [menu_string_loop, if_neg h1, if_neg h2, true_or, if_true, editKey]
  · simp only [isCharKey, Bool.and_eq_true, bne_iff_ne, ne_eq, Bool.not_eq_true',
      List.contains_eq_any_beq, List.any_eq_false, beq_iff_eq, decide_eq_true_eq] at h
    obtain ⟨⟨⟨⟨⟨⟨h1, h2⟩, h3⟩, h4⟩, h5⟩, h6⟩, h7⟩ := h
    have h2' : s ∉ ignoredKeys := fun hin => h2 s hin rfl
    have h34 : ¬(s = SDLK_BACKSPACE ∨ s = SDLK_LEFT) := by
      rintro (h | h) <;> contradiction
    have hneg : ¬ maxLength < 0 := by omega
    simp only [menu_string_loop, if_neg h1, if_neg h2', if_neg h34, if_neg h5, if_pos h6,
      editKey, if_neg h3, strlenLt, storeChar, if_neg h7, Bool.or_eq_true, decide_eq_true_eq,
      hneg, false_or]
    split_ifs <;> rfl

theorem menu_string_loop_presses (keys : Nat → Nat) (maxLength : Int) (hm : 0 ≤ maxLength)
    (w : World) (ps : Polls) (syms : List Nat)
    (hs : ∀ s ∈ syms, s = SDLK_BACKSPACE ∨ isCharKey keys s = true) :
    ∀ buf : List Char,
      menu_string_loop keys maxLength buf w (presses syms ++ ps) =
        menu_string_loop keys maxLength (editAll keys maxLength buf syms) w ps := by
  induction syms with
  | nil => intro buf; rfl
  | cons s ss ih =>
    intro buf
    have hss : ∀ x ∈ ss, x = SDLK_BACKSPACE ∨ isCharKey keys x = true :=
      fun x hx => hs x (by simp [hx])
    show menu_string_loop keys maxLength buf w (some (.keyDown s) :: (presses ss ++ ps)) = _
    rw [menu_string_loop_key keys maxLength hm buf w s _ (hs s (by simp)), ih hss]
    rfl

theorem editKey_length (keys : Nat → Nat) (maxLength : Int) (buf : List Char) (s : Nat)
    (h : (buf.length : Int) ≤ maxLength) :
    ((editKey keys maxLength buf s).length : Int) ≤ maxLength := by
  unfold editKey
  split_ifs with h1 h2
  · simp only [List.length_dropLast]
    omega
  · simp only [List.length_append, List.length_singleton, Nat.cast_add, Nat.cast_one]
    omega
  · exact h

theorem editAll_length (keys : Nat → Nat) (maxLength : Int) (syms : List Nat) :
    ∀ buf : List Char, (buf.length : Int) ≤ maxLength →
      ((editAll keys maxLength buf syms).length : Int) ≤ maxLength := by
  induction syms with
  | nil => intro buf h; exact h
  | cons s ss ih =>
    intro buf h
    exact ih _ (editKey_length keys maxLength buf s h)

/-- C20 (as stated, refuted): with `maxLength = -1` and the QWERTY table, typing the key A
and Enter makes `menu_string` return `A`, a string longer than `maxLength`, where the fold
of the claim appends nothing. -/
theorem text_entry_negative_maxLength_counterexample :
    isCharKey (initKeys sampleChars 0) SDLK_a = true ∧
    (menu_string (initKeys sampleChars 0) (-1) sampleWorld
      (presses [SDLK_a] ++ some (.keyDown SDLK_RETURN) :: [])).value? = some ['A'] ∧
    editAll (initKeys sampleChars 0) (-1) [] [SDLK_a] = [] := by
  decide

/-- C20 (amended): for every `maxLength ≥ 0` and every run of character keys and
Backspace, the string `menu_string` returns on Enter is the fold of the keys from the empty
buffer, where a character key appends its mapped character iff the length is below
`maxLength` and Backspace removes the last character; its length is at most `maxLength`;
and with a maximum of at least 2 and the QWERTY table, typing A, B, Backspace, Enter
returns `A`. -/
theorem text_entry_result (keys : Nat → Nat) (maxLength : Int) (hm : 0 ≤ maxLength)
    (syms : List Nat) (hs : ∀ s ∈ syms, s = SDLK_BACKSPACE ∨ isCharKey keys s = true)
    (w : World) (rest : Polls) (p : ParserChars) :
    menu_string keys maxLength w (presses syms ++ some (.keyDown SDLK_RETURN) :: rest) =
      .returned (editAll keys maxLength [] syms) w rest ∧
    ((editAll keys maxLength [] syms).length : Int) ≤ maxLength ∧
    menu_string (initKeys p 0) (maxLength + 2) w
        (presses [SDLK_a, SDLK_b, SDLK_BACKSPACE] ++ some (.keyDown SDLK_RETURN) :: rest) =
      .returned ['A'] w rest := by
  refine ⟨?_, editAll_length keys maxLength syms [] (by simpa using hm), ?_⟩
  · simp only [menu_string]
    rw [menu_string_loop_presses keys maxLength hm w _ syms hs]
    simp only [menu_string_loop, if_true]
  · have ha : initKeys p 0 SDLK_a = 'A'.toNat := rfl
    have hb : initKeys p 0 SDLK_b = 'B'.toNat := rfl
    have hca : isCharKey (initKeys p 0) SDLK_a = true := by
      simp only [isCharKey, ha]
      decide
    have hcb : isCharKey (initKeys p 0) SDLK_b = true := by
      simp only [isCharKey, hb]
      decide
    simp only [menu_string]
    rw [menu_string_loop_presses (initKeys p 0) (maxLength + 2) (by omega) w _
      [SDLK_a, SDLK_b, SDLK_BACKSPACE] (by
        intro s hm'
        simp only [List.mem_cons, List.mem_singleton, List.not_mem_nil, or_false] at hm'
        rcases hm' with h | h | h
        · subst h; exact Or.inr hca
        · subst h; exact Or.inr hcb
        · exact Or.inl h)]
    have hab : SDLK_a ≠ SDLK_BACKSPACE := by decide
    have hbb : SDLK_b ≠ SDLK_BACKSPACE := by decide
    have e : editAll (initKeys p 0) (maxLength + 2) [] [SDLK_a, SDLK_b, SDLK_BACKSPACE] =
        ['A'] := by
      have l0 : ((([] : List Char).length : Nat) : Int) < maxLength + 2 := by
        simp only [List.length_nil, Nat.cast_zero]; omega
      have l1 : (((([] : List Char) ++ [Char.ofNat 'A'.toNat]).length : Nat) : Int) <
          maxLength + 2 := by
        simp only [List.nil_append, List.length_singleton, Nat.cast_one]; omega
      simp only [editAll, List.foldl, editKey, if_neg hab, if_neg hbb, if_true, ha, hb,
        if_pos l0, if_pos l1]
      decide
    rw [e]
    simp only [menu_string_loop, if_true]

/-- The QWERTY table, a maximum of 3: the keys A, B, C, D, Backspace. -/
theorem text_entry_result_witness :
    menu_string (initKeys sampleChars 0) 3 sampleWorld
        (presses [SDLK_a, SDLK_b, SDLK_c, SDLK_d, SDLK_BACKSPACE] ++
          some (.keyDown SDLK_RETURN) :: []) =
      .returned
        (editAll (initKeys sampleChars 0) 3 []
          [SDLK_a, SDLK_b, SDLK_c, SDLK_d, SDLK_BACKSPACE]) sampleWorld [] ∧
    ((editAll (initKeys sampleChars 0) 3 []
        [SDLK_a, SDLK_b, SDLK_c, SDLK_d, SDLK_BACKSPACE]).length : Int) ≤ 3 ∧
    menu_string (initKeys sampleChars 0) (3 + 2) sampleWorld
        (presses [SDLK_a, SDLK_b, SDLK_BACKSPACE] ++ some (.keyDown SDLK_RETURN) :: []) =
      .returned ['A'] sampleWorld [] :=
  text_entry_result (initKeys sampleChars 0) 3 (by decide)
    [SDLK_a, SDLK_b, SDLK_c, SDLK_d, SDLK_BACKSPACE] (by decide) sampleWorld [] sampleChars

/-! ## Escape in the text entry -/

/-- One key of `menu_string` whose index, if the table is read, lies inside it: the loop
goes on with some buffer. -/
theorem menu_string_loop_table_key (keys : Nat → Nat) (maxLength : Int) (sym : Nat)
    (hs : isTableKey sym = true) (buf : List Char) (w : World) (ps : Polls) :
    ∃ buf', menu_string_loop keys maxLength buf w (some (.keyDown sym) :: ps) =
      menu_string_loop keys maxLength buf' w ps := by
  simp only [isTableKey, Bool.and_eq_true, Bool.or_eq_true, bne_iff_ne, ne_eq, beq_iff_eq,
    decide_eq_true_eq] at hs
  obtain ⟨⟨hr, he⟩, hk⟩ := hs
  simp only [menu_string_loop, if_neg hr]
  by_cases hi : sym ∈ ignoredKeys
  · exact ⟨buf, by rw [if_pos hi]⟩
  · rw [if_neg hi]
    by_cases hb : sym = SDLK_BACKSPACE ∨ sym = SDLK_LEFT
    · exact ⟨buf.dropLast, by rw [if_pos hb]⟩
    · rw [if_neg hb, if_neg he]
      have hlt : sym < keyLen := by
        rcases hk with ((h | h) | h) | h
        · exact absurd (by simpa using h) hi
        · exact absurd (Or.inl h) hb
        · exact absurd (Or.inr h) hb
        · exact h
      by_cases hl : strlenLt buf maxLength = true
      · exact ⟨storeChar buf (keys sym), by rw [if_pos hl, if_pos hlt]⟩
      · exact ⟨buf, by rw [if_neg hl]⟩

/-- A run of such keys: the loop goes on with some buffer. -/
theorem menu_string_loop_table_keys (keys : Nat → Nat) (maxLength : Int) (ps : Polls)
    (syms : List Nat) (hs : ∀ s ∈ syms, isTableKey s = true) :
    ∀ (buf : List Char) (w : World),
      ∃ buf', menu_string_loop keys maxLength buf w (presses syms ++ ps) =
        menu_string_loop keys maxLength buf' w ps := by
  induction syms with
  | nil => intro buf w; exact ⟨buf, rfl⟩
  | cons s ss ih =>
    intro buf w
    obtain ⟨b1, h1⟩ := menu_string_loop_table_key keys maxLength s (hs s (by simp)) buf w
      (presses ss ++ ps)
    obtain ⟨b2, h2⟩ := ih (fun x hx => hs x (by simp [hx])) b1 w
    exact ⟨b2, by
      show menu_string_loop keys maxLength buf w (some (.keyDown s) :: (presses ss ++ ps)) = _
      rw [h1, h2]⟩

/-- After any run of keys whose table index lies inside `keys`, Escape makes
`menu_string` return the empty string, for every key table and every `maxLength`. -/
theorem menu_string_escape (keys : Nat → Nat) (maxLength : Int) (w : World) (rest : Polls)
    (syms : List Nat) (hs : ∀ s ∈ syms, isTableKey s = true) :
    menu_string keys maxLength w (presses syms ++ some (.keyDown SDLK_ESCAPE) :: rest) =
      .returned [] w rest := by
  obtain ⟨b, hb⟩ := menu_string_loop_table_keys keys maxLength
    (some (.keyDown SDLK_ESCAPE) :: rest) syms hs [] w
  unfold menu_string
  rw [hb]
  simp [menu_string_loop, SDLK_ESCAPE, SDLK_RETURN, ignoredKeys, SDLK_BACKSPACE, SDLK_LEFT,
    SDLK_UP, SDLK_DOWN]

/-- C21 (the code at the failing input): with room in the buffer, the Right arrow typed before Escape sends
`menu_string` to its `default` case, which reads `keys[SDLK_RIGHT]`, an index far outside
the 256 entries of the table; the Escape is not reached and no empty string is returned. -/
theorem text_entry_key_outside_table (keys : Nat → Nat) (n : Nat) (w : World)
    (rest : Polls) :
    menu_string keys (n + 1) w (presses [SDLK_RIGHT, SDLK_ESCAPE] ++ rest) = .crashed ∧
    ¬ SDLK_RIGHT < keyLen := by
  refine ⟨?_, by decide⟩
  have hl : strlenLt [] ((n : Int) + 1) = true := by
    simp [strlenLt]
  simp [menu_string, presses, menu_string_loop, hl, SDLK_RIGHT, SDLK_RETURN, ignoredKeys,
    SDLK_BACKSPACE, SDLK_LEFT, SDLK_ESCAPE, SDLK_UP, SDLK_DOWN, keyLen]

/-! ## The game keys and the two layouts -/

/-- In both tables the 26 letters, in alphabetical order, are assigned to 26 distinct
keys. -/
theorem layout_tables_distinct (p : ParserChars) :
    (letterKeys (qwertyKeys p)).Nodup ∧ letterBytes (qwertyKeys p) = letters ∧
    (letterKeys (dvorakKeys p)).Nodup ∧ letterBytes (dvorakKeys p) = letters := by
  refine ⟨?_, rfl, ?_, rfl⟩
  · have : letterKeys (qwertyKeys p) = letterKeys (qwertyKeys sampleChars) := rfl
    rw [this]; decide
  · have : letterKeys (dvorakKeys p) = letterKeys (dvorakKeys sampleChars) := rfl
    rw [this]; decide

/-- Under the QWERTY layout every letter has a key that delivers it to `KBDPUT`: the key
of the same letter. -/
theorem qwerty_letters_typeable (p : ParserChars) (k : Nat) (hk : k < 26) :
    (handle_key_down false (initKeys p 0) (SDLK_a + k)).kbdput = some ('A'.toNat + k) := by
  interval_cases k <;> rfl

/-- C23 (the code at the failing input): under the Dvorak layout the only bytes a key press delivers to
`KBDPUT` outside map mode are `C_BS`, `C_CR`, `C_SP` and the letters other than S, V, W
and Z; the keys the table gives to these four have no `case` in `handle_key_down`. -/
theorem dvorak_letters_dropped (p : ParserChars) (sym : Nat) :
    (handle_key_down false (initKeys p 1) sym).kbdput ∈
      none :: ([p.C_BS, p.C_CR, p.C_SP] ++
        letters.filter fun b => b ∉ ['S'.toNat, 'V'.toNat, 'W'.toNat, 'Z'.toNat]).map some := by
  by_cases hmem : sym ∈ supportedKeys
  · have hk : (handle_key_down false (initKeys p 1) sym).kbdput = some (initKeys p 1 sym) := by
      simp [handle_key_down, hmem]
    rw [hk]
    have hl : (letters.filter fun b => b ∉ ['S'.toNat, 'V'.toNat, 'W'.toNat, 'Z'.toNat]) =
        [65, 66, 67, 68, 69, 70, 71, 72, 73, 74, 75, 76, 77, 78, 79, 80, 81, 82, 84, 85,
          88, 89] := by decide
    rw [hl]
    simp only [supportedKeys, List.mem_cons, List.mem_singleton, List.not_mem_nil,
      or_false] at hmem
    have e : ∀ x y : Nat, some x = some y ↔ x = y := fun x y => Option.some_inj
    rcases hmem with h | h | h | h | h | h | h | h | h | h | h | h | h | h | h | h | h | h |
      h | h | h | h | h | h | h | h | h | h | h <;> subst h
    all_goals first
      | (have hv : initKeys p 1 SDLK_q = p.C_SP := rfl
         rw [hv]; simp)
      | (have hv : initKeys p 1 SDLK_w = p.C_SP := rfl
         rw [hv]; simp)
      | (have hv : initKeys p 1 SDLK_e = p.C_SP := rfl
         rw [hv]; simp)
      | (have hv : initKeys p 1 SDLK_z = p.C_SP := rfl
         rw [hv]; simp)
      | (have hv : initKeys p 1 SDLK_BACKSPACE = p.C_BS := rfl
         rw [hv]; simp)
      | (have hv : initKeys p 1 SDLK_RETURN = p.C_CR := rfl
         rw [hv]; simp)
      | (have hv : initKeys p 1 SDLK_SPACE = p.C_SP := rfl
         rw [hv]; simp)
      | (simp only [List.map_cons, List.map_append, List.map_nil, List.mem_cons,
           List.mem_append, e, List.not_mem_nil, or_false, false_or]
         right; right
         repeat (first | exact Or.inl rfl | apply Or.inr)
         try rfl)
  · have hk : (handle_key_down false (initKeys p 1) sym).kbdput = none := by
      unfold handle_key_down
      rw [if_neg (by decide), if_neg hmem]
      by_cases he : sym = SDLK_ESCAPE
      · rw [if_pos he]
      · rw [if_neg he]
    rw [hk]
    simp

/-! ## Committed choices of the Configuration menu -/

/-- The body of `case CONFIG_MENU_FULL_SCREEN` applies the index `menu_list` returns. -/
theorem caseFullScreen_apply (w : World) (polls : Polls) :
    caseFullScreen w polls =
      (menu_list 2 w polls).bind fun choice w rest =>
        .returned false (applyFullScreen choice w) rest := by
  unfold caseFullScreen applyFullScreen
  congr 1
  funext choice w rest
  split_ifs <;> rfl

/-- The body of `case CONFIG_MENU_VIDEO_RES` applies the index `menu_list` returns. -/
theorem caseVideoRes_apply (w : World) (polls : Polls) :
    caseVideoRes w polls =
      (menu_list 4 w polls).bind fun choice w rest =>
        .returned false (applyVideoRes choice w) rest := by
  unfold caseVideoRes applyVideoRes
  congr 1
  funext choice w rest
  split_ifs <;> rfl

/-- The body of `case CONFIG_MENU_GRAPHICS` applies the index `menu_list` returns. -/
theorem caseGraphics_apply (o : OptMasks) (w : World) (polls : Polls) :
    caseGraphics o w polls =
      (menu_list 3 w polls).bind fun choice w rest =>
        .returned (decide (choice = 0 ∨ choice = 1 ∨ choice = 2)) (applyGraphics o choice w)
          rest := by
  unfold caseGraphics applyGraphics
  congr 1
  funext choice w rest
  split_ifs <;> simp_all

/-- The body of `case CONFIG_MENU_VOLUME` applies the value `menu_scrollbar` returns. -/
theorem caseVolume_apply (w : World) (polls : Polls) :
    caseVolume w polls =
      (menu_scrollbar 0 128 w.cfg.volumeLevel w polls).bind fun v w rest =>
        .returned false (applyVolume v w) rest := rfl

/-- The body of `case CONFIG_MENU_CREATURE_SPEED` applies the index `menu_list` returns
and, after CUSTOM, the value `menu_scrollbar` returns. -/
theorem caseCreatureSpeed_apply (c : MenuIds) (item : Int) (w : World) (polls : Polls) :
    caseCreatureSpeed c item w polls =
      (menu_list 2 w polls).bind fun choice w rest =>
        if choice = 0 then helpMenu c item (applySpeedChoice choice w) rest
        else if choice = 1 then
          (menu_scrollbar 50 200 w.cfg.volumeLevel (applySpeedChoice choice w) rest).bind
            fun v w rest => .returned false (applySpeedValue v w) rest
        else .returned false (applySpeedChoice choice w) rest := by
  unfold caseCreatureSpeed applySpeedChoice applySpeedValue
  congr 1
  funext choice w rest
  split_ifs <;> rfl

/-- The body of `case CONFIG_MENU_REGEN_SPEED` applies the index `menu_list` returns. -/
theorem caseRegenSpeed_apply (w : World) (polls : Polls) :
    caseRegenSpeed w polls =
      (menu_list 3 w polls).bind fun choice w rest =>
        .returned (decide (choice = 0 ∨ choice = 1 ∨ choice = 2)) (applyRegenSpeed choice w)
          rest := by
  unfold caseRegenSpeed applyRegenSpeed
  congr 1
  funext choice w rest
  split_ifs <;> simp_all

/-- The body of `case CONFIG_MENU_RANDOM_MAZE` applies the index `menu_list` returns. -/
theorem caseRandomMaze_apply (w : World) (polls : Polls) :
    caseRandomMaze w polls =
      (menu_list 2 w polls).bind fun choice w rest =>
        .returned false (applyRandomMaze choice w) rest := by
  unfold caseRandomMaze applyRandomMaze
  congr 1
  funext choice w rest
  split_ifs <;> rfl

/-- The body of `case CONFIG_MENU_SND_MODE` applies the index `menu_list` returns. -/
theorem caseSndMode_apply (c : MenuIds) (o : OptMasks) (item : Int) (w : World)
    (polls : Polls) :
    caseSndMode c o item w polls =
      (menu_list 2 w polls).bind fun choice w rest =>
        if choice = 0 ∨ choice = 1 then helpMenu c item (applySndMode o choice w) rest
        else .returned false (applySndMode o choice w) rest := by
  unfold caseSndMode applySndMode
  congr 1
  funext choice w rest
  split_ifs <;> simp_all

/-- Clearing the bits of a mask and setting those of another, done twice, is the same as
done once. -/
theorem and_or_idem (g m h : Nat) : (((g &&& m) ||| h) &&& m) ||| h = (g &&& m) ||| h := by
  apply Nat.eq_of_testBit_eq
  intro i
  simp only [Nat.testBit_or, Nat.testBit_and]
  cases g.testBit i <;> cases m.testBit i <;> cases h.testBit i <;> rfl

theorem and_and_idem (g m : Nat) : (g &&& m) &&& m = g &&& m := by
  apply Nat.eq_of_testBit_eq
  intro i
  simp only [Nat.testBit_and]
  cases g.testBit i <;> cases m.testBit i <;> rfl

theorem or_or_idem (g h : Nat) : (g ||| h) ||| h = g ||| h := by
  apply Nat.eq_of_testBit_eq
  intro i
  simp only [Nat.testBit_or]
  cases g.testBit i <;> cases h.testBit i <;> rfl

theorem applyFullScreen_idem (choice : Int) (w : World) :
    applyFullScreen choice (applyFullScreen choice w) = applyFullScreen choice w := by
  unfold applyFullScreen
  by_cases h0 : choice = 0
  · simp only [if_pos h0]
    cases hf : w.cfg.FullScreen <;> simp [hf, changeFullScreen, changeVideoRes]
  · simp only [if_neg h0]
    by_cases h1 : choice = 1
    · simp only [if_pos h1]
      cases hf : w.cfg.FullScreen <;> simp [hf, changeFullScreen, changeVideoRes]
    · simp only [if_neg h1]

theorem applyVideoRes_idem (choice : Int) (w : World) :
    applyVideoRes choice (applyVideoRes choice w) = applyVideoRes choice w := by
  unfold applyVideoRes
  split_ifs <;> rfl

theorem applyGraphics_idem (o : OptMasks) (choice : Int) (w : World) :
    applyGraphics o choice (applyGraphics o choice w) = applyGraphics o choice w := by
  unfold applyGraphics
  split_ifs
  · simp [gfxNormal, and_and_idem]
  · simp [gfxHires, and_or_idem]
  · simp [gfxVector, and_or_idem]
  · rfl

theorem applyRegenSpeed_idem (choice : Int) (w : World) :
    applyRegenSpeed choice (applyRegenSpeed choice w) = applyRegenSpeed choice w := by
  unfold applyRegenSpeed
  split_ifs <;> rfl

theorem applyRandomMaze_idem (choice : Int) (w : World) :
    applyRandomMaze choice (applyRandomMaze choice w) = applyRandomMaze choice w := by
  unfold applyRandomMaze
  split_ifs <;> rfl

theorem applySndMode_idem (o : OptMasks) (choice : Int) (w : World) :
    applySndMode o choice (applySndMode o choice w) = applySndMode o choice w := by
  unfold applySndMode
  split_ifs
  · simp [stereoOn, or_or_idem]
  · simp [stereoOff, and_and_idem]
  · rfl

theorem applySpeedChoice_idem (choice : Int) (w : World) :
    applySpeedChoice choice (applySpeedChoice choice w) = applySpeedChoice choice w := by
  unfold applySpeedChoice
  split_ifs <;> rfl

theorem saveOptFile_idem (o : OptMasks) (w : World) :
    (saveOptFile o (saveOptFile o w).1).1 = (saveOptFile o w).1 := by
  unfold saveOptFile
  by_cases h : w.optsWritable = true
  · simp [h]
  · simp [h]

theorem caseDefaults_idem (o : OptMasks) (w : World) :
    caseDefaults o (caseDefaults o w) = caseDefaults o w := by
  simp [caseDefaults, changeVideoRes, loadDefaults, stereoOn, gfxNormal, and_or_idem]

/-- C22: for every Configuration item, every committed value (an index of `menu_list` or
a value of `menu_scrollbar`) and every state, what the `case` of the item does with the
committed value, done twice, leaves the same state (settings, options file and the rest)
as done once. -/
theorem committed_choice_idempotent (c : MenuIds) (o : OptMasks) (item : Int)
    (r : Committed) (w : World) :
    applyCommitted c o item r (applyCommitted c o item r w) = applyCommitted c o item r w := by
  by_cases h1 : item = c.CONFIG_MENU_FULL_SCREEN
  · have e : ∀ x, applyCommitted c o item r x =
        match r with
        | .index choice => applyFullScreen choice x
        | .value _ => x := fun x => by
      unfold applyCommitted; rw [if_pos h1]
    rw [e, e]
    cases r with
    | index choice => exact applyFullScreen_idem choice w
    | value v => rfl
  by_cases h2 : item = c.CONFIG_MENU_VIDEO_RES
  · have e : ∀ x, applyCommitted c o item r x =
        match r with
        | .index choice => applyVideoRes choice x
        | .value _ => x := fun x => by
      unfold applyCommitted; rw [if_neg h1, if_pos h2]
    rw [e, e]
    cases r with
    | index choice => exact applyVideoRes_idem choice w
    | value v => rfl
  by_cases h3 : item = c.CONFIG_MENU_GRAPHICS
  · have e : ∀ x, applyCommitted c o item r x =
        match r with
        | .index choice => applyGraphics o choice x
        | .value _ => x := fun x => by
      unfold applyCommitted; rw [if_neg h1, if_neg h2, if_pos h3]
    rw [e, e]
    cases r with
    | index choice => exact applyGraphics_idem o choice w
    | value v => rfl
  by_cases h4 : item = c.CONFIG_MENU_COLOR
  · have e : ∀ x, applyCommitted c o item r x = x := fun x => by
      unfold applyCommitted; rw [if_neg h1, if_neg h2, if_neg h3, if_pos h4]
    rw [e, e]
  by_cases h5 : item = c.CONFIG_MENU_VOLUME
  · have e : ∀ x, applyCommitted c o item r x =
        match r with
        | .index _ => x
        | .value v => applyVolume v x := fun x => by
      unfold applyCommitted; rw [if_neg h1, if_neg h2, if_neg h3, if_neg h4, if_pos h5]
    rw [e, e]
    cases r with
    | index choice => rfl
    | value v => rfl
  by_cases h6 : item = c.CONFIG_MENU_SAVEDIR
  · have e : ∀ x, applyCommitted c o item r x = x := fun x => by
      unfold applyCommitted
      rw [if_neg h1, if_neg h2, if_neg h3, if_neg h4, if_neg h5, if_pos h6]
    rw [e, e]
  by_cases h7 : item = c.CONFIG_MENU_CREATURE_SPEED
  · have e : ∀ x, applyCommitted c o item r x =
        match r with
        | .index choice => applySpeedChoice choice x
        | .value v => applySpeedValue v x := fun x => by
      unfold applyCommitted
      rw [if_neg h1, if_neg h2, if_neg h3, if_neg h4, if_neg h5, if_neg h6, if_pos h7]
    rw [e, e]
    cases r with
    | index choice => exact applySpeedChoice_idem choice w
    | value v => rfl
  by_cases h8 : item = c.CONFIG_MENU_REGEN_SPEED
  · have e : ∀ x, applyCommitted c o item r x =
        match r with
        | .index choice => applyRegenSpeed choice x
        | .value _ => x := fun x => by
      unfold applyCommitted
      rw [if_neg h1, if_neg h2, if_neg h3, if_neg h4, if_neg h5, if_neg h6, if_neg h7,
        if_pos h8]
    rw [e, e]
    cases r with
    | index choice => exact applyRegenSpeed_idem choice w
    | value v => rfl
  by_cases h9 : item = c.CONFIG_MENU_RANDOM_MAZE
  · have e : ∀ x, applyCommitted c o item r x =
        match r with
        | .index choice => applyRandomMaze choice x
        | .value _ => x := fun x => by
      unfold applyCommitted
      rw [if_neg h1, if_neg h2, if_neg h3, if_neg h4, if_neg h5, if_neg h6, if_neg h7,
        if_neg h8, if_pos h9]
    rw [e, e]
    cases r with
    | index choice => exact applyRandomMaze_idem choice w
    | value v => rfl
  by_cases h10 : item = c.CONFIG_MENU_SND_MODE
  · have e : ∀ x, applyCommitted c o item r x =
        match r with
        | .index choice => applySndMode o choice x
        | .value _ => x := fun x => by
      unfold applyCommitted
      rw [if_neg h1, if_neg h2, if_neg h3, if_neg h4, if_neg h5, if_neg h6, if_neg h7,
        if_neg h8, if_neg h9, if_pos h10]
    rw [e, e]
    cases r with
    | index choice => exact applySndMode_idem o choice w
    | value v => rfl
  by_cases h11 : item = c.CONFIG_MENU_SAVE_OPT
  · have e : ∀ x, applyCommitted c o item r x = (saveOptFile o x).1 := fun x => by
      unfold applyCommitted
      rw [if_neg h1, if_neg h2, if_neg h3, if_neg h4, if_neg h5, if_neg h6, if_neg h7,
        if_neg h8, if_neg h9, if_neg h10, if_pos h11]
    rw [e, e]
    exact saveOptFile_idem o w
  by_cases h12 : item = c.CONFIG_MENU_DEFAULTS
  · have e : ∀ x, applyCommitted c o item r x = caseDefaults o x := fun x => by
      unfold applyCommitted
      rw [if_neg h1, if_neg h2, if_neg h3, if_neg h4, if_neg h5, if_neg h6, if_neg h7,
        if_neg h8, if_neg h9, if_neg h10, if_neg h11, if_pos h12]
    rw [e, e]
    exact caseDefaults_idem o w
  · have e : ∀ x, applyCommitted c o item r x = x := fun x => by
      unfold applyCommitted
      rw [if_neg h1, if_neg h2, if_neg h3, if_neg h4, if_neg h5, if_neg h6, if_neg h7,
        if_neg h8, if_neg h9, if_neg h10, if_neg h11, if_neg h12]
    rw [e, e]

/-! ## The lines of the options file -/

/-- C24: for every settings state the text `saveOptFile` writes is 17 lines `key=value`,
the keys in the order creatureSpeed, turnDelay, moveDelay, keylayout, volumeLevel,
saveDirectory, fullScreen, screenWidth, creatureRegen, graphicsMode, stereoMode,
RandomMaze, ShieldFix, VisionScroll, CreaturesIgnoreObjects, CreaturesInstaRegen,
MarkDoorsOnScrollMaps; the graphicsMode value is NORMAL, HIRES or VECTOR and the
stereoMode value STEREO or MONO; the keys written are 17 different keys, the same set as
the keys `loadOptFile` compares with; and `saveOptFile` stores this text whenever the
file can be opened. -/
theorem saveOptFile_lines (o : OptMasks) (w : World) :
    (∃ graphics ∈ ["NORMAL".toList, "HIRES".toList, "VECTOR".toList],
      ∃ stereo ∈ ["STEREO".toList, "MONO".toList],
        optFileText o w.cfg =
          unlines (List.zipWith entry savedKeys (savedValues w.cfg graphics stereo))) ∧
    savedKeys.length = 17 ∧ savedKeys.Nodup ∧
    (∀ key, key ∈ savedKeys ↔ key ∈ recognizedKeys) ∧
    (saveOptFile o w).1.optsFile =
      (if w.optsWritable then some (optFileText o w.cfg) else w.optsFile) := by
  refine ⟨⟨graphicsName (graphicsModeOf o w.cfg.g_options), ?_,
    stereoName (stereoModeOf o w.cfg.g_options), ?_, ?_⟩, rfl, by decide, ?_, ?_⟩
  · cases graphicsModeOf o w.cfg.g_options <;> simp [graphicsName]
  · cases stereoModeOf o w.cfg.g_options <;> simp [stereoName]
  · rw [optFileText_eq_unlines]
    rfl
  · have hp : savedKeys.Perm recognizedKeys := by decide
    exact fun key => hp.mem_iff
  · unfold saveOptFile
    split_ifs <;> rfl

/-! ## Quit during a scrollbar -/

theorem scrollDraws_cfg (increment newMax newMin : Int) (syms : List Nat) :
    ∀ (cur : Int) (w : World),
      (scrollDraws increment newMax newMin cur w syms).cfg = w.cfg := by
  induction syms with
  | nil => intro cur w; rfl
  | cons s ss ih =>
    intro cur w
    simp only [scrollDraws]
    rw [ih]
    rfl

/-- For a range whose step is not zero: after any run of Left and Right presses, a Quit
event ends `menu_scrollbar` in `quitSDL(0)`, the settings as they were. -/
theorem menu_scrollbar_quit (min max current : Int) (w : World) (rest : Polls)
    (syms : List Nat) (hs : ∀ s ∈ syms, s = SDLK_LEFT ∨ s = SDLK_RIGHT)
    (hi : Int.tdiv (max - min) 31 ≠ 0) :
    ∃ w', menu_scrollbar min max current w (presses syms ++ some .quit :: rest) =
      .exited 0 w' ∧ w'.cfg = w.cfg := by
  have hs' : ∀ s ∈ syms, s ≠ SDLK_RETURN ∧ s ≠ SDLK_ESCAPE := by
    intro s h
    rcases hs s h with h | h <;> subst h <;> decide
  unfold menu_scrollbar
  simp only [if_neg hi]
  rw [menu_scrollbar_loop_presses _ _ _ _ _ _ syms hs']
  refine ⟨scrollDraws (Int.tdiv (max - min) 31) (Int.tdiv (max - min) 31 * 31) 0
    (current - min)
    (w.log (.drawMenuScrollbar (Int.tdiv (current - min - 0) (Int.tdiv (max - min) 31))))
    syms, ?_, ?_⟩
  · simp only [menu_scrollbar_loop]
  · rw [scrollDraws_cfg]
    rfl

/-- C25: for every `min`, `max`, `current` and every run of Left and Right presses
followed by a Quit event, `menu_scrollbar` returns no value: it ends the process in
`quitSDL(0)` with the settings as they were or, only when the step `(max - min) / 31` is
zero, in the division by zero of its first drawing.  The scrollbars of Volume and of
Creature Speed (CUSTOM) end in `quitSDL(0)`, and the settings, `volumeLevel` and
`creSpeedMul` among them, are as before the scrollbar opened. -/
theorem scrollbar_quit_commits_nothing (c : MenuIds) (item : Int) (min max current : Int)
    (syms : List Nat) (hs : ∀ s ∈ syms, s = SDLK_LEFT ∨ s = SDLK_RIGHT) (w : World)
    (rest : Polls) :
    ((Int.tdiv (max - min) 31 = 0 ∧
        menu_scrollbar min max current w (presses syms ++ some .quit :: rest) = .crashed) ∨
      ∃ w', menu_scrollbar min max current w (presses syms ++ some .quit :: rest) =
        .exited 0 w' ∧ w'.cfg = w.cfg) ∧
    (∃ w', caseVolume w (presses syms ++ some .quit :: rest) = .exited 0 w' ∧
      w'.cfg = w.cfg) ∧
    (∃ w', caseCreatureSpeed c item w
        (presses (SDLK_DOWN :: SDLK_RETURN :: syms) ++ some .quit :: rest) = .exited 0 w' ∧
      w'.cfg = w.cfg) := by
  refine ⟨?_, ?_, ?_⟩
  · by_cases hi : Int.tdiv (max - min) 31 = 0
    · left
      refine ⟨hi, ?_⟩
      unfold menu_scrollbar
      simp only [if_pos hi]
    · right
      exact menu_scrollbar_quit min max current w rest syms hs hi
  · obtain ⟨w', h, hc⟩ := menu_scrollbar_quit 0 128 w.cfg.volumeLevel w rest syms hs
      (by decide)
    refine ⟨w', ?_, hc⟩
    unfold caseVolume
    rw [h]
    rfl
  · have hl : menu_list 2 w
        (presses (SDLK_DOWN :: SDLK_RETURN :: syms) ++ some .quit :: rest) =
        .returned 1 (w.log (.drawMenuList 0)) (presses syms ++ some .quit :: rest) := by
      simp [menu_list, presses, menu_list_loop, SDLK_DOWN, SDLK_RETURN, SDLK_UP]
    obtain ⟨w', h, hc⟩ := menu_scrollbar_quit 50 200 (w.log (.drawMenuList 0)).cfg.volumeLevel
      (w.log (.drawMenuList 0)) rest syms hs (by decide)
    refine ⟨w', ?_, hc⟩
    unfold caseCreatureSpeed
    rw [hl]
    simp [Outcome.bind, h]

/-- Application of `scrollbar_quit_commits_nothing`: Volume, the presses Right, Right,
Left, then Quit. -/
theorem scrollbar_quit_commits_nothing_witness :
    (∀ s ∈ [SDLK_RIGHT, SDLK_RIGHT, SDLK_LEFT], s = SDLK_LEFT ∨ s = SDLK_RIGHT) ∧
    (((Int.tdiv (128 - 0) 31 = 0 ∧
        menu_scrollbar 0 128 64 sampleWorld
          (presses [SDLK_RIGHT, SDLK_RIGHT, SDLK_LEFT] ++ some .quit :: []) = .crashed) ∨
      ∃ w', menu_scrollbar 0 128 64 sampleWorld
          (presses [SDLK_RIGHT, SDLK_RIGHT, SDLK_LEFT] ++ some .quit :: []) =
        .exited 0 w' ∧ w'.cfg = sampleWorld.cfg) ∧
    (∃ w', caseVolume sampleWorld
        (presses [SDLK_RIGHT, SDLK_RIGHT, SDLK_LEFT] ++ some .quit :: []) = .exited 0 w' ∧
      w'.cfg = sampleWorld.cfg) ∧
    (∃ w', caseCreatureSpeed sampleMenu 6 sampleWorld
        (presses (SDLK_DOWN :: SDLK_RETURN :: [SDLK_RIGHT, SDLK_RIGHT, SDLK_LEFT]) ++
          some .quit :: []) = .exited 0 w' ∧
      w'.cfg = sampleWorld.cfg)) :=
  ⟨by decide,
    scrollbar_quit_commits_nothing sampleMenu 6 0 128 64 [SDLK_RIGHT, SDLK_RIGHT, SDLK_LEFT]
      (by decide) sampleWorld []⟩

/-! ## The bits of the option register -/

theorem sameOutside_or (g m : Nat) : sameOutside m g (g ||| m) := by
  intro i h
  simp [Nat.testBit_or, h]

theorem sameOutside_and (g m : Nat) (hm : m < 2 ^ 32) (hg : g < 2 ^ 32) :
    sameOutside m g (g &&& bitNot32 m) := by
  intro i h
  rw [Nat.testBit_and, testBit_bitNot32 m i hm, h]
  cases hgi : g.testBit i
  · rfl
  · have := testBit_lt_of_lt g i hg hgi
    simp [this]

theorem sameOutside_trans (m g g1 g2 : Nat) (h1 : sameOutside m g g1)
    (h2 : sameOutside m g1 g2) : sameOutside m g g2 :=
  fun i h => (h2 i h).trans (h1 i h)

theorem sameOutside_mono (m n g g1 : Nat) (h : sameOutside m g g1)
    (hmn : ∀ i, n.testBit i = false → m.testBit i = false) : sameOutside n g g1 :=
  fun i hi => h i (hmn i hi)

theorem testBit_or_false_left (a b i : Nat) (h : (a ||| b).testBit i = false) :
    a.testBit i = false := by
  rw [Nat.testBit_or] at h
  cases ha : a.testBit i
  · rfl
  · simp [ha] at h

theorem testBit_or_false_right (a b i : Nat) (h : (a ||| b).testBit i = false) :
    b.testBit i = false := by
  rw [Nat.testBit_or] at h
  cases hb : b.testBit i
  · rfl
  · simp [hb] at h

theorem and_bitNot32_lt (g m : Nat) (hg : g < 2 ^ 32) : g &&& bitNot32 m < 2 ^ 32 :=
  Nat.lt_of_le_of_lt Nat.and_le_left hg

theorem or_and_disjoint (a h v : Nat) (hd : v &&& h = 0) (ha : a &&& v = 0) :
    (a ||| h) &&& v = 0 := by
  apply Nat.eq_of_testBit_eq
  intro i
  have h1 := congrArg (fun n => n.testBit i) hd
  have h2 := congrArg (fun n => n.testBit i) ha
  simp only [Nat.testBit_and, Nat.zero_testBit] at h1 h2
  simp only [Nat.testBit_and, Nat.testBit_or, Nat.zero_testBit]
  cases hai : a.testBit i <;> cases hhi : h.testBit i <;> cases hvi : v.testBit i <;> simp_all

theorem and_comm_zero (a b : Nat) (h : a &&& b = 0) : b &&& a = 0 := by
  rw [Nat.land_comm]; exact h

/-- The three graphics statements: at most one of the two mode bits is left set, and no
bit outside the two masks changes. -/
theorem gfx_frame (o : OptMasks) (ho : o.WF) (g : Nat) (hg : g < 2 ^ 32) :
    ∀ g' ∈ [gfxNormal o g, gfxHires o g, gfxVector o g],
      atMostOneMode o g' ∧ sameOutside (o.OPT_HIRES ||| o.OPT_VECTOR) g g' := by
  obtain ⟨hV, hH, hS, -, -, -, hVH, hVS, hHS⟩ := ho
  have hVHlt : o.OPT_VECTOR ||| o.OPT_HIRES < 2 ^ 32 := Nat.or_lt_two_pow hV hH
  intro g' hmem
  simp only [List.mem_cons, List.mem_singleton, List.not_mem_nil, or_false] at hmem
  rcases hmem with h | h | h <;> subst h
  · refine ⟨Or.inl (and_bitNot32_sub g _ _ hVHlt (and_or_self_right _ _)), ?_⟩
    refine sameOutside_mono _ _ _ _ (sameOutside_and g _ hVHlt hg) ?_
    intro i hi
    rw [Nat.lor_comm]
    exact hi
  · refine ⟨Or.inr (or_and_disjoint _ _ _ hVH
      (and_bitNot32_sub g _ _ hV (Nat.and_self _))), ?_⟩
    refine sameOutside_trans _ _ (g &&& bitNot32 o.OPT_VECTOR) _ ?_ ?_
    · exact sameOutside_mono _ _ _ _ (sameOutside_and g _ hV hg)
        fun i hi => testBit_or_false_right _ _ i hi
    · exact sameOutside_mono _ _ _ _ (sameOutside_or _ _)
        fun i hi => testBit_or_false_left _ _ i hi
  · refine ⟨Or.inl (or_and_disjoint _ _ _ (and_comm_zero _ _ hVH)
      (and_bitNot32_sub g _ _ hH (Nat.and_self _))), ?_⟩
    refine sameOutside_trans _ _ (g &&& bitNot32 o.OPT_HIRES) _ ?_ ?_
    · exact sameOutside_mono _ _ _ _ (sameOutside_and g _ hH hg)
        fun i hi => testBit_or_false_left _ _ i hi
    · exact sameOutside_mono _ _ _ _ (sameOutside_or _ _)
        fun i hi => testBit_or_false_right _ _ i hi

/-- The two stereo statements change no bit outside `OPT_STEREO`. -/
theorem stereo_frame (o : OptMasks) (ho : o.WF) (g : Nat) (hg : g < 2 ^ 32) :
    ∀ g' ∈ [stereoOn o g, stereoOff o g], sameOutside o.OPT_STEREO g g' := by
  obtain ⟨hV, hH, hS, -⟩ := ho
  intro g' hmem
  simp only [List.mem_cons, List.mem_singleton, List.not_mem_nil, or_false] at hmem
  rcases hmem with h | h <;> subst h
  · exact sameOutside_or _ _
  · exact sameOutside_and g _ hS hg

/-- C26: in a 32-bit `g_options`, with masks that are disjoint bit patterns: each graphics
choice of the menu and each entry graphicsMode=NORMAL, HIRES or VECTOR of the options file
leaves at most one of `OPT_HIRES` and `OPT_VECTOR` set and changes no bit outside these
two masks; each stereo choice of the menu and each entry stereoMode=STEREO or MONO changes
no bit outside `OPT_STEREO`; `loadDefaults` sets `OPT_STEREO`, clears `OPT_HIRES` and
`OPT_VECTOR`, and changes no bit outside the three masks. -/
theorem graphics_stereo_separate (o : OptMasks) (ho : o.WF) (w : World)
    (hg : w.cfg.g_options < 2 ^ 32) :
    (∀ choice ∈ [0, 1, 2],
      atMostOneMode o (applyGraphics o choice w).cfg.g_options ∧
      sameOutside (o.OPT_HIRES ||| o.OPT_VECTOR) w.cfg.g_options
        (applyGraphics o choice w).cfg.g_options) ∧
    (∀ value ∈ ["NORMAL".toList, "HIRES".toList, "VECTOR".toList],
      atMostOneMode o (applyEntry o w.cfg "graphicsMode".toList value).g_options ∧
      sameOutside (o.OPT_HIRES ||| o.OPT_VECTOR) w.cfg.g_options
        (applyEntry o w.cfg "graphicsMode".toList value).g_options) ∧
    (∀ choice ∈ [0, 1],
      sameOutside o.OPT_STEREO w.cfg.g_options (applySndMode o choice w).cfg.g_options) ∧
    (∀ value ∈ ["STEREO".toList, "MONO".toList],
      sameOutside o.OPT_STEREO w.cfg.g_options
        (applyEntry o w.cfg "stereoMode".toList value).g_options) ∧
    ((loadDefaults o w.cfg).g_options &&& o.OPT_STEREO = o.OPT_STEREO ∧
      (loadDefaults o w.cfg).g_options &&& o.OPT_HIRES = 0 ∧
      (loadDefaults o w.cfg).g_options &&& o.OPT_VECTOR = 0 ∧
      sameOutside (o.OPT_HIRES ||| o.OPT_VECTOR ||| o.OPT_STEREO) w.cfg.g_options
        (loadDefaults o w.cfg).g_options) := by
  have hgfx := gfx_frame o ho w.cfg.g_options hg
  have hst := stereo_frame o ho w.cfg.g_options hg
  have hgfx' := gfx_frame o ho
  obtain ⟨hV, hH, hS, -, -, -, hVH, hVS, hHS⟩ := ho
  refine ⟨?_, ?_, ?_, ?_, ?_, ?_, ?_, ?_⟩
  · intro choice hc
    simp only [List.mem_cons, List.mem_singleton, List.not_mem_nil, or_false] at hc
    rcases hc with h | h | h <;> subst h
    · exact hgfx _ (by simp [applyGraphics])
    · exact hgfx _ (by simp [applyGraphics])
    · exact hgfx _ (by simp [applyGraphics])
  · intro value hv
    simp only [List.mem_cons, List.mem_singleton, List.not_mem_nil, or_false] at hv
    rcases hv with h | h | h <;> subst h
    · exact hgfx _ (by simp [applyEntry])
    · exact hgfx _ (by simp [applyEntry])
    · exact hgfx _ (by simp [applyEntry])
  · intro choice hc
    simp only [List.mem_cons, List.mem_singleton, List.not_mem_nil, or_false] at hc
    rcases hc with h | h <;> subst h
    · exact hst _ (by simp [applySndMode])
    · exact hst _ (by simp [applySndMode])
  · intro value hv
    simp only [List.mem_cons, List.mem_singleton, List.not_mem_nil, or_false] at hv
    rcases hv with h | h <;> subst h
    · exact hst _ (by simp [applyEntry])
    · exact hst _ (by simp [applyEntry])
  · show (stereoOn o (gfxNormal o w.cfg.g_options)) &&& o.OPT_STEREO = o.OPT_STEREO
    unfold stereoOn
    rw [Nat.land_comm]
    exact and_or_self_right _ _
  · show (stereoOn o (gfxNormal o w.cfg.g_options)) &&& o.OPT_HIRES = 0
    exact or_and_disjoint _ _ _ hHS
      (and_bitNot32_sub _ _ _ (Nat.or_lt_two_pow hV hH) (and_or_self_right _ _))
  · show (stereoOn o (gfxNormal o w.cfg.g_options)) &&& o.OPT_VECTOR = 0
    exact or_and_disjoint _ _ _ hVS
      (and_bitNot32_sub _ _ _ (Nat.or_lt_two_pow hV hH) (and_or_self_left _ _))
  · show sameOutside _ _ (stereoOn o (gfxNormal o w.cfg.g_options))
    refine sameOutside_trans _ _ (gfxNormal o w.cfg.g_options) _ ?_ ?_
    · exact sameOutside_mono _ _ _ _ (hgfx _ (by simp)).2
        fun i hi => testBit_or_false_left _ _ i hi
    · exact sameOutside_mono _ _ _ _ (sameOutside_or _ _)
        fun i hi => testBit_or_false_right _ _ i hi

/-- Application of `graphics_stereo_separate`: the masks 1, 2, 4 and the register of the
sample state. -/
theorem graphics_stereo_separate_witness :
    sampleMasks.WF ∧ sampleWorld.cfg.g_options < 2 ^ 32 ∧
    ((∀ choice ∈ [0, 1, 2],
      atMostOneMode sampleMasks (applyGraphics sampleMasks choice sampleWorld).cfg.g_options ∧
      sameOutside (sampleMasks.OPT_HIRES ||| sampleMasks.OPT_VECTOR) sampleWorld.cfg.g_options
        (applyGraphics sampleMasks choice sampleWorld).cfg.g_options) ∧
    (∀ value ∈ ["NORMAL".toList, "HIRES".toList, "VECTOR".toList],
      atMostOneMode sampleMasks
        (applyEntry sampleMasks sampleWorld.cfg "graphicsMode".toList value).g_options ∧
      sameOutside (sampleMasks.OPT_HIRES ||| sampleMasks.OPT_VECTOR) sampleWorld.cfg.g_options
        (applyEntry sampleMasks sampleWorld.cfg "graphicsMode".toList value).g_options) ∧
    (∀ choice ∈ [0, 1],
      sameOutside sampleMasks.OPT_STEREO sampleWorld.cfg.g_options
        (applySndMode sampleMasks choice sampleWorld).cfg.g_options) ∧
    (∀ value ∈ ["STEREO".toList, "MONO".toList],
      sameOutside sampleMasks.OPT_STEREO sampleWorld.cfg.g_options
        (applyEntry sampleMasks sampleWorld.cfg "stereoMode".toList value).g_options) ∧
    ((loadDefaults sampleMasks sampleWorld.cfg).g_options &&& sampleMasks.OPT_STEREO =
        sampleMasks.OPT_STEREO ∧
      (loadDefaults sampleMasks sampleWorld.cfg).g_options &&& sampleMasks.OPT_HIRES = 0 ∧
      (loadDefaults sampleMasks sampleWorld.cfg).g_options &&& sampleMasks.OPT_VECTOR = 0 ∧
      sameOutside (sampleMasks.OPT_HIRES ||| sampleMasks.OPT_VECTOR ||| sampleMasks.OPT_STEREO)
        sampleWorld.cfg.g_options (loadDefaults sampleMasks sampleWorld.cfg).g_options)) :=
  ⟨by decide, by decide, graphics_stereo_separate sampleMasks (by decide) sampleWorld (by decide)⟩

end OSLink
